import Mathlib

/-!
# Battery sub-models of `shared/lib_battery.cpp`

A shallow embedding of the capacity and lifetime components of the battery
library, with the properties of their state that the specification names.

Conventions of the embedding:

* C++ `double` values are exact rationals (`ℚ`): every statement below is a
  statement over exact arithmetic, without rounding, infinities or NaN.  A
  quotient whose divisor is zero has the value `0` in `ℚ`; statements that
  rest on a quotient name the condition that keeps its divisor away from zero.
* `int` members are `Int`; the counters stay far inside the range of `int`.
* A member function that mutates `this` is a function from the old object
  state to the new one, paired with the returned value when there is one.
* `exp` is not a rational function: the routines that call it take it as the
  argument `expf`.
-/

set_option autoImplicit false

/-! ## Capacity base class -/

/-- Modelled from the spec: the charging-direction enumeration of the header
`lib_battery.h` (three pairwise distinct enumerators). -/
inductive ChargeMode where
  | CHARGE
  | NO_CHARGE
  | DISCHARGE
deriving DecidableEq, Repr

/-- Data members of `capacity_t`. -/
structure capacity_t where
  q0 : ℚ
  qmax : ℚ
  qmax0 : ℚ
  I : ℚ
  I_loss : ℚ
  dt_hour : ℚ
  SOC : ℚ
  SOC_max : ℚ
  DOD : ℚ
  DOD_prev : ℚ
  prev_charge : ChargeMode
  chargeChange : Bool
deriving DecidableEq

namespace capacity_t

/-- Constructor `capacity_t::capacity_t(q, SOC_max)`. -/
def mk0 (q SOC_max : ℚ) : capacity_t :=
  { q0 := (1 / 100) * SOC_max * q
    qmax := q
    qmax0 := q
    I := 0
    I_loss := 0
    dt_hour := 0
    SOC := SOC_max
    SOC_max := SOC_max
    DOD := 0
    DOD_prev := 0
    prev_charge := ChargeMode.DISCHARGE
    chargeChange := false }

/-- Member `capacity_t::check_charge_change`. -/
def check_charge_change (s : capacity_t) : capacity_t :=
  let charging : ChargeMode :=
    if s.I < 0 then ChargeMode.CHARGE
    else if s.I > 0 then ChargeMode.DISCHARGE
    else ChargeMode.NO_CHARGE
  let s1 := { s with chargeChange := false }
  if charging ≠ s1.prev_charge ∧ charging ≠ ChargeMode.NO_CHARGE
      ∧ s1.prev_charge ≠ ChargeMode.NO_CHARGE then
    { s1 with chargeChange := true, prev_charge := charging }
  else s1

/-- Member `capacity_t::update_SOC`. -/
def update_SOC (s : capacity_t) : capacity_t :=
  let soc1 : ℚ := if s.qmax > 0 then 100 * (s.q0 / s.qmax) else 0
  let soc2 : ℚ :=
    if soc1 > s.SOC_max then s.SOC_max
    else if soc1 < 0 then 0
    else soc1
  { s with SOC := soc2, DOD := 100 - soc2 }

end capacity_t

/-! ## Lithium-ion capacity model -/

namespace capacity_lithium_ion_t

/-- Constructor `capacity_lithium_ion_t(q, SOC_max)`: the base constructor,
no further members. -/
def mk0 (q SOC_max : ℚ) : capacity_t := capacity_t.mk0 q SOC_max

/-- Member `capacity_lithium_ion_t::replace_battery`. -/
def replace_battery (s : capacity_t) : capacity_t :=
  { s with q0 := s.qmax0, qmax := s.qmax0 }

/-- Member `capacity_lithium_ion_t::updateCapacity(I, dt)`. -/
def updateCapacity (s : capacity_t) (I dt : ℚ) : capacity_t :=
  let s1 := { s with DOD_prev := s.DOD, I_loss := 0, dt_hour := dt }
  let q0_old := s1.q0
  let s2 := { s1 with I := I }
  let s3 := { s2 with q0 := s2.q0 - s2.I * dt }
  let s4 :=
    if s3.q0 > s3.qmax then { s3 with I := -(s3.qmax - q0_old) / dt, q0 := s3.qmax }
    else s3
  let s5 :=
    if s4.q0 < 0 then { s4 with I := q0_old / dt, q0 := 0 }
    else s4
  (s5.update_SOC).check_charge_change

/-- Member `capacity_lithium_ion_t::updateCapacityForThermal`. -/
def updateCapacityForThermal (s : capacity_t) (capacity_percent : ℚ) : capacity_t :=
  let qmax_tmp := s.qmax * capacity_percent
  let s1 :=
    if s.q0 > qmax_tmp then
      { s with I_loss := s.I_loss + (s.q0 - qmax_tmp) / s.dt_hour, q0 := qmax_tmp }
    else s
  s1.update_SOC

/-- Member `capacity_lithium_ion_t::updateCapacityForLifetime`. -/
def updateCapacityForLifetime (s : capacity_t) (capacity_percent : ℚ) : capacity_t :=
  let s1 :=
    if s.qmax0 * capacity_percent * (1 / 100) ≤ s.qmax then
      { s with qmax := s.qmax0 * capacity_percent * (1 / 100) }
    else s
  let s2 :=
    if s1.q0 > s1.qmax then
      { s1 with I_loss := s1.I_loss + (s1.q0 - s1.qmax) / s1.dt_hour, q0 := s1.qmax }
    else s1
  s2.update_SOC

end capacity_lithium_ion_t

/-! ## KiBaM capacity model -/

/-- Data members of `capacity_kibam_t` (the base-class members come first). -/
structure capacity_kibam_t extends capacity_t where
  q10 : ℚ
  q20 : ℚ
  I20 : ℚ
  q1 : ℚ
  q2 : ℚ
  t1 : ℚ
  t2 : ℚ
  F1 : ℚ
  F2 : ℚ
  c : ℚ
  k : ℚ
  q1_0 : ℚ
  q2_0 : ℚ

namespace capacity_kibam_t

/-- Member `capacity_kibam_t::replace_battery`. -/
def replace_battery (s : capacity_kibam_t) : capacity_kibam_t :=
  let s1 := { s with q0 := s.q20 }
  let s2 := { s1 with q1_0 := s1.q0 * s1.c }
  let s3 := { s2 with q2_0 := s2.q0 - s2.q1_0 }
  { s3 with qmax := s3.qmax0 }

/-- Member `capacity_kibam_t::c_compute`.  The quotient is `none` when the
denominator is zero, where the C++ value is an infinity or a NaN. -/
def c_compute (expf : ℚ → ℚ) (F t1 t2 k_guess : ℚ) : Option ℚ :=
  let num := F * (1 - expf (-k_guess * t1)) * t2 - (1 - expf (-k_guess * t2)) * t1
  let denom := F * (1 - expf (-k_guess * t1)) * t2 - (1 - expf (-k_guess * t2)) * t1
    - k_guess * F * t1 * t2 + k_guess * t1 * t2
  if denom = 0 then none else some (num / denom)

/-- Member `capacity_kibam_t::q1_compute`. -/
def q1_compute (expf : ℚ → ℚ) (s : capacity_kibam_t) (q10 q0 dt I : ℚ) : ℚ :=
  let A := q10 * expf (-s.k * dt)
  let B := (q0 * s.k * s.c - I) * (1 - expf (-s.k * dt)) / s.k
  let C := I * s.c * (s.k * dt - 1 + expf (-s.k * dt)) / s.k
  A + B - C

/-- Member `capacity_kibam_t::q2_compute`. -/
def q2_compute (expf : ℚ → ℚ) (s : capacity_kibam_t) (q20 q0 dt I : ℚ) : ℚ :=
  let A := q20 * expf (-s.k * dt)
  let B := q0 * (1 - s.c) * (1 - expf (-s.k * dt))
  let C := I * (1 - s.c) * (s.k * dt - 1 + expf (-s.k * dt)) / s.k
  A + B - C

/-- Member `capacity_kibam_t::Icmax_compute`. -/
def Icmax_compute (expf : ℚ → ℚ) (s : capacity_kibam_t) (q10 q0 dt : ℚ) : ℚ :=
  let num := -s.k * s.c * s.qmax + s.k * q10 * expf (-s.k * dt)
    + q0 * s.k * s.c * (1 - expf (-s.k * dt))
  let denom := 1 - expf (-s.k * dt) + s.c * (s.k * dt - 1 + expf (-s.k * dt))
  num / denom

/-- Member `capacity_kibam_t::Idmax_compute`. -/
def Idmax_compute (expf : ℚ → ℚ) (s : capacity_kibam_t) (q10 q0 dt : ℚ) : ℚ :=
  let num := s.k * q10 * expf (-s.k * dt) + q0 * s.k * s.c * (1 - expf (-s.k * dt))
  let denom := 1 - expf (-s.k * dt) + s.c * (s.k * dt - 1 + expf (-s.k * dt))
  num / denom

/-- Member `capacity_kibam_t::qmax_compute`. -/
def qmax_compute (expf : ℚ → ℚ) (s : capacity_kibam_t) : ℚ :=
  let num := s.q20 * ((1 - expf (-s.k * 20)) * (1 - s.c) + s.k * s.c * 20)
  let denom := s.k * s.c * 20
  num / denom

/-- One pass of the body of the search loop of `parameter_compute` for the
loop index `i`; the accumulator is `(minRes, _k, _c)`.  A candidate whose
`c1` or `c2` is not finite fails the comparison `fabs(c1 - c2) < minRes`. -/
def parameter_step (expf : ℚ → ℚ) (s : capacity_kibam_t) (acc : ℚ × ℚ × ℚ) (i : ℕ) :
    ℚ × ℚ × ℚ :=
  let k_guess : ℚ := (i : ℚ) * (1 / 1000)
  match c_compute expf s.F1 s.t1 20 k_guess, c_compute expf s.F2 s.t1 s.t2 k_guess with
  | some c1, some c2 =>
    if |c1 - c2| < acc.1 then (|c1 - c2|, k_guess, (1 / 2) * (c1 + c2)) else acc
  | _, _ => acc

/-- Member `capacity_kibam_t::parameter_compute`. -/
def parameter_compute (expf : ℚ → ℚ) (s : capacity_kibam_t) : capacity_kibam_t :=
  let r := (List.range 5000).foldl (parameter_step expf s) (10000, s.k, s.c)
  let s1 := { s with k := r.2.1, c := r.2.2 }
  { s1 with qmax := qmax_compute expf s1 }

/-- Constructor `capacity_kibam_t(q20, t1, q1, q10, SOC_max)`.  The members
`_k` and `_c` are not set before the search of `parameter_compute`; their
indeterminate values are the arguments `k_init` and `c_init`. -/
def mk0 (expf : ℚ → ℚ) (k_init c_init : ℚ) (q20 t1 q1 q10 SOC_max : ℚ) :
    capacity_kibam_t :=
  let s0 : capacity_kibam_t :=
    { capacity_t.mk0 q20 SOC_max with
      q10 := q10
      q20 := q20
      I20 := q20 / 20
      q1 := q1
      q2 := q10
      t1 := t1
      t2 := 10
      F1 := q1 / q20
      F2 := q1 / q10
      c := c_init
      k := k_init
      q1_0 := 0
      q2_0 := 0 }
  let s1 := parameter_compute expf s0
  let s2 := { s1 with qmax0 := s1.qmax }
  replace_battery s2

/-- Member `capacity_kibam_t::updateCapacity(I, dt_hour)`. -/
def updateCapacity (expf : ℚ → ℚ) (s : capacity_kibam_t) (I dt_hour : ℚ) :
    capacity_kibam_t :=
  let s1 := { s with DOD_prev := s.DOD, I_loss := 0, I := I, dt_hour := dt_hour }
  let s2 :=
    if s1.I > 0 then
      let Idmax := Idmax_compute expf s1 s1.q1_0 s1.q0 dt_hour
      { s1 with I := min s1.I Idmax }
    else if s1.I < 0 then
      let Icmax := Icmax_compute expf s1 s1.q1_0 s1.q0 dt_hour
      { s1 with I := -(min |s1.I| |Icmax|) }
    else s1
  let q1 := q1_compute expf s2 s2.q1_0 s2.q0 dt_hour s2.I
  let q2 := q2_compute expf s2 s2.q2_0 s2.q0 dt_hour s2.I
  let r : capacity_kibam_t × ℚ × ℚ :=
    if q1 + q2 > s2.qmax then
      let q0 := q1 + q2
      let p1 := q1 / q0
      let p2 := q2 / q0
      let s3 := { s2 with q0 := s2.qmax }
      (s3, s3.q0 * p1, s3.q0 * p2)
    else (s2, q1, q2)
  let s4 := { r.1 with q1_0 := r.2.1, q2_0 := r.2.2, q0 := r.2.1 + r.2.2 }
  { s4 with tocapacity_t := (s4.tocapacity_t.update_SOC).check_charge_change }

/-- Member `capacity_kibam_t::updateCapacityForThermal`. -/
def updateCapacityForThermal (s : capacity_kibam_t) (capacity_percent : ℚ) :
    capacity_kibam_t :=
  let qmax_tmp := s.qmax * capacity_percent
  let s1 :=
    if s.q0 > qmax_tmp then
      let q0_orig := s.q0
      let p := qmax_tmp / s.q0
      let s2 := { s with q0 := s.q0 * p }
      let s3 := { s2 with q1 := s2.q1 * p }
      let s4 := { s3 with q2 := s3.q2 * p }
      { s4 with I_loss := s4.I_loss + (q0_orig - s4.q0) / s4.dt_hour }
    else s
  { s1 with tocapacity_t := s1.tocapacity_t.update_SOC }

/-- Member `capacity_kibam_t::updateCapacityForLifetime`. -/
def updateCapacityForLifetime (s : capacity_kibam_t) (capacity_percent : ℚ) :
    capacity_kibam_t :=
  let s0 :=
    if s.qmax0 * capacity_percent * (1 / 100) ≤ s.qmax then
      { s with qmax := s.qmax0 * capacity_percent * (1 / 100) }
    else s
  let s1 :=
    if s0.q0 > s0.qmax then
      let q0_orig := s0.q0
      let p := s0.qmax / s0.q0
      let s2 := { s0 with q0 := s0.q0 * p }
      let s3 := { s2 with q1 := s2.q1 * p }
      let s4 := { s3 with q2 := s3.q2 * p }
      { s4 with I_loss := s4.I_loss + (q0_orig - s4.q0) / s4.dt_hour }
    else s0
  { s1 with tocapacity_t := s1.tocapacity_t.update_SOC }

/-- Accessor `capacity_kibam_t::q1()`, the available-charge tank. -/
def get_q1 (s : capacity_kibam_t) : ℚ := s.q1_0

/-- Accessor `capacity_kibam_t::q2()`, the bound-charge tank. -/
def get_q2 (s : capacity_kibam_t) : ℚ := s.q2_0

end capacity_kibam_t

/-! ## Lifetime model -/

/-- Modelled from the spec: the return codes of the rainflow steps, an
enumeration of the header `lib_battery.h` (pairwise distinct enumerators). -/
inductive RetCode where
  | LT_SUCCESS
  | LT_GET_DATA
  | LT_RERANGE
deriving DecidableEq, Repr

/-- Data members of `lifetime_t`.  The degradation table is kept as its three
column vectors; the peak buffer `_Peaks` is a list whose last element is the
back of the vector. -/
structure lifetime_t where
  DOD_vect : List ℚ
  cycles_vect : List ℚ
  capacities_vect : List ℚ
  replacement_option : Int
  replacement_capacity : ℚ
  replacements : Int
  replacement_scheduled : Bool
  nCycles : Int
  Dlt : ℚ
  Clt : ℚ
  jlt : Int
  Xlt : ℚ
  Ylt : ℚ
  Range : ℚ
  average_range : ℚ
  Peaks : List ℚ
deriving DecidableEq

namespace lifetime_t

/-- Element read `_Peaks[i]` with an `int` index.  A read outside the buffer,
undefined in C++, yields `0`. -/
def peak (s : lifetime_t) (i : Int) : ℚ := s.Peaks.getD i.toNat 0

/-- Constructor `lifetime_t(batt_lifetime_matrix, replacement_option,
replacement_capacity)`; the table is the list of its rows.  The member
function `bilinear` interpolates in the table through `util::linterp_col` and
`util::interpolate`, which are not part of these sources: its value is the
argument `bilinear` here and in the members that call it.  This is the state
that the constructor leaves when its call `bilinear(0., 0)` has a value, which
takes a table with at least one row; the constructor on every table, with the
read of the first row that `bilinear` starts with, is `lifetime_t.construct`
below. -/
def mk0 (bilinear : ℚ → Int → ℚ) (batt_lifetime_matrix : List (ℚ × ℚ × ℚ))
    (replacement_option : Int) (replacement_capacity : ℚ) : lifetime_t :=
  { DOD_vect := batt_lifetime_matrix.map (fun r => r.1)
    cycles_vect := batt_lifetime_matrix.map (fun r => r.2.1)
    capacities_vect := batt_lifetime_matrix.map (fun r => r.2.2)
    replacement_option := replacement_option
    replacement_capacity := if replacement_capacity = 0 then 2 else replacement_capacity
    replacements := 0
    replacement_scheduled := false
    nCycles := 0
    Dlt := 0
    Clt := bilinear 0 0
    jlt := 0
    Xlt := 0
    Ylt := 0
    Range := 0
    average_range := 0
    Peaks := [] }

/-- Member `lifetime_t::rainflow_ranges`. -/
def rainflow_ranges (s : lifetime_t) : lifetime_t :=
  let s1 := { s with Ylt := |s.peak (s.jlt - 1) - s.peak (s.jlt - 2)| }
  { s1 with Xlt := |s1.peak s1.jlt - s1.peak (s1.jlt - 1)| }

/-- Member `lifetime_t::rainflow_compareRanges`: the new state and the
returned code. -/
def rainflow_compareRanges (bilinear : ℚ → Int → ℚ) (s : lifetime_t) :
    lifetime_t × RetCode :=
  let retCode : RetCode :=
    if s.Xlt < s.Ylt then RetCode.LT_GET_DATA else RetCode.LT_SUCCESS
  let contained : Bool :=
    if s.Xlt < s.Ylt then true else if s.Xlt ≥ s.Ylt then false else true
  if contained = false then
    let s1 := { s with Range := s.Ylt }
    let s2 := { s1 with
      average_range := (s1.average_range * s1.nCycles + s1.Range) / (s1.nCycles + 1) }
    let s3 := { s2 with nCycles := s2.nCycles + 1 }
    let s4 :=
      if bilinear s3.average_range s3.nCycles ≤ s3.Clt then
        { s3 with Clt := bilinear s3.average_range s3.nCycles }
      else s3
    let s5 := if s4.Clt < 0 then { s4 with Clt := 0 } else s4
    let save := s5.peak s5.jlt
    let s6 := { s5 with Peaks := s5.Peaks.dropLast.dropLast.dropLast ++ [save] }
    ({ s6 with jlt := s6.jlt - 2 }, RetCode.LT_RERANGE)
  else (s, retCode)

/-- The `while (atStepTwo)` loop of `lifetime_t::rainflow`, with the state and
the value of `retCode` at the exit.  Every pass that does not leave the loop
needs `_jlt >= 2` and lowers `_jlt` by 2, so the bound `n` is never the reason
for stopping when `n` is at least `_jlt` (`rainflow_loop_bound`). -/
def rainflow_loop (bilinear : ℚ → Int → ℚ) : ℕ → lifetime_t → lifetime_t × RetCode
  | 0, s => (s, RetCode.LT_GET_DATA)
  | n + 1, s =>
    if s.jlt ≥ 2 then
      let r := rainflow_compareRanges bilinear (rainflow_ranges s)
      if r.2 = RetCode.LT_GET_DATA then r else rainflow_loop bilinear n r.1
    else (s, RetCode.LT_GET_DATA)

/-- Member `lifetime_t::rainflow(DOD)`. -/
def rainflow (bilinear : ℚ → Int → ℚ) (s : lifetime_t) (DOD : ℚ) : lifetime_t :=
  let s1 := { s with Peaks := s.Peaks ++ [DOD] }
  let r := rainflow_loop bilinear s1.jlt.toNat s1
  if r.2 = RetCode.LT_GET_DATA then { r.1 with jlt := r.1.jlt + 1 } else r.1

/-- Member `lifetime_t::check_replaced`: the new state and the returned flag. -/
def check_replaced (bilinear : ℚ → Int → ℚ) (s : lifetime_t) : lifetime_t × Bool :=
  if (s.replacement_option = 1 ∧ s.Clt ≤ s.replacement_capacity)
      ∨ s.replacement_scheduled = true then
    ({ s with
        replacements := s.replacements + 1
        Clt := bilinear 0 0
        Dlt := 0
        nCycles := 0
        jlt := 0
        Xlt := 0
        Ylt := 0
        Range := 0
        Peaks := []
        replacement_scheduled := false }, true)
  else (s, false)

/-- Member `lifetime_t::force_replacement`. -/
def force_replacement (s : lifetime_t) : lifetime_t :=
  { s with replacement_scheduled := true }

/-- Member `lifetime_t::reset_replacements`. -/
def reset_replacements (s : lifetime_t) : lifetime_t :=
  { s with replacements := 0 }

/-- Accessor `lifetime_t::replacements`. -/
def replacements_ (s : lifetime_t) : Int := s.replacements

/-- Accessor `lifetime_t::cycles_elapsed`. -/
def cycles_elapsed (s : lifetime_t) : Int := s.nCycles

/-- Accessor `lifetime_t::capacity_percent`. -/
def capacity_percent (s : lifetime_t) : ℚ := s.Clt

/-- The state after feeding the samples of `ds` to `rainflow`, first sample
first. -/
def rainflow_all (bilinear : ℚ → Int → ℚ) (s : lifetime_t) (ds : List ℚ) : lifetime_t :=
  ds.foldl (rainflow bilinear) s

end lifetime_t

/-- Member `lifetime_t::bilinear(DOD, cycle_number)` on the vector `_DOD_vect`
of a model, as far as these sources determine it.  Its first statement,
`D_unique_vect.push_back(_DOD_vect[0])`, reads the first entry of `_DOD_vect`:
when the table has no row there is no such entry, the read is out of range
(undefined in C++) and there is no result (`none`).  The statements after it
interpolate through `util::linterp_col` and `util::interpolate`, which are not
part of these sources; their result is the argument `interpolated`. -/
def lifetime_t.bilinear (interpolated : ℚ → Int → ℚ) (DOD_vect : List ℚ) (DOD : ℚ)
    (cycle_number : Int) : Option ℚ :=
  match DOD_vect with
  | [] => none
  | _ :: _ => some (interpolated DOD cycle_number)

/-- Constructor `lifetime_t(batt_lifetime_matrix, replacement_option,
replacement_capacity)` on every table: the members are set as in `mk0`, and
`_Clt = bilinear(0., 0)` is the call of the member `bilinear` above; when that
call has no result, no model is constructed (`none`). -/
def lifetime_t.construct (interpolated : ℚ → Int → ℚ)
    (batt_lifetime_matrix : List (ℚ × ℚ × ℚ)) (replacement_option : Int)
    (replacement_capacity : ℚ) : Option lifetime_t :=
  let s := lifetime_t.mk0 interpolated batt_lifetime_matrix replacement_option
    replacement_capacity
  match lifetime_t.bilinear interpolated s.DOD_vect 0 0 with
  | none => none
  | some Clt => some { s with Clt := Clt }

/-! ## Voltage model -/

/-- Data members of `voltage_t`. -/
structure voltage_t where
  num_cells_series : Int
  num_strings : Int
  cell_voltage : ℚ
  R : ℚ

namespace voltage_t

/-- Constructor `voltage_t(num_cells_series, num_strings, voltage)`. -/
def mk0 (num_cells_series num_strings : Int) (voltage : ℚ) : voltage_t :=
  { num_cells_series := num_cells_series
    num_strings := num_strings
    cell_voltage := voltage
    R := 4 / 1000 }

/-- Accessor `voltage_t::battery_voltage`. -/
def battery_voltage (s : voltage_t) : ℚ := s.num_cells_series * s.cell_voltage

end voltage_t

/-- Data members of `voltage_dynamic_t` (the base-class members come first). -/
structure voltage_dynamic_t extends voltage_t where
  Vfull : ℚ
  Vexp : ℚ
  Vnom : ℚ
  Qfull : ℚ
  Qexp : ℚ
  Qnom : ℚ
  C_rate : ℚ
  A : ℚ
  B : ℚ
  K : ℚ
  E0 : ℚ

namespace voltage_dynamic_t

/-- Member `voltage_dynamic_t::parameter_compute`. -/
def parameter_compute (expf : ℚ → ℚ) (s : voltage_dynamic_t) : voltage_dynamic_t :=
  let I := s.Qfull * s.C_rate
  let s1 := { s with A := s.Vfull - s.Vexp }
  let s2 := { s1 with B := 3 / s1.Qexp }
  let s3 := { s2 with
    K := ((s2.Vfull - s2.Vnom + s2.A * (expf (-s2.B * s2.Qnom) - 1)) * (s2.Qfull - s2.Qnom))
      / s2.Qnom }
  { s3 with E0 := s3.Vfull + s3.K + s3.R * I - s3.A }

/-- Constructor `voltage_dynamic_t(num_cells_series, num_strings, voltage,
Vfull, Vexp, Vnom, Qfull, Qexp, Qnom, C_rate, R)`; the four fitted constants
are written by `parameter_compute` before they are read. -/
def mk0 (expf : ℚ → ℚ) (num_cells_series num_strings : Int)
    (voltage Vfull Vexp Vnom Qfull Qexp Qnom C_rate R : ℚ) : voltage_dynamic_t :=
  let s0 : voltage_dynamic_t :=
    { voltage_t.mk0 num_cells_series num_strings voltage with
      Vfull := Vfull
      Vexp := Vexp
      Vnom := Vnom
      Qfull := Qfull
      Qexp := Qexp
      Qnom := Qnom
      C_rate := C_rate
      A := 0
      B := 0
      K := 0
      E0 := 0 }
  let s1 := { s0 with R := R }
  let s2 := { s1 with cell_voltage := s1.Vfull }
  parameter_compute expf s2

/-- The value `V = E0 - K*(Q/(Q - it)) + A*exp(-B*it) - R*I` with `it = Q - q0`
that `voltage_model_tremblay_hybrid` forms before its guards.  It is `none`
when the divisor `Q - it` is zero: the C++ value is then an infinity or a NaN,
for which `!std::isfinite(V)` holds. -/
def tremblay_raw (expf : ℚ → ℚ) (s : voltage_dynamic_t) (Q I q0 : ℚ) : Option ℚ :=
  let it := Q - q0
  if Q - it = 0 then none
  else
    let E := s.E0 - s.K * (Q / (Q - it)) + s.A * expf (-s.B * it)
    some (E - s.R * I)

/-- Member `voltage_dynamic_t::voltage_model_tremblay_hybrid(Q, I, q0)`. -/
def voltage_model_tremblay_hybrid (expf : ℚ → ℚ) (s : voltage_dynamic_t) (Q I q0 : ℚ) : ℚ :=
  match tremblay_raw expf s Q I q0 with
  | none => (1 / 2) * s.Vnom
  | some V =>
    if V < 0 then (1 / 2) * s.Vnom
    else if V > s.Vfull * (5 / 4) then s.Vfull
    else V

/-- Member `voltage_dynamic_t::updateVoltage(capacity, dt)`. -/
def updateVoltage (expf : ℚ → ℚ) (s : voltage_dynamic_t) (capacity : capacity_t)
    (_dt : ℚ) : voltage_dynamic_t :=
  let Q := capacity.qmax
  let I := capacity.I
  let q0 := capacity.q0
  let V := voltage_model_tremblay_hybrid expf s (Q / s.num_strings) (I / s.num_strings)
    (q0 / s.num_strings)
  { s with cell_voltage := V }

end voltage_dynamic_t

/-! ## Thermal model -/

/-- Data members of `thermal_t`; the capacity-versus-temperature table is the
list of its rows. -/
structure thermal_t where
  cap_vs_temp : List (ℚ × ℚ)
  mass : ℚ
  length : ℚ
  width : ℚ
  height : ℚ
  Cp : ℚ
  h : ℚ
  T_room : ℚ
  R : ℚ
  capacity_percent : ℚ
  A : ℚ
  T_battery : ℚ

namespace thermal_t

/-- Constructor `thermal_t(mass, length, width, height, Cp, h, T_room,
c_vs_t)`. -/
def mk0 (mass length width height Cp h T_room : ℚ) (c_vs_t : List (ℚ × ℚ)) : thermal_t :=
  { cap_vs_temp := c_vs_t.map (fun r => (r.1 + 27315 / 100, r.2))
    mass := mass
    length := length
    width := width
    height := height
    Cp := Cp
    h := h
    T_room := T_room
    R := 4 / 1000
    capacity_percent := 100
    A := 2 * (length * width + length * height + width * height)
    T_battery := T_room }

/-- Member `thermal_t::replace_battery`. -/
def replace_battery (s : thermal_t) : thermal_t :=
  { s with T_battery := s.T_room, capacity_percent := 100 }

/-- Member `thermal_t::f(T_battery, I)`. -/
def f (s : thermal_t) (T_battery I : ℚ) : ℚ :=
  (1 / (s.mass * s.Cp)) * ((s.h * (s.T_room - T_battery) * s.A) + I ^ 2 * s.R)

/-- Member `thermal_t::trapezoidal(I, dt)`, `dt` in seconds. -/
def trapezoidal (s : thermal_t) (I dt : ℚ) : ℚ :=
  let B := 1 / (s.mass * s.Cp)
  let C := s.h * s.A
  let D := I ^ 2 * s.R
  let T_prime := s.f s.T_battery I
  (s.T_battery + (1 / 2) * dt * (T_prime + B * (C * s.T_room + D))) / (1 + (1 / 2) * dt * B * C)

/-- The macro `HR2SEC`. -/
def HR2SEC : ℚ := 3600

/-- Member `thermal_t::updateTemperature(I, R, dt)`, `dt` in hours. -/
def updateTemperature (s : thermal_t) (I R dt : ℚ) : thermal_t :=
  let s1 := { s with R := R }
  { s1 with T_battery := s1.trapezoidal I (dt * HR2SEC) }

/-- The state after `n` calls of `updateTemperature` with zero current, the
resistance `Rs k` in call `k` and the timestep `dt`. -/
def run_idle (s : thermal_t) (Rs : ℕ → ℚ) (dt : ℚ) : ℕ → thermal_t
  | 0 => s
  | n + 1 => updateTemperature (run_idle s Rs dt n) 0 (Rs n) dt

end thermal_t

/-! ## Predicates used in the statements -/

/-- The reported state of charge lies in `[0, SOC_max]` for the configured
maximum `SOC_max`, and the reported depth of discharge is `100 - SOC`. -/
def SOC_in_bounds (SOC_max : ℚ) (s : capacity_t) : Prop :=
  0 ≤ s.SOC ∧ s.SOC ≤ SOC_max ∧ s.DOD = 100 - s.SOC

/-- The charge ordering `0 ≤ q0 ≤ qmax ≤ qmax0`. -/
def charge_ordered (s : capacity_t) : Prop :=
  0 ≤ s.q0 ∧ s.q0 ≤ s.qmax ∧ s.qmax ≤ s.qmax0

/-- The states a lifetime model constructed from `(table, o, t)` can be in:
the constructed state and every state that the public members produce from
one. -/
inductive lifetime_reachable (bilinear : ℚ → Int → ℚ) (table : List (ℚ × ℚ × ℚ)) (o : Int)
    (t : ℚ) : lifetime_t → Prop where
  | constructed : lifetime_reachable bilinear table o t (lifetime_t.mk0 bilinear table o t)
  | rainflow (s : lifetime_t) (DOD : ℚ) : lifetime_reachable bilinear table o t s →
      lifetime_reachable bilinear table o t (lifetime_t.rainflow bilinear s DOD)
  | check_replaced (s : lifetime_t) : lifetime_reachable bilinear table o t s →
      lifetime_reachable bilinear table o t (lifetime_t.check_replaced bilinear s).1
  | force_replacement (s : lifetime_t) : lifetime_reachable bilinear table o t s →
      lifetime_reachable bilinear table o t (lifetime_t.force_replacement s)
  | reset_replacements (s : lifetime_t) : lifetime_reachable bilinear table o t s →
      lifetime_reachable bilinear table o t (lifetime_t.reset_replacements s)

/-- Consecutive absolute differences of `xs` are strictly decreasing:
`|xs[i+2] - xs[i+1]| < |xs[i+1] - xs[i]|` for every `i` with `i + 2` in range. -/
def ranges_strictly_decreasing (xs : List ℚ) : Prop :=
  ∀ i : ℕ, i < xs.length - 2 →
    |xs.getD (i + 2) 0 - xs.getD (i + 1) 0| < |xs.getD (i + 1) 0 - xs.getD i 0|

instance (xs : List ℚ) : Decidable (ranges_strictly_decreasing xs) := by
  unfold ranges_strictly_decreasing
  infer_instance

/-- The rest state of the rainflow buffer between samples of a constant
sequence of value `d`: one buffered peak, `c` counted half-cycles and a zero
average range. -/
def flat_rest (d : ℚ) (c : Int) (s : lifetime_t) : Prop :=
  s.Peaks = [d] ∧ s.jlt = 1 ∧ s.nCycles = c ∧ s.average_range = 0

/-! ## Concrete inputs -/

/-- A rational stand-in for `exp` on arguments that are not positive. -/
def exp_approx (x : ℚ) : ℚ := 1 / (1 - x + x ^ 2 / 2)

/-- A lithium-ion state: 100 Ah, configured maximum 95 %. -/
def lithium_example : capacity_t := capacity_lithium_ion_t.mk0 100 95

/-- A KiBaM state as `replace_battery` leaves it: 20-hour capacity
`q20 = 100`, rate constant `k = 1`, capacity share `c = 1/2`, and the maximum
charge `23200/221` that `qmax_compute` gives for them with `exp_approx`. -/
def kibam_example : capacity_kibam_t :=
  { q0 := 100
    qmax := 23200 / 221
    qmax0 := 23200 / 221
    I := 0
    I_loss := 0
    dt_hour := 1
    SOC := 100
    SOC_max := 100
    DOD := 0
    DOD_prev := 0
    prev_charge := ChargeMode.DISCHARGE
    chargeChange := false
    q10 := 93
    q20 := 100
    I20 := 5
    q1 := 60
    q2 := 93
    t1 := 1
    t2 := 10
    F1 := 3 / 5
    F2 := 20 / 31
    c := 1 / 2
    k := 1
    q1_0 := 50
    q2_0 := 50 }

/-- A degradation table with rows at 20 % and 80 % depth of discharge. -/
def example_table : List (ℚ × ℚ × ℚ) :=
  [(20, 0, 100), (20, 5000, 80), (80, 0, 100), (80, 1000, 80)]

/-- A stand-in for the table lookup: full retention at zero cycles, falling
with the number of cycles and the depth of discharge. -/
def example_bilinear (DOD : ℚ) (cycle_number : Int) : ℚ :=
  100 - DOD * cycle_number / 100

/-- A degradation table whose retention is 1 % throughout. -/
def low_table : List (ℚ × ℚ × ℚ) := [(50, 0, 1), (50, 1000, 1)]

/-- The lookup of a table whose retention is 1 % throughout. -/
def low_bilinear (_DOD : ℚ) (_cycle_number : Int) : ℚ := 1

/-- A cell of the dynamic voltage model: full, exponential and nominal
voltages 4.1 V, 4.05 V and 3.4 V at charges 2.25 Ah, 0.04 Ah and 2 Ah, fitted
at the rate 0.2 C with the resistance 0.1 Ω. -/
def voltage_example : voltage_dynamic_t :=
  voltage_dynamic_t.mk0 exp_approx 14 1 (41 / 10) (41 / 10) (405 / 100) (34 / 10) (225 / 100)
    (4 / 100) 2 (2 / 10) (1 / 10)

/-- The coefficient `a = 0.5 * dt * 3600 * h * A / (mass * Cp)` of one thermal
step of `dt` hours. -/
def thermal_step_coefficient (s : thermal_t) (dt : ℚ) : ℚ :=
  (1 / 2) * dt * 3600 * s.h * s.A / (s.mass * s.Cp)

/-- A 100 kg battery in a room at 293.15 K, started 10 K warmer. -/
def thermal_example : thermal_t :=
  { thermal_t.mk0 100 1 1 1 1000 10 (29315 / 100) [(-10, 60), (25, 100)] with
    T_battery := 30315 / 100 }

/-! ## Dispatch controller -/

/-- Modelled from the spec: the unit constant `watt_to_kilowatt` of the header
`lib_battery.h`. -/
def watt_to_kilowatt : ℚ := 1 / 1000

/-- Modelled from the spec: the unit constant `kilowatt_to_watt` of the header
`lib_battery.h`. -/
def kilowatt_to_watt : ℚ := 1000

/-- Modelled from the spec: the unit constant `hour_to_min` of the header
`lib_battery.h`. -/
def hour_to_min : ℚ := 60

/-- The C function `round`: to the nearest integer, halves away from zero. -/
def c_round (x : ℚ) : ℚ := if 0 ≤ x then (⌊x + 1 / 2⌋ : ℤ) else (⌈x - 1 / 2⌉ : ℤ)

/-- The conversion of a `double` to `int`: truncation toward zero. -/
def c_trunc (x : ℚ) : Int := if 0 ≤ x then ⌊x⌋ else ⌈x⌉

/-- What `dispatch_t` reads from and does with the battery it refers to: the
voltage, total and maximum charge and state of charge before the step, and the
result of `battery_t::run(I)`, namely the current `capacity_model()->I()` and
the voltage `voltage_model()->battery_voltage()` after the run. -/
structure battery_view where
  battery_voltage : ℚ
  charge_total : ℚ
  charge_max : ℚ
  SOC : ℚ
  run : ℚ → ℚ × ℚ

/-- Member `battery_t::battery_charge_needed` on the charges of the view. -/
def battery_view.battery_charge_needed (B : battery_view) : ℚ :=
  let charge_needed := B.charge_max - B.charge_total
  if charge_needed > 0 then charge_needed else 0

/-- Data members of `dispatch_t`; the timer `_t_at_mode` and the bound `_t_min`
hold minutes. -/
structure dispatch_t where
  dt_hour : ℚ
  SOC_min : ℚ
  SOC_max : ℚ
  Ic_max : ℚ
  Id_max : ℚ
  I_loss : ℚ
  t_min : ℚ
  ac_or_dc : Bool
  dc_dc : ℚ
  ac_dc : ℚ
  dc_ac : ℚ
  pv_to_load : ℚ
  battery_to_load : ℚ
  grid_to_load : ℚ
  e_tofrom_batt : ℚ
  e_grid : ℚ
  e_gen : ℚ
  battery_fraction : ℚ
  pv_fraction : ℚ
  pv_to_batt : ℚ
  grid_to_batt : ℚ
  t_at_mode : ℚ
  prev_charging : Bool
  charging : Bool
  e_max_discharge : ℚ
  e_max_charge : ℚ
  grid_recharge : Bool
  charge_accumulated : ℚ
  discharge_accumulated : ℚ
  charge_annual : ℚ
  discharge_annual : ℚ
  grid_import_annual : ℚ
  grid_export_annual : ℚ
  e_loss_annual : ℚ
  average_efficiency : ℚ
  can_charge : Bool
  can_discharge : Bool
  can_grid_charge : Bool
  percent_discharge : ℚ
  percent_charge : ℚ

namespace dispatch_t

/-- Constructor `dispatch_t(Battery, dt_hour, SOC_min, SOC_max, Ic_max, Id_max,
t_min, ac_or_dc, dc_dc, ac_dc, dc_ac)`.  The five members that only `dispatch`
writes are not set here; their indeterminate values are the arguments `u1` to
`u5`. -/
def mk0 (B : battery_view) (dt_hour SOC_min SOC_max Ic_max Id_max t_min : ℚ) (ac_or_dc : Bool)
    (dc_dc ac_dc dc_ac : ℚ) (u1 u2 u3 : Bool) (u4 u5 : ℚ) : dispatch_t :=
  { dt_hour := dt_hour
    SOC_min := SOC_min
    SOC_max := SOC_max
    Ic_max := Ic_max
    Id_max := Id_max
    I_loss := 0
    t_min := t_min
    ac_or_dc := ac_or_dc
    dc_dc := dc_dc
    ac_dc := ac_dc
    dc_ac := dc_ac
    pv_to_load := 0
    battery_to_load := 0
    grid_to_load := 0
    e_tofrom_batt := 0
    e_grid := 0
    e_gen := 0
    battery_fraction := 0
    pv_fraction := 0
    pv_to_batt := 0
    grid_to_batt := 0
    t_at_mode := 1000
    prev_charging := false
    charging := false
    e_max_discharge := B.battery_voltage
      * (B.charge_total - B.charge_max * SOC_min * (1 / 100)) * watt_to_kilowatt
    e_max_charge := B.battery_voltage
      * (B.charge_total - B.charge_max * SOC_max * (1 / 100)) * watt_to_kilowatt
    grid_recharge := false
    charge_accumulated := B.charge_total * B.battery_voltage * watt_to_kilowatt
    discharge_accumulated := 0
    charge_annual := 0
    discharge_annual := 0
    grid_import_annual := 0
    grid_export_annual := 0
    e_loss_annual := 0
    average_efficiency := 100
    can_charge := u1
    can_discharge := u2
    can_grid_charge := u3
    percent_discharge := u4
    percent_charge := u5 }

/-- Accessor `dispatch_t::energy_loss_annual`. -/
def energy_loss_annual (s : dispatch_t) : ℚ := s.e_loss_annual

/-- Member `dispatch_t::new_year`. -/
def new_year (s : dispatch_t) : dispatch_t :=
  { s with
    charge_annual := 0
    discharge_annual := 0
    grid_import_annual := 0
    grid_export_annual := 0
    e_loss_annual := 0 }

/-- Member `dispatch_t::SOC_controller(battery_voltage, charge_total,
charge_max)`. -/
def SOC_controller (s : dispatch_t) (battery_voltage charge_total charge_max : ℚ) :
    dispatch_t :=
  if s.e_tofrom_batt > 0 then
    let s1 := { s with charging := false }
    let e_max_discharge0 :=
      battery_voltage * (charge_total - charge_max * s1.SOC_min * (1 / 100)) * watt_to_kilowatt
    let e_max_discharge := if e_max_discharge0 < 0 then 0 else e_max_discharge0
    let s2 :=
      if s1.e_tofrom_batt > e_max_discharge then { s1 with e_tofrom_batt := e_max_discharge }
      else s1
    let s3 :=
      if s2.charging ≠ s2.prev_charging then { s2 with e_max_discharge := e_max_discharge }
      else s2
    let e_percent := s3.e_max_discharge * s3.percent_discharge * (1 / 100)
    if s3.e_tofrom_batt > e_percent then { s3 with e_tofrom_batt := e_percent } else s3
  else if s.e_tofrom_batt < 0 then
    let s1 := { s with charging := true }
    let e_max_charge0 :=
      battery_voltage * (charge_total - charge_max * s1.SOC_max * (1 / 100)) * watt_to_kilowatt
    let e_max_charge := if e_max_charge0 > 0 then 0 else e_max_charge0
    let s2 :=
      if s1.e_tofrom_batt < e_max_charge then { s1 with e_tofrom_batt := e_max_charge }
      else s1
    let s3 :=
      if s2.charging ≠ s2.prev_charging then { s2 with e_max_charge := e_max_charge }
      else s2
    let e_percent := s3.e_max_charge * s3.percent_charge * (1 / 100)
    if |s3.e_tofrom_batt| > |e_percent| then { s3 with e_tofrom_batt := e_percent } else s3
  else { s with charging := s.prev_charging }

/-- Member `dispatch_t::switch_controller`. -/
def switch_controller (s : dispatch_t) : dispatch_t :=
  let s1 :=
    if s.charging ≠ s.prev_charging then
      if s.t_at_mode ≤ s.t_min then
        { s with
          e_tofrom_batt := 0
          charging := s.prev_charging
          t_at_mode := s.t_at_mode + c_round (s.dt_hour * hour_to_min) }
      else { s with t_at_mode := 0 }
    else s
  { s1 with t_at_mode := s1.t_at_mode + c_round (s1.dt_hour * hour_to_min) }

/-- Member `dispatch_t::current_controller(battery_voltage)`. -/
def current_controller (s : dispatch_t) (battery_voltage : ℚ) : ℚ :=
  let P := kilowatt_to_watt * s.e_tofrom_batt / s.dt_hour
  let I := P / battery_voltage
  if s.charging = true then
    if |I| > s.Ic_max then -s.Ic_max else I
  else
    if I > s.Id_max then s.Id_max else I

/-- Member `dispatch_t::compute_efficiency`. -/
def compute_efficiency (s : dispatch_t) : dispatch_t :=
  let s1 :=
    if s.e_tofrom_batt > 0 then
      { s with
        discharge_accumulated := s.discharge_accumulated + s.e_tofrom_batt
        discharge_annual := s.discharge_annual + s.e_tofrom_batt }
    else if s.e_tofrom_batt < 0 then
      { s with
        charge_accumulated := s.charge_accumulated + (-s.e_tofrom_batt)
        charge_annual := s.charge_annual + (-s.e_tofrom_batt) }
    else s
  let s2 := { s1 with
    average_efficiency := 100 * (s1.discharge_accumulated / s1.charge_accumulated) }
  { s2 with prev_charging := s2.charging }

/-- Member `dispatch_t::conversion_loss_in(I)`: the new state and the returned
current. -/
def conversion_loss_in (s : dispatch_t) (I : ℚ) : dispatch_t × ℚ :=
  let I_in := I
  let I1 := if s.ac_or_dc = false then I * (s.dc_dc * (1 / 100)) else I * (s.ac_dc * (1 / 100))
  ({ s with I_loss := s.I_loss + |I_in - I1| }, I1)

/-- Member `dispatch_t::conversion_loss_out(I)`: the new state and the returned
current. -/
def conversion_loss_out (s : dispatch_t) (I : ℚ) : dispatch_t × ℚ :=
  let I_in := I
  let I1 := if s.ac_or_dc = false then I * (s.dc_dc * (1 / 100)) else I * (s.dc_ac * (1 / 100))
  ({ s with I_loss := s.I_loss + |I_in - I1| }, I1)

/-- Member `dispatch_t::total_loss(I, battery_voltage, battery_voltage_new)`. -/
def total_loss (s : dispatch_t) (I battery_voltage battery_voltage_new : ℚ) : dispatch_t :=
  let multiplier := (1 / 2) * (battery_voltage + battery_voltage_new) * s.dt_hour
    * watt_to_kilowatt
  let s1 := if s.charging = true then (conversion_loss_in s I).1 else (conversion_loss_out s I).1
  let s2 := { s1 with e_tofrom_batt := s1.e_tofrom_batt - s1.I_loss * multiplier }
  { s2 with e_loss_annual := s2.charge_annual - s2.discharge_annual }

/-- Member `dispatch_t::compute_grid_net(e_gen, e_load)`.  Every member that
the function assigns is bound to the value of its last assignment, in the
order of the source, and the members are stored together at the end. -/
def compute_grid_net (s : dispatch_t) (e_gen e_load : ℚ) : dispatch_t :=
  let e_pv := e_gen * s.pv_fraction
  let e_tofrom_battery := e_gen * s.battery_fraction
  let e_grid := e_gen - e_load
  let grid_export_annual :=
    if e_grid > 0 then s.grid_export_annual + e_grid else s.grid_export_annual
  let grid_import_annual :=
    if e_grid > 0 then s.grid_import_annual else s.grid_import_annual + (-e_grid)
  let pv_to_load := if e_pv > e_load then e_load else e_pv
  let battery_to_load1 :=
    if e_pv > e_load then s.battery_to_load
    else if s.e_tofrom_batt > 0 then e_tofrom_battery else s.battery_to_load
  let battery_to_load :=
    if e_pv > e_load then s.battery_to_load
    else if battery_to_load1 > e_load ∨ battery_to_load1 + pv_to_load > e_load then
      e_load - pv_to_load
    else battery_to_load1
  let grid_to_load :=
    if e_pv > e_load then s.grid_to_load else e_load - (pv_to_load + battery_to_load)
  let pv_to_batt :=
    if s.pv_to_batt > 0 then
      if s.pv_to_batt > |s.e_tofrom_batt| then |s.e_tofrom_batt| else s.pv_to_batt
    else s.pv_to_batt
  let grid_to_batt := |s.e_tofrom_batt| - pv_to_batt
  { s with
    e_grid := e_grid
    grid_export_annual := grid_export_annual
    grid_import_annual := grid_import_annual
    pv_to_load := pv_to_load
    battery_to_load := battery_to_load
    grid_to_load := grid_to_load
    pv_to_batt := pv_to_batt
    grid_to_batt := grid_to_batt }

/-- The lines of `dispatch_manual_t::dispatch` that set `_e_gen` and the two
generation fractions from the PV energy and the battery energy of the step. -/
def generation_fractions (s : dispatch_t) (e_pv : ℚ) : dispatch_t :=
  let e_gen := e_pv + s.e_tofrom_batt
  let battery_fraction := if |e_gen| > 0 then s.e_tofrom_batt / e_gen else 0
  let pv_fraction := if |e_gen| > 0 then e_pv / e_gen else 0
  { s with e_gen := e_gen, battery_fraction := battery_fraction, pv_fraction := pv_fraction }

end dispatch_t

/-! ## Manual dispatch -/

/-- The month loop of `getMonthHour`: `n` months remain, `month` is the loop
variable and `tmpSum` the hours before it.  The result is `(out_month,
out_hour)`. -/
def getMonthHour_loop (hours_in_month : Int → Int) (hourOfYear : Int) :
    ℕ → Int → Int → Int × Int
  | 0, month, _ => (month, 0)
  | n + 1, month, tmpSum =>
    let tmpSum1 := tmpSum + hours_in_month month
    if hourOfYear + 1 ≤ tmpSum1 then
      let tmp := Int.fdiv hourOfYear 24
      (month, (hourOfYear + 1) - (tmp * 24))
    else getMonthHour_loop hours_in_month hourOfYear n (month + 1) tmpSum1

/-- Function `getMonthHour(hourOfYear, out_month, out_hour)`.  The table
`util::hours_in_month` is not part of these sources and is the argument
`hours_in_month`. -/
def getMonthHour (hours_in_month : Int → Int) (hourOfYear : Int) : Int × Int :=
  getMonthHour_loop hours_in_month hourOfYear 12 1 0

/-- Data members of `dispatch_manual_t` (the base-class members come first).
The schedule matrix `_sched` is the function from row and column to the stored
profile number, and the two `std::map<int, double>` members are functions from
the key to the stored value, `0` for a key that was never written. -/
structure dispatch_manual_t extends dispatch_t where
  sched : Int → Int → Int
  charge_array : List Bool
  discharge_array : List Bool
  gridcharge_array : List Bool
  percent_discharge_array : Int → ℚ
  percent_charge_array : Int → ℚ
  mode : Int

namespace dispatch_manual_t

/-- Constructor `dispatch_manual_t(...)` on the constructed base object `base`:
the six flags of each of the arrays `dm_charge`, `dm_discharge` and
`dm_gridcharge` are copied. -/
def mk0 (base : dispatch_t) (mode : Int) (dm_dynamic_sched : Int → Int → Int)
    (dm_charge dm_discharge dm_gridcharge : ℕ → Bool)
    (dm_percent_discharge dm_percent_gridcharge : Int → ℚ) : dispatch_manual_t :=
  { base with
    sched := dm_dynamic_sched
    charge_array := (List.range 6).map dm_charge
    discharge_array := (List.range 6).map dm_discharge
    gridcharge_array := (List.range 6).map dm_gridcharge
    percent_discharge_array := dm_percent_discharge
    percent_charge_array := dm_percent_gridcharge
    mode := mode }

/-- The opening of `dispatch_manual_t::dispatch(hour_of_year, step, e_pv,
e_load)`: the profile of the sub-step is looked up in the schedule and its
flags and throttle percentages are stored.  A flag read outside its array,
undefined in C++, is `false`. -/
def dispatch_profile (hours_in_month : Int → Int) (s : dispatch_manual_t)
    (hour_of_year step : Int) : dispatch_manual_t :=
  let mh := getMonthHour hours_in_month hour_of_year
  let m := mh.1
  let h := mh.2
  let column : Int :=
    if s.mode = 2 then h - 1 else c_trunc (((h - 1 : Int) : ℚ) / s.dt_hour + (step : ℚ))
  let iprofile := s.sched (m - 1) column
  let s1 := { s with
    can_charge := s.charge_array.getD (iprofile - 1).toNat false
    can_discharge := s.discharge_array.getD (iprofile - 1).toNat false
    can_grid_charge := s.gridcharge_array.getD (iprofile - 1).toNat false
    percent_discharge := 0
    percent_charge := 0 }
  let s2 :=
    if s1.can_discharge = true then
      { s1 with percent_discharge := s1.percent_discharge_array iprofile }
    else s1
  let s3 := if s2.can_charge = true then { s2 with percent_charge := 100 } else s2
  if s3.can_grid_charge = true then
    { s3 with percent_charge := s3.percent_charge_array iprofile }
  else s3

/-- The reset of the energy flows of the step in `dispatch_manual_t::dispatch`. -/
def dispatch_reset (s : dispatch_manual_t) : dispatch_manual_t :=
  { s with
    I_loss := 0
    e_grid := 0
    e_tofrom_batt := 0
    pv_to_load := 0
    battery_to_load := 0
    grid_to_load := 0
    pv_to_batt := 0
    grid_to_batt := 0
    charging := true }

/-- The decision tree of `dispatch_manual_t::dispatch` that chooses the
requested battery energy.  The constant `tolerance` of the header is the
argument `tolerance`. -/
def dispatch_choose (tolerance : ℚ) (s5 : dispatch_manual_t) (B : battery_view)
    (e_pv e_load : ℚ) : dispatch_manual_t :=
  let battery_voltage := B.battery_voltage
  let chargeNeededToFill := B.battery_charge_needed
  let energyNeededToFill := (chargeNeededToFill * battery_voltage) * watt_to_kilowatt
  if e_pv > e_load then
    if s5.can_charge = true then
      let t1 := { s5 with pv_to_batt := e_pv - e_load }
      let t2 := { t1 with e_tofrom_batt := -t1.pv_to_batt }
      if e_pv - e_load < energyNeededToFill ∧ t2.can_grid_charge = true then
        { t2 with e_tofrom_batt := -energyNeededToFill }
      else t2
    else if s5.can_grid_charge = true then { s5 with e_tofrom_batt := -energyNeededToFill }
    else s5
  else if e_load ≥ e_pv then
    if s5.can_discharge = true then
      let t1 := { s5 with e_tofrom_batt := e_load - e_pv }
      let diff := |B.SOC - t1.SOC_min|
      if diff < tolerance ∨ t1.grid_recharge = true then
        if t1.can_grid_charge = true then
          let t2 := { t1 with grid_recharge := true }
          let t3 := { t2 with e_tofrom_batt := -energyNeededToFill }
          let diff2 := |B.SOC - t3.SOC_max|
          if diff2 < tolerance then { t3 with grid_recharge := false } else t3
        else t1
      else t1
    else if s5.can_grid_charge = true then { s5 with e_tofrom_batt := -energyNeededToFill }
    else if ¬ s5.can_grid_charge = true then { s5 with grid_recharge := false }
    else s5
  else s5

/-- The first part of `dispatch_manual_t::dispatch(hour_of_year, step, e_pv,
e_load)`, up to the call of the controllers: profile lookup, reset of the
flows and choice of the requested battery energy. -/
def dispatch_request (hours_in_month : Int → Int) (tolerance : ℚ) (s : dispatch_manual_t)
    (B : battery_view) (hour_of_year step : Int) (e_pv e_load : ℚ) : dispatch_manual_t :=
  dispatch_choose tolerance (dispatch_reset (dispatch_profile hours_in_month s hour_of_year step))
    B e_pv e_load

/-- The last part of `dispatch_manual_t::dispatch`, after `_Battery->run(I)`, on
the base-class members, which are the only ones it touches: `I` is the current
of the capacity model and `battery_voltage_new` the voltage after the run. -/
def dispatch_account (d : dispatch_t) (battery_voltage I battery_voltage_new : ℚ)
    (e_pv e_load : ℚ) : dispatch_t :=
  let d1 := { d with
    e_tofrom_batt := I * (1 / 2) * (battery_voltage + battery_voltage_new) * d.dt_hour
      * watt_to_kilowatt }
  let d2 := d1.total_loss I battery_voltage battery_voltage_new
  let d3 := d2.compute_efficiency
  let d4 := d3.generation_fractions e_pv
  if d4.ac_or_dc = true then d4.compute_grid_net d4.e_gen e_load else d4

/-- Member `dispatch_manual_t::dispatch(hour_of_year, step, e_pv, e_load)` on
the battery seen through `B`. -/
def dispatch (hours_in_month : Int → Int) (tolerance : ℚ) (s : dispatch_manual_t)
    (B : battery_view) (hour_of_year step : Int) (e_pv e_load : ℚ) : dispatch_manual_t :=
  let s1 := dispatch_request hours_in_month tolerance s B hour_of_year step e_pv e_load
  let s2 := { s1 with
    todispatch_t := s1.todispatch_t.SOC_controller B.battery_voltage B.charge_total
      B.charge_max }
  let s3 := { s2 with todispatch_t := s2.todispatch_t.switch_controller }
  let I := s3.todispatch_t.current_controller B.battery_voltage
  let r := B.run I
  let d := dispatch_account s3.todispatch_t B.battery_voltage r.1 r.2 e_pv e_load
  { s3 with todispatch_t := d }

end dispatch_manual_t

/-- A dispatch state that discharged in the previous step and has been in its
mode for 5 of the 10 minutes required; the discharge limit `Id_max` is
negative. -/
def dispatch_example : dispatch_t :=
  { (dispatch_t.mk0 ⟨50, 80, 100, 80, fun I => (I, 50)⟩ 1 20 95 10 (-5) 10 true 99 96 96
      false false false 0 0) with
    t_at_mode := 5
    charging := true
    prev_charging := false
    e_tofrom_batt := -2 }

/-- The table `util::hours_in_month` of a year of 365 days. -/
def hours_in_month_table (month : Int) : Int :=
  if month = 2 then 28 * 24
  else if month = 4 ∨ month = 6 ∨ month = 9 ∨ month = 11 then 30 * 24
  else 31 * 24

/-- A battery at 80 Ah of 100 Ah and 50 V that carries every requested current
at an unchanged voltage. -/
def battery_example : battery_view :=
  { battery_voltage := 50
    charge_total := 80
    charge_max := 100
    SOC := 80
    run := fun I => (I, 50) }

/-- An AC-coupled manual dispatcher with hourly steps whose schedule selects
profile 1 throughout; profile 1 may charge and discharge, at up to 100 %. -/
def manual_example : dispatch_manual_t :=
  dispatch_manual_t.mk0
    (dispatch_t.mk0 battery_example 1 20 95 100 100 10 true 99 96 96 false false false 0 0)
    1 (fun _ _ => 1) (fun i => decide (i = 0)) (fun i => decide (i = 0)) (fun _ => false)
    (fun _ => 100) (fun _ => 100)

/-! ## Automated dispatch -/

/-- Modelled from the spec: the class `grid_point` of the header
`lib_battery.h`, the net load of a sub-step of the forecast day with its hour
and its step within the hour. -/
structure grid_point where
  Grid : ℚ
  Hour : Int
  Step : Int
deriving DecidableEq

/-- Data members of `automate_dispatch_t`.  The dispatcher `_dispatch` it
refers to is passed to the members that write to it; the forecast arrays `_pv`
and `_load` are functions of the index. -/
structure automate_dispatch_t where
  pv : ℕ → ℚ
  load : ℕ → ℚ
  hour_last_updated : Int
  dt_hour : ℚ
  steps_per_hour : Int
  nyears : Int
  mode : Int
  num_steps : Int
  grid : List grid_point

/-- Member `util::matrix_t::set_value(value, row, column)` on the schedule. -/
def sched_set_value (sched : Int → Int → Int) (value row column : Int) : Int → Int → Int :=
  fun r c => if r = row ∧ c = column then value else sched r c

/-- Assignment `map[key] = value` on a `std::map<int, double>`. -/
def map_set (m : Int → ℚ) (key : Int) (value : ℚ) : Int → ℚ :=
  fun k => if k = key then value else m k

namespace automate_dispatch_t

/-- Constructor `automate_dispatch_t(Dispatch, nyears, dt_hour, pv, load,
mode)`. -/
def mk0 (nyears : Int) (dt_hour : ℚ) (pv load : ℕ → ℚ) (mode : Int) : automate_dispatch_t :=
  let steps_per_hour := c_trunc (1 / dt_hour)
  let num_steps := 24 * steps_per_hour
  { pv := pv
    load := load
    hour_last_updated := -999
    dt_hour := dt_hour
    steps_per_hour := steps_per_hour
    nyears := nyears
    mode := mode
    num_steps := num_steps
    grid := List.replicate num_steps.toNat ⟨0, 0, 0⟩ }

/-- The points `grid[0]`, ..., `grid[_num_steps - 1]` that the loops of the
members run over. -/
def points (a : automate_dispatch_t) : List grid_point := a.grid.take a.num_steps.toNat

/-- The net loads `grid[ii].Grid()` of the points. -/
def loads (a : automate_dispatch_t) : List ℚ := a.points.map (fun g => g.Grid)

/-- Member `automate_dispatch_t::set_charge(profile)`. -/
def set_charge (d : dispatch_manual_t) (profile : Int) : dispatch_manual_t :=
  { d with
    charge_array := d.charge_array ++ [true]
    discharge_array := d.discharge_array ++ [false]
    gridcharge_array := d.gridcharge_array ++ [false]
    sched := fun _ _ => profile }

/-- Member `automate_dispatch_t::compute_energy`: the pair `(E_useful,
E_max)` for the battery seen through `B`. -/
def compute_energy (d : dispatch_manual_t) (B : battery_view) : ℚ × ℚ :=
  let E_useful := B.battery_voltage
    * (B.charge_total - B.charge_max * d.SOC_min * (1 / 100)) * watt_to_kilowatt
  (E_useful, E_useful)

/-- The inner loop of the first part of `target_power`: the energy
`E_charge` gathered below the power `P`, over the net loads from the last one
backwards until one exceeds `P`. -/
def recharge_energy (dt P : ℚ) : List ℚ → ℚ → ℚ
  | [], E => E
  | x :: rest, E => if x > P then E else recharge_energy dt P rest (E + (P - x) * dt)

/-- The `while` loop of the first part of `target_power` on the net loads `g`;
`k` is `index + 1` and the result is `(E_charge, P_target_min)`.  The loop is
left through its condition or, with `index < 0`, through its `break`. -/
def target_min_loop (g : List ℚ) (dt E_useful : ℚ) : ℕ → ℚ → ℚ → ℚ × ℚ
  | 0, E, P => (E, P)
  | k + 1, E, P =>
    if E < (7 / 10) * E_useful then
      let P1 := g.getD k 0
      let E1 := recharge_energy dt P1 g.reverse 0
      target_min_loop g dt E_useful k E1 P1
    else (E, P)

/-- The first part of `target_power`: `(E_charge, P_target_min)` after the
`while` loop. -/
def target_min (a : automate_dispatch_t) (E_useful : ℚ) : ℚ × ℚ :=
  target_min_loop a.loads a.dt_hour E_useful a.num_steps.toNat 0 (10 ^ 16)

/-- The `for` loop of the second part of `target_power` on the net loads `g`:
`r` passes remain, `ii` is the loop index, `P` and `sum` are `P_target` and
`sum`; the result is `P_target` at the exit. -/
def target_scan (g : List ℚ) (dt E_useful : ℚ) : ℕ → ℕ → ℚ → ℚ → ℚ
  | 0, _, P, _ => P
  | r + 1, ii, P, sum =>
    if g.getD (ii + 1) 0 < 0 then P
    else
      let P1 := g.getD (ii + 1) 0
      if g.getD ii 0 - g.getD (ii + 1) 0 = 0 then target_scan g dt E_useful r (ii + 1) P1 sum
      else
        let sum1 := sum + (g.getD ii 0 - g.getD (ii + 1) 0) * ((ii : ℚ) + 1) * dt
        if sum1 < E_useful then target_scan g dt E_useful r (ii + 1) P1 sum1
        else P1 + (sum1 - E_useful) / (((ii : ℚ) + 1) * dt)

/-- Member `automate_dispatch_t::target_power`: the value left in `P_target`. -/
def target_power (a : automate_dispatch_t) (E_useful : ℚ) : ℚ :=
  let r := a.target_min E_useful
  let E_charge := r.1
  let P_target_min := r.2
  if E_charge < (7 / 10) * E_useful then (7 / 10) * a.loads.getD 0 0
  else
    let P := target_scan a.loads a.dt_hour E_useful (a.num_steps.toNat - 1) 0 (a.loads.getD 0 0) 0
    let P1 := P + (1 / 100) * P
    if P1 < P_target_min then P_target_min else P1

/-- The schedule cell `(m - 1, column)` of the sub-step of the point `g`. -/
def cell (hours_in_month : Int → Int) (a : automate_dispatch_t) (hour_of_year : Int)
    (g : grid_point) : Int × Int :=
  let mh := getMonthHour hours_in_month (hour_of_year + g.Hour)
  (mh.1 - 1, (mh.2 - 1) * a.steps_per_hour + g.Step)

/-- The `for` loop of `set_discharge` over the points that remain, with the
dispatcher and the value of `profile`.  The local `discharge_energy` only
feeds the debug output, which is off. -/
def set_discharge_loop (hours_in_month : Int → Int) (a : automate_dispatch_t)
    (hour_of_year : Int) (P_target E_max : ℚ) :
    List grid_point → dispatch_manual_t → Int → dispatch_manual_t × Int
  | [], d, profile => (d, profile)
  | g :: rest, d, profile =>
    let energy_required := (g.Grid - P_target) * a.dt_hour
    if energy_required > 0 then
      let discharge_percent := 100 * (energy_required / E_max)
      let profile1 := profile + 1
      let c := cell hours_in_month a hour_of_year g
      let d1 : dispatch_manual_t :=
        { d with
          sched := sched_set_value d.sched profile1 c.1 c.2
          charge_array := d.charge_array ++ [true]
          discharge_array := d.discharge_array ++ [true]
          gridcharge_array := d.gridcharge_array ++ [false]
          percent_discharge_array := map_set d.percent_discharge_array profile1 discharge_percent
          percent_charge_array := map_set d.percent_charge_array profile1 100 }
      set_discharge_loop hours_in_month a hour_of_year P_target E_max rest d1 profile1
    else (d, profile)

/-- Member `automate_dispatch_t::set_discharge(hour_of_year, P_target,
E_max)`: the dispatcher written to and the returned profile number. -/
def set_discharge (hours_in_month : Int → Int) (a : automate_dispatch_t)
    (d : dispatch_manual_t) (hour_of_year : Int) (P_target E_max : ℚ) :
    dispatch_manual_t × Int :=
  set_discharge_loop hours_in_month a hour_of_year P_target E_max a.points d 1

/-- The first loop of `set_gridcharge`: the PV-surplus energy of the day. -/
def surplus_energy (dt : ℚ) : List ℚ → ℚ → ℚ
  | [], E => E
  | x :: rest, E => surplus_energy dt rest (if x < 0 then E + (-x) * dt else E)

/-- The second loop of `set_gridcharge` over the points that remain, from the
last one backwards, with the dispatcher and the values of `profile` and
`charge_energy`. -/
def set_gridcharge_loop (hours_in_month : Int → Int) (a : automate_dispatch_t)
    (hour_of_year : Int) (P_target E_max : ℚ) :
    List grid_point → dispatch_manual_t → Int → ℚ → dispatch_manual_t × Int × ℚ
  | [], d, profile, charge_energy => (d, profile, charge_energy)
  | g :: rest, d, profile, charge_energy =>
    if g.Grid > P_target then (d, profile, charge_energy)
    else
      let charge_percent := 100 * ((P_target - g.Grid) * a.dt_hour) / E_max
      let charge_energy1 := charge_energy + (P_target - g.Grid) * a.dt_hour
      if charge_percent < 0 then (d, profile, charge_energy1)
      else
        let c := cell hours_in_month a hour_of_year g
        let d1 : dispatch_manual_t :=
          { d with
            sched := sched_set_value d.sched profile c.1 c.2
            charge_array := d.charge_array ++ [true]
            discharge_array := d.discharge_array ++ [false]
            gridcharge_array := d.gridcharge_array ++ [true]
            percent_charge_array := map_set d.percent_charge_array profile charge_percent }
        set_gridcharge_loop hours_in_month a hour_of_year P_target E_max rest d1 (profile + 1)
          charge_energy1

/-- The body of `automate_dispatch_t::set_gridcharge(hour_of_year, profile,
P_target, E_max)` with the values of its locals `profile` and `charge_energy`
at the end. -/
def set_gridcharge_run (hours_in_month : Int → Int) (a : automate_dispatch_t)
    (d : dispatch_manual_t) (hour_of_year profile : Int) (P_target E_max : ℚ) :
    dispatch_manual_t × Int × ℚ :=
  let profile1 := profile + 1
  let charge_energy := surplus_energy a.dt_hour a.loads 0
  if charge_energy < E_max then
    set_gridcharge_loop hours_in_month a hour_of_year P_target E_max a.points.reverse d profile1
      charge_energy
  else (d, profile1, charge_energy)

/-- Member `automate_dispatch_t::set_gridcharge(hour_of_year, profile,
P_target, E_max)`. -/
def set_gridcharge (hours_in_month : Int → Int) (a : automate_dispatch_t)
    (d : dispatch_manual_t) (hour_of_year profile : Int) (P_target E_max : ℚ) :
    dispatch_manual_t :=
  (set_gridcharge_run hours_in_month a d hour_of_year profile P_target E_max).1

end automate_dispatch_t

/-- The number of points whose net load is strictly above `P`. -/
def automate_dispatch_t.steps_above (a : automate_dispatch_t) (P : ℚ) : ℕ :=
  a.points.countP (fun g => decide (g.Grid > P))

/-- An hourly forecast day whose sorted net loads are `gs`; the point at
position `i` is the sub-step of hour `i`. -/
def forecast_day (gs : List ℚ) : automate_dispatch_t :=
  { automate_dispatch_t.mk0 1 1 (fun _ => 0) (fun _ => 0) 0 with
    grid := List.zipWith (fun x i => (⟨x, (i : Int), 0⟩ : grid_point)) gs (List.range gs.length) }

/-- A day with one peak of 10 kW above 23 sub-steps of 9 kW. -/
def flat_peak_day : automate_dispatch_t := forecast_day (10 :: List.replicate 23 9)

/-- A day with a peak of 10 kW, a second sub-step of 5 kW and 22 sub-steps of
1 kW. -/
def sharp_peak_day : automate_dispatch_t := forecast_day (10 :: 5 :: List.replicate 22 1)

/-- A day with a peak of 10 kW above 23 sub-steps without net load. -/
def idle_peak_day : automate_dispatch_t := forecast_day (10 :: List.replicate 23 0)

/-- The number of points whose net load is at most `P`. -/
def automate_dispatch_t.steps_at_or_below (a : automate_dispatch_t) (P : ℚ) : ℕ :=
  a.points.countP (fun g => decide (g.Grid ≤ P))

/-- The state of charge recomputed from the charges of a state,
`clamp(100 * q0 / qmax, 0, SOC_max)`. -/
def capacity_t.recomputed_SOC (s : capacity_t) : ℚ :=
  max 0 (min (100 * (s.q0 / s.qmax)) s.SOC_max)

/-- The reported values are the ones recomputed from the charges: for
`qmax > 0` the reported `SOC` is `clamp(100 * q0 / qmax, 0, SOC_max)`, and the
reported `DOD` is `100 - SOC`. -/
def SOC_recomputed (s : capacity_t) : Prop :=
  (0 < s.qmax → s.SOC = s.recomputed_SOC) ∧ s.DOD = 100 - s.SOC

/-- A lithium-ion state after a discharge: 45 Ah of 100 Ah. -/
def lithium_discharged : capacity_t := capacity_lithium_ion_t.updateCapacity lithium_example 50 1

/-- The tanks `(q1, q2)` that `capacity_kibam_t::updateCapacity(I, dt_hour)`
computes from the limited current, before it compares their sum with `_qmax`. -/
def capacity_kibam_t.advanced_tanks (expf : ℚ → ℚ) (s : capacity_kibam_t) (I dt_hour : ℚ) :
    ℚ × ℚ :=
  let s1 := { s with DOD_prev := s.DOD, I_loss := 0, I := I, dt_hour := dt_hour }
  let s2 :=
    if s1.I > 0 then
      let Idmax := capacity_kibam_t.Idmax_compute expf s1 s1.q1_0 s1.q0 dt_hour
      { s1 with I := min s1.I Idmax }
    else if s1.I < 0 then
      let Icmax := capacity_kibam_t.Icmax_compute expf s1 s1.q1_0 s1.q0 dt_hour
      { s1 with I := -(min |s1.I| |Icmax|) }
    else s1
  (capacity_kibam_t.q1_compute expf s2 s2.q1_0 s2.q0 dt_hour s2.I,
    capacity_kibam_t.q2_compute expf s2 s2.q2_0 s2.q0 dt_hour s2.I)

/-- The pair `(c1, c2)` that the search loop of `parameter_compute` computes
for the loop index `i`, when both values are finite. -/
def capacity_kibam_t.candidate (expf : ℚ → ℚ) (s : capacity_kibam_t) (i : ℕ) : Option (ℚ × ℚ) :=
  match capacity_kibam_t.c_compute expf s.F1 s.t1 20 ((i : ℚ) * (1 / 1000)),
      capacity_kibam_t.c_compute expf s.F2 s.t1 s.t2 ((i : ℚ) * (1 / 1000)) with
  | some c1, some c2 => some (c1, c2)
  | _, _ => none

/-- The object state in the constructor `capacity_kibam_t(q20, t1, q1, q10,
SOC_max)` when it calls `parameter_compute`; `k_init` and `c_init` are the
indeterminate values of `_k` and `_c`. -/
def capacity_kibam_t.unfitted (k_init c_init q20 t1 q1 q10 SOC_max : ℚ) : capacity_kibam_t :=
  { capacity_t.mk0 q20 SOC_max with
    q10 := q10
    q20 := q20
    I20 := q20 / 20
    q1 := q1
    q2 := q10
    t1 := t1
    t2 := 10
    F1 := q1 / q20
    F2 := q1 / q10
    c := c_init
    k := k_init
    q1_0 := 0
    q2_0 := 0 }

/-! ## Losses and the battery -/

/-- The object behind a pointer `capacity_t *`: a model of one of the two
capacity variants. -/
inductive capacity_object where
  | lithium_ion (s : capacity_t)
  | kibam (s : capacity_kibam_t)

namespace capacity_object

/-- The base-class members of the object, which the accessors of `capacity_t`
read. -/
def base : capacity_object → capacity_t
  | lithium_ion s => s
  | kibam s => s.tocapacity_t

/-- Virtual member `updateCapacity(I, dt)`. -/
def updateCapacity (expf : ℚ → ℚ) : capacity_object → ℚ → ℚ → capacity_object
  | lithium_ion s, I, dt => lithium_ion (capacity_lithium_ion_t.updateCapacity s I dt)
  | kibam s, I, dt => kibam (capacity_kibam_t.updateCapacity expf s I dt)

/-- Virtual member `updateCapacityForThermal(capacity_percent)`. -/
def updateCapacityForThermal : capacity_object → ℚ → capacity_object
  | lithium_ion s, pct => lithium_ion (capacity_lithium_ion_t.updateCapacityForThermal s pct)
  | kibam s, pct => kibam (capacity_kibam_t.updateCapacityForThermal s pct)

/-- Virtual member `updateCapacityForLifetime(capacity_percent)`. -/
def updateCapacityForLifetime : capacity_object → ℚ → capacity_object
  | lithium_ion s, pct => lithium_ion (capacity_lithium_ion_t.updateCapacityForLifetime s pct)
  | kibam s, pct => kibam (capacity_kibam_t.updateCapacityForLifetime s pct)

/-- Virtual member `replace_battery()`. -/
def replace_battery : capacity_object → capacity_object
  | lithium_ion s => lithium_ion (capacity_lithium_ion_t.replace_battery s)
  | kibam s => kibam (capacity_kibam_t.replace_battery s)

end capacity_object

/-- The object behind a pointer `voltage_t *`: a `voltage_basic_t` or a
`voltage_dynamic_t`. -/
inductive voltage_object where
  | basic (s : voltage_t)
  | dynamic (s : voltage_dynamic_t)

namespace voltage_object

/-- The base-class members of the object. -/
def base : voltage_object → voltage_t
  | basic s => s
  | dynamic s => s.tovoltage_t

/-- Virtual member `updateVoltage(capacity, dt)`; the body of
`voltage_basic_t::updateVoltage` is empty. -/
def updateVoltage (expf : ℚ → ℚ) : voltage_object → capacity_t → ℚ → voltage_object
  | basic s, _, _ => basic s
  | dynamic s, capacity, dt => dynamic (s.updateVoltage expf capacity dt)

/-- Accessor `voltage_t::R`. -/
def R (v : voltage_object) : ℚ := v.base.R

end voltage_object

/-- Member `thermal_t::capacity_percent()`.  It interpolates in the table
through `util::linterp_col`, which is not part of these sources: the argument
`linterp_col` stands for `util::linterp_col(table, 0, x, 1)`. -/
def thermal_t.capacity_percent_ (linterp_col : List (ℚ × ℚ) → ℚ → ℚ) (s : thermal_t) : ℚ :=
  linterp_col s.cap_vs_temp s.T_battery

/-- Data member of `losses_t` besides the pointers to the lifetime, thermal
and capacity models, which the members take as arguments here. -/
structure losses_t where
  nCycle : Int

namespace losses_t

/-- Constructor `losses_t(lifetime, thermal, capacity)`. -/
def mk0 : losses_t := { nCycle := 0 }

/-- Member `losses_t::replace_battery`. -/
def replace_battery (s : losses_t) : losses_t := { s with nCycle := 0 }

/-- Member `losses_t::run_losses(dt_hour)`: the new state, the capacity object
after the hooks, and whether the lifetime hook `updateCapacityForLifetime` was
called. -/
def run_losses (linterp_col : List (ℚ × ℚ) → ℚ → ℚ) (s : losses_t) (lifetime : lifetime_t)
    (thermal : thermal_t) (capacity : capacity_object) (_dt_hour : ℚ) :
    losses_t × capacity_object × Bool :=
  let r : losses_t × capacity_object × Bool :=
    if lifetime.cycles_elapsed > s.nCycle then
      ({ s with nCycle := s.nCycle + 1 },
        capacity.updateCapacityForLifetime lifetime.capacity_percent, true)
    else (s, capacity, false)
  (r.1, r.2.1.updateCapacityForThermal (thermal.capacity_percent_ linterp_col), r.2.2)

end losses_t

/-- Data members of `battery_t`; the pointers to the component models are the
component states. -/
structure battery_t where
  capacity : capacity_object
  voltage : voltage_object
  lifetime : lifetime_t
  thermal : thermal_t
  losses : losses_t
  dt_hour : ℚ
  dt_min : ℚ
  battery_chemistry : Int
  firstStep : Bool

namespace battery_t

/-- Constructor `battery_t(dt_hour, battery_chemistry)` followed by the member
`initialize(capacity, voltage, lifetime, thermal, losses)`, which stores the
component models and sets `_firstStep`. -/
def mk0 (dt_hour : ℚ) (battery_chemistry : Int) (capacity : capacity_object)
    (voltage : voltage_object) (lifetime : lifetime_t) (thermal : thermal_t)
    (losses : losses_t) : battery_t :=
  { capacity := capacity
    voltage := voltage
    lifetime := lifetime
    thermal := thermal
    losses := losses
    dt_hour := dt_hour
    dt_min := dt_hour * 60
    battery_chemistry := battery_chemistry
    firstStep := true }

/-- Member `battery_t::runThermalModel(I)`. -/
def runThermalModel (b : battery_t) (I : ℚ) : battery_t :=
  { b with thermal := b.thermal.updateTemperature I b.voltage.R b.dt_hour }

/-- Member `battery_t::runCapacityModel(I)`. -/
def runCapacityModel (expf : ℚ → ℚ) (b : battery_t) (I : ℚ) : battery_t :=
  { b with capacity := b.capacity.updateCapacity expf I b.dt_hour }

/-- Member `battery_t::runVoltageModel()`. -/
def runVoltageModel (expf : ℚ → ℚ) (b : battery_t) : battery_t :=
  { b with voltage := b.voltage.updateVoltage expf b.capacity.base b.dt_hour }

/-- Member `battery_t::runLifetimeModel(DOD)`. -/
def runLifetimeModel (bilinear : ℚ → Int → ℚ) (b : battery_t) (DOD : ℚ) : battery_t :=
  let r := (b.lifetime.rainflow bilinear DOD).check_replaced bilinear
  let b1 := { b with lifetime := r.1 }
  if r.2 = true then
    { b1 with
      capacity := b1.capacity.replace_battery
      thermal := b1.thermal.replace_battery
      losses := b1.losses.replace_battery }
  else b1

/-- Member `battery_t::runLossesModel()`. -/
def runLossesModel (linterp_col : List (ℚ × ℚ) → ℚ → ℚ) (b : battery_t) : battery_t :=
  let r := b.losses.run_losses linterp_col b.lifetime b.thermal b.capacity b.dt_hour
  { b with losses := r.1, capacity := r.2.1 }

/-- Member `battery_t::run(I)`: the new state, and the depth of discharge with
which the call runs `runLifetimeModel`, `none` when it does not run it. -/
def run (expf : ℚ → ℚ) (bilinear : ℚ → Int → ℚ) (linterp_col : List (ℚ × ℚ) → ℚ → ℚ)
    (b : battery_t) (I : ℚ) : battery_t × Option ℚ :=
  let b1 := b.runThermalModel I
  let b2 := b1.runCapacityModel expf I
  let b3 := b2.runVoltageModel expf
  let r : battery_t × Option ℚ :=
    if b3.capacity.base.chargeChange = true then
      (b3.runLifetimeModel bilinear b3.capacity.base.DOD_prev, some b3.capacity.base.DOD_prev)
    else if b3.firstStep = true then
      ({ b3.runLifetimeModel bilinear b3.capacity.base.DOD with firstStep := false },
        some b3.capacity.base.DOD)
    else (b3, none)
  (r.1.runLossesModel linterp_col, r.2)

end battery_t

/-- A lookup that reports full retention at every temperature. -/
def full_retention (_table : List (ℚ × ℚ)) (_x : ℚ) : ℚ := 100

/-- A lifetime model without replacement that has been fed the depths of
discharge 0, 100, 20, 60 and 0. -/
def cycled_lifetime : lifetime_t :=
  lifetime_t.rainflow_all example_bilinear (lifetime_t.mk0 example_bilinear example_table 0 0)
    [0, 100, 20, 60, 0]

/-- A battery after its initialisation: the lithium-ion example capacity, the
dynamic voltage example, a lifetime model without replacement and a thermal
model at room temperature, with a timestep of one hour. -/
def battery_start : battery_t :=
  battery_t.mk0 1 1 (capacity_object.lithium_ion lithium_example)
    (voltage_object.dynamic voltage_example)
    (lifetime_t.mk0 example_bilinear example_table 0 0)
    (thermal_t.mk0 100 1 1 1 1000 10 (29315 / 100) [(-10, 60), (25, 100)]) losses_t.mk0

/-- The current that `capacity_kibam_t::updateCapacity(I, dt_hour)` sends to
the tanks: the request limited by `Idmax_compute` or `Icmax_compute`. -/
def capacity_kibam_t.limited_current (expf : ℚ → ℚ) (s : capacity_kibam_t) (I dt_hour : ℚ) : ℚ :=
  if I > 0 then min I (capacity_kibam_t.Idmax_compute expf s s.q1_0 s.q0 dt_hour)
  else if I < 0 then -(min |I| |capacity_kibam_t.Icmax_compute expf s s.q1_0 s.q0 dt_hour|)
  else I

/-- The conversion efficiency, in percent, that `total_loss` applies: `_dc_dc`
when DC-coupled, otherwise `_ac_dc` when the charging flag is set
(`conversion_loss_in`) and `_dc_ac` when it is not (`conversion_loss_out`). -/
def dispatch_t.conversion_efficiency (s : dispatch_t) : ℚ :=
  if s.ac_or_dc = false then s.dc_dc else if s.charging = true then s.ac_dc else s.dc_ac

/-- The state of `dispatch_manual_t::dispatch` when it calls `_Battery->run`:
after the request and the two controllers. -/
def dispatch_manual_t.dispatch_controlled (hours_in_month : Int → Int) (tolerance : ℚ)
    (s : dispatch_manual_t) (B : battery_view) (hour_of_year step : Int) (e_pv e_load : ℚ) :
    dispatch_manual_t :=
  let s1 := dispatch_manual_t.dispatch_request hours_in_month tolerance s B hour_of_year step
    e_pv e_load
  let s2 := { s1 with
    todispatch_t := s1.todispatch_t.SOC_controller B.battery_voltage B.charge_total
      B.charge_max }
  { s2 with todispatch_t := s2.todispatch_t.switch_controller }

/-- The current `I` and the voltage `battery_voltage_new` that
`dispatch_manual_t::dispatch` reads from the battery after `_Battery->run`. -/
def dispatch_manual_t.dispatch_realized (hours_in_month : Int → Int) (tolerance : ℚ)
    (s : dispatch_manual_t) (B : battery_view) (hour_of_year step : Int) (e_pv e_load : ℚ) :
    ℚ × ℚ :=
  B.run ((dispatch_manual_t.dispatch_controlled hours_in_month tolerance s B hour_of_year step
    e_pv e_load).todispatch_t.current_controller B.battery_voltage)

/-- The direction that `check_charge_change` reads off a current. -/
def current_direction (I : ℚ) : ChargeMode :=
  if I < 0 then ChargeMode.CHARGE
  else if I > 0 then ChargeMode.DISCHARGE
  else ChargeMode.NO_CHARGE

/-- The direction of the most recent current that is not zero in a sequence of
currents, earliest first, and `prev` when there is none. -/
def remembered_direction (prev : ChargeMode) : List ℚ → ChargeMode
  | [] => prev
  | I :: rest => remembered_direction (if I = 0 then prev else current_direction I) rest

namespace capacity_object

/-- The model after a sequence of `updateCapacity(I, dt)` calls, earliest
first. -/
def run_steps (expf : ℚ → ℚ) (c : capacity_object) (steps : List (ℚ × ℚ)) : capacity_object :=
  steps.foldl (fun c x => c.updateCapacity expf x.1 x.2) c

/-- The currents `I()` that the model reports after each call of a sequence of
`updateCapacity(I, dt)` calls. -/
def realized_currents (expf : ℚ → ℚ) : capacity_object → List (ℚ × ℚ) → List ℚ
  | _, [] => []
  | c, x :: rest =>
    (c.updateCapacity expf x.1 x.2).base.I
      :: realized_currents expf (c.updateCapacity expf x.1 x.2) rest

end capacity_object

namespace automate_dispatch_t

/-- Member `automate_dispatch_t::initialize(hour_of_year, idx)`: the hour is
recorded, the three flag arrays of the dispatcher are cleared and the points
`grid[0]`, ..., `grid[_num_steps - 1]` are reset. -/
def init_day (a : automate_dispatch_t) (d : dispatch_manual_t) (hour_of_year : Int) :
    automate_dispatch_t × dispatch_manual_t :=
  ({ a with
      hour_last_updated := hour_of_year
      grid := (a.grid.take a.num_steps.toNat).map (fun _ => (⟨0, 0, 0⟩ : grid_point))
        ++ a.grid.drop a.num_steps.toNat },
    { d with charge_array := [], discharge_array := [], gridcharge_array := [] })

/-- The points that the loops of `sort_grid(idx)` write to `grid[0]`,
`grid[1]`, ...: the net load `_load[idx] - _pv[idx]` of every sub-step of the
24 hours, `idx` counting on from its entry value. -/
def day_points (a : automate_dispatch_t) (idx : Int) : List grid_point :=
  (List.range 24).flatMap (fun hour =>
    (List.range a.steps_per_hour.toNat).map (fun step =>
      (⟨a.load (idx + ((hour * a.steps_per_hour.toNat + step : ℕ) : Int)).toNat
          - a.pv (idx + ((hour * a.steps_per_hour.toNat + step : ℕ) : Int)).toNat,
        (hour : Int), (step : Int)⟩ : grid_point)))

/-- Member `automate_dispatch_t::sort_grid(idx)`.  The call of `std::sort` with
the comparator `byGrid` of the header `lib_battery.h` is the argument
`sort_by_grid`. -/
def sort_grid (sort_by_grid : List grid_point → List grid_point) (a : automate_dispatch_t)
    (idx : Int) : automate_dispatch_t :=
  let written := a.day_points idx
  { a with grid := sort_by_grid (written ++ a.grid.drop written.length) }

/-- Member `automate_dispatch_t::update_dispatch(hour_of_year, idx)` on the
dispatcher `d` and the battery seen through `B`; the debug output is off.  The
test `hour_of_year % 24 == 0` is the same for the remainder of C++ and the
remainder of `Int`. -/
def update_dispatch (hours_in_month : Int → Int)
    (sort_by_grid : List grid_point → List grid_point) (a : automate_dispatch_t)
    (d : dispatch_manual_t) (B : battery_view) (hour_of_year idx : Int) :
    automate_dispatch_t × dispatch_manual_t :=
  if hour_of_year % 24 = 0 ∧ hour_of_year ≠ a.hour_last_updated then
    let r := a.init_day d hour_of_year
    let a1 := sort_grid sort_by_grid r.1 idx
    let profile : Int := 1
    let d1 := set_charge r.2 profile
    let E := compute_energy d1 B
    let P_target := a1.target_power E.1
    let r2 := a1.set_discharge hours_in_month d1 hour_of_year P_target E.2
    (a1, a1.set_gridcharge hours_in_month r2.1 hour_of_year r2.2 P_target E.2)
  else (a, d)

end automate_dispatch_t

/-- A forecast of 24 hourly steps with a load of 10 kW in hour 0, 5 kW in hour
1 and 1 kW afterwards, without PV. -/
def forecast_example : automate_dispatch_t :=
  automate_dispatch_t.mk0 1 1 (fun _ => 0) (fun i => if i = 0 then 10 else if i = 1 then 5 else 1)
    0

namespace automate_dispatch_t

/-- The `for` loop of the second part of `target_power`, as `target_scan`,
together with the way it is left: `some ii` when it is left in the pass with
index `ii` through the `break` of the branch for limited energy (`sum` has
reached `E_useful`), `none` when it is left at a negative net load or at the
end of the list. -/
def target_scan_exit (g : List ℚ) (dt E_useful : ℚ) : ℕ → ℕ → ℚ → ℚ → ℚ × Option ℕ
  | 0, _, P, _ => (P, none)
  | r + 1, ii, P, sum =>
    if g.getD (ii + 1) 0 < 0 then (P, none)
    else
      let P1 := g.getD (ii + 1) 0
      if g.getD ii 0 - g.getD (ii + 1) 0 = 0 then
        target_scan_exit g dt E_useful r (ii + 1) P1 sum
      else
        let sum1 := sum + (g.getD ii 0 - g.getD (ii + 1) 0) * ((ii : ℚ) + 1) * dt
        if sum1 < E_useful then target_scan_exit g dt E_useful r (ii + 1) P1 sum1
        else (P1 + (sum1 - E_useful) / (((ii : ℚ) + 1) * dt), some ii)

/-- The local `discharge_energy` of `set_discharge` at the end of its loop
over the net loads: the energy `(net load - P_target) * dt` of every sub-step
that is given a discharge profile, added to the entry value. -/
def discharge_energy (dt P_target : ℚ) : List ℚ → ℚ → ℚ
  | [], E => E
  | x :: rest, E =>
    if (x - P_target) * dt > 0 then discharge_energy dt P_target rest (E + (x - P_target) * dt)
    else E

end automate_dispatch_t

/-! ## Theorems -/

/-- Bounds on the state of charge after `update_SOC`. -/
theorem update_SOC_bounds (s : capacity_t) (h : 0 ≤ s.SOC_max) :
    0 ≤ s.update_SOC.SOC ∧ s.update_SOC.SOC ≤ s.SOC_max
      ∧ s.update_SOC.DOD = 100 - s.update_SOC.SOC := by
  unfold capacity_t.update_SOC
  refine ⟨?_, ?_, rfl⟩
  · dsimp only
    split_ifs <;> linarith
  · dsimp only
    split_ifs <;> linarith


/-- The direction check changes neither the charges nor the reported values. -/
theorem check_charge_change_fields (s : capacity_t) :
    s.check_charge_change.SOC = s.SOC ∧ s.check_charge_change.DOD = s.DOD
      ∧ s.check_charge_change.SOC_max = s.SOC_max ∧ s.check_charge_change.q0 = s.q0
      ∧ s.check_charge_change.qmax = s.qmax ∧ s.check_charge_change.qmax0 = s.qmax0
      ∧ s.check_charge_change.I = s.I := by
  unfold capacity_t.check_charge_change
  dsimp only
  split_ifs <;> simp

/-- Recomputing the state of charge changes neither the charges nor the current. -/
theorem update_SOC_fields (s : capacity_t) :
    s.update_SOC.SOC_max = s.SOC_max ∧ s.update_SOC.q0 = s.q0
      ∧ s.update_SOC.qmax = s.qmax ∧ s.update_SOC.qmax0 = s.qmax0
      ∧ s.update_SOC.I = s.I := by
  simp [capacity_t.update_SOC]

/-- After `update_SOC` the reported values are in bounds for every maximum
that is not negative and is the one stored in the state. -/
theorem update_SOC_in_bounds (s : capacity_t) (m : ℚ) (hm : s.SOC_max = m) (h : 0 ≤ m) :
    SOC_in_bounds m s.update_SOC := by
  subst hm
  exact update_SOC_bounds s h

/-- The same after the direction check that follows `update_SOC` in
`updateCapacity`. -/
theorem update_SOC_check_in_bounds (s : capacity_t) (m : ℚ) (hm : s.SOC_max = m)
    (h : 0 ≤ m) : SOC_in_bounds m (s.update_SOC).check_charge_change := by
  have h1 := update_SOC_in_bounds s m hm h
  have h2 := check_charge_change_fields s.update_SOC
  unfold SOC_in_bounds at *
  rw [h2.1, h2.2.1]
  exact h1

/-- C1: for the lithium-ion state `l` and the KiBaM state `kb` with a
configured `SOC_max` that is not negative, after each of `updateCapacity`,
`updateCapacityForThermal` and `updateCapacityForLifetime` the reported values
satisfy `0 ≤ SOC ≤ SOC_max` and `DOD = 100 - SOC`. -/
theorem soc_bounds_after_every_update (expf : ℚ → ℚ) (l : capacity_t)
    (kb : capacity_kibam_t) (I dt pct : ℚ) (hl : 0 ≤ l.SOC_max) (hk : 0 ≤ kb.SOC_max) :
    SOC_in_bounds l.SOC_max (capacity_lithium_ion_t.updateCapacity l I dt)
      ∧ SOC_in_bounds l.SOC_max (capacity_lithium_ion_t.updateCapacityForThermal l pct)
      ∧ SOC_in_bounds l.SOC_max (capacity_lithium_ion_t.updateCapacityForLifetime l pct)
      ∧ SOC_in_bounds kb.SOC_max (capacity_kibam_t.updateCapacity expf kb I dt).tocapacity_t
      ∧ SOC_in_bounds kb.SOC_max (capacity_kibam_t.updateCapacityForThermal kb pct).tocapacity_t
      ∧ SOC_in_bounds kb.SOC_max
          (capacity_kibam_t.updateCapacityForLifetime kb pct).tocapacity_t := by
  refine ⟨?_, ?_, ?_, ?_, ?_, ?_⟩
  · unfold capacity_lithium_ion_t.updateCapacity
    dsimp only
    apply update_SOC_check_in_bounds _ _ _ hl
    split_ifs <;> rfl
  · unfold capacity_lithium_ion_t.updateCapacityForThermal
    dsimp only
    apply update_SOC_in_bounds _ _ _ hl
    split_ifs <;> rfl
  · unfold capacity_lithium_ion_t.updateCapacityForLifetime
    dsimp only
    apply update_SOC_in_bounds _ _ _ hl
    split_ifs <;> rfl
  · unfold capacity_kibam_t.updateCapacity
    dsimp only
    apply update_SOC_check_in_bounds _ _ _ hk
    split_ifs <;> rfl
  · unfold capacity_kibam_t.updateCapacityForThermal
    dsimp only
    apply update_SOC_in_bounds _ _ _ hk
    split_ifs <;> rfl
  · unfold capacity_kibam_t.updateCapacityForLifetime
    dsimp only
    apply update_SOC_in_bounds _ _ _ hk
    split_ifs <;> rfl

theorem soc_bounds_after_every_update_witness :
    0 ≤ lithium_example.SOC_max ∧ 0 ≤ kibam_example.SOC_max
      ∧ SOC_in_bounds lithium_example.SOC_max
          (capacity_lithium_ion_t.updateCapacity lithium_example 5 1)
      ∧ SOC_in_bounds kibam_example.SOC_max
          (capacity_kibam_t.updateCapacity exp_approx kibam_example 5 1).tocapacity_t :=
  have h := soc_bounds_after_every_update exp_approx lithium_example kibam_example 5 1 90
    (by decide!) (by decide!)
  ⟨by decide!, by decide!, h.1, h.2.2.2.1⟩

/-- C2: the ordering `0 ≤ q0 ≤ qmax ≤ qmax0` holds for the lithium-ion model
constructed with `q ≥ 0` and `0 ≤ SOC_max ≤ 100`, and every state `s` with the
ordering keeps it under `updateCapacity` (`dt > 0`),
`updateCapacityForLifetime` (`pct ≥ 0`), `updateCapacityForThermal` (`p ≥ 0`)
and `replace_battery`. -/
theorem lithium_charge_ordered (q SOC_max : ℚ) (hq : 0 ≤ q) (h0 : 0 ≤ SOC_max)
    (h100 : SOC_max ≤ 100) (s : capacity_t) (hs : charge_ordered s) (I dt pct p : ℚ)
    (_hdt : 0 < dt) (hpct : 0 ≤ pct) (hp : 0 ≤ p) :
    charge_ordered (capacity_lithium_ion_t.mk0 q SOC_max)
      ∧ charge_ordered (capacity_lithium_ion_t.updateCapacity s I dt)
      ∧ charge_ordered (capacity_lithium_ion_t.updateCapacityForLifetime s pct)
      ∧ charge_ordered (capacity_lithium_ion_t.updateCapacityForThermal s p)
      ∧ charge_ordered (capacity_lithium_ion_t.replace_battery s) := by
  obtain ⟨hs0, hs1, hs2⟩ := hs
  refine ⟨?_, ?_, ?_, ?_, ?_⟩
  · unfold charge_ordered capacity_lithium_ion_t.mk0 capacity_t.mk0
    dsimp only
    refine ⟨by positivity, ?_, le_refl _⟩
    nlinarith
  · unfold charge_ordered
    unfold capacity_lithium_ion_t.updateCapacity
    dsimp only
    simp only [(check_charge_change_fields _).2.2.2.1, (check_charge_change_fields _).2.2.2.2.1,
      (check_charge_change_fields _).2.2.2.2.2.1, (update_SOC_fields _).2.1,
      (update_SOC_fields _).2.2.1, (update_SOC_fields _).2.2.2.1]
    split_ifs <;> (try dsimp only at *) <;> refine ⟨?_, ?_, ?_⟩ <;> linarith
  · unfold charge_ordered capacity_lithium_ion_t.updateCapacityForLifetime
    dsimp only
    simp only [(update_SOC_fields _).2.1, (update_SOC_fields _).2.2.1,
      (update_SOC_fields _).2.2.2.1]
    have hq0 : 0 ≤ s.qmax0 := by linarith
    have hnn : 0 ≤ s.qmax0 * pct * (1 / 100) := by positivity
    split_ifs <;> (try dsimp only at *) <;> refine ⟨?_, ?_, ?_⟩ <;> linarith
  · unfold charge_ordered capacity_lithium_ion_t.updateCapacityForThermal
    dsimp only
    simp only [(update_SOC_fields _).2.1, (update_SOC_fields _).2.2.1,
      (update_SOC_fields _).2.2.2.1]
    have hq0 : 0 ≤ s.qmax := by linarith
    have hnn : 0 ≤ s.qmax * p := by positivity
    split_ifs <;> (try dsimp only at *) <;> refine ⟨?_, ?_, ?_⟩ <;> linarith
  · unfold charge_ordered capacity_lithium_ion_t.replace_battery
    dsimp only
    exact ⟨by linarith, le_refl _, le_refl _⟩

theorem lithium_charge_ordered_witness :
    charge_ordered lithium_example
      ∧ charge_ordered (capacity_lithium_ion_t.updateCapacity lithium_example 5 1)
      ∧ charge_ordered (capacity_lithium_ion_t.updateCapacityForLifetime lithium_example 90)
      ∧ charge_ordered (capacity_lithium_ion_t.replace_battery lithium_example) :=
  have hs : charge_ordered lithium_example := by
    unfold charge_ordered
    decide!
  have h := lithium_charge_ordered 100 95 (by norm_num) (by norm_num) (by norm_num)
    lithium_example hs 5 1 90 1 (by norm_num) (by norm_num) (by norm_num)
  ⟨h.1, h.2.1, h.2.2.1, h.2.2.2.2⟩

/-- C3: in a lithium-ion state with `0 ≤ q0 ≤ qmax`, for a requested current
`I` and `dt > 0`, `updateCapacity` leaves `q0_new = q0_old - I_realized * dt`
for the current `I_realized` then reported; `I_realized = I` when
`q0_old - I * dt` lies in `[0, qmax]`; above `qmax` the charge is `qmax` and
`I_realized = -(qmax - q0_old) / dt`; below `0` the charge is `0` and
`I_realized = q0_old / dt`. -/
theorem lithium_updateCapacity_realized (s : capacity_t) (I dt : ℚ) (h0 : 0 ≤ s.q0)
    (hq : s.q0 ≤ s.qmax) (hdt : 0 < dt) :
    (capacity_lithium_ion_t.updateCapacity s I dt).q0
        = s.q0 - (capacity_lithium_ion_t.updateCapacity s I dt).I * dt
      ∧ (0 ≤ s.q0 - I * dt → s.q0 - I * dt ≤ s.qmax →
          (capacity_lithium_ion_t.updateCapacity s I dt).I = I)
      ∧ (s.qmax < s.q0 - I * dt →
          (capacity_lithium_ion_t.updateCapacity s I dt).q0 = s.qmax
            ∧ (capacity_lithium_ion_t.updateCapacity s I dt).I = -(s.qmax - s.q0) / dt)
      ∧ (s.q0 - I * dt < 0 →
          (capacity_lithium_ion_t.updateCapacity s I dt).q0 = 0
            ∧ (capacity_lithium_ion_t.updateCapacity s I dt).I = s.q0 / dt) := by
  have hne : dt ≠ 0 := ne_of_gt hdt
  unfold capacity_lithium_ion_t.updateCapacity
  dsimp only
  simp only [(check_charge_change_fields _).2.2.2.1, (check_charge_change_fields _).2.2.2.2.2.2,
    (update_SOC_fields _).2.1, (update_SOC_fields _).2.2.2.2]
  split_ifs with h1 h2 h3 <;> (try dsimp only at *) <;> refine ⟨?_, ?_, ?_, ?_⟩ <;>
    first
    | (field_simp; done)
    | rfl
    | (intros; exfalso; linarith)

theorem lithium_updateCapacity_realized_witness :
    (capacity_lithium_ion_t.updateCapacity lithium_example (-20) 1).q0 = 100
      ∧ (capacity_lithium_ion_t.updateCapacity lithium_example (-20) 1).I = -(100 - 95) / 1 := by
  have e1 : lithium_example.qmax = 100 := rfl
  have e2 : lithium_example.q0 = 95 := by decide!
  have h := (lithium_updateCapacity_realized lithium_example (-20) 1 (by decide!) (by decide!)
    (by norm_num)).2.2.1 (by decide!)
  rw [e1, e2] at h
  exact h

/-- The tanks and the total that `capacity_kibam_t::updateCapacity` stores,
before `update_SOC` and the direction check, which change none of them. -/
theorem kibam_updateCapacity_charge (expf : ℚ → ℚ) (s : capacity_kibam_t) (I dt : ℚ) :
    (capacity_kibam_t.updateCapacity expf s I dt).q0
        = (capacity_kibam_t.updateCapacity expf s I dt).q1_0
          + (capacity_kibam_t.updateCapacity expf s I dt).q2_0
      ∧ (capacity_kibam_t.updateCapacity expf s I dt).qmax = s.qmax := by
  unfold capacity_kibam_t.updateCapacity
  dsimp only
  simp only [(check_charge_change_fields _).2.2.2.1, (check_charge_change_fields _).2.2.2.2.1,
    (update_SOC_fields _).2.1, (update_SOC_fields _).2.2.1]
  refine ⟨trivial, ?_⟩
  split_ifs <;> rfl

/-- The total charge stored by `capacity_kibam_t::updateCapacity` does not
exceed `qmax` when `qmax` is not negative. -/
theorem kibam_updateCapacity_le_qmax (expf : ℚ → ℚ) (s : capacity_kibam_t) (I dt : ℚ)
    (hq : 0 ≤ s.qmax) : (capacity_kibam_t.updateCapacity expf s I dt).q0 ≤ s.qmax := by
  unfold capacity_kibam_t.updateCapacity
  dsimp only
  simp only [(check_charge_change_fields _).2.2.2.1, (update_SOC_fields _).2.1]
  have key : ∀ a b m : ℚ, 0 ≤ m → m < a + b → m * (a / (a + b)) + m * (b / (a + b)) ≤ m := by
    intro a b m hm hab
    have hne : a + b ≠ 0 := by linarith
    have : m * (a / (a + b)) + m * (b / (a + b)) = m := by
      field_simp
      ring
    linarith
  split_ifs <;> (try dsimp only at *) <;>
    first
    | exact key _ _ _ hq (by assumption)
    | linarith

/-- C4: for the KiBaM model the two tanks sum to the reported total charge,
`q1() + q2() = q0()`, after construction, after `replace_battery` and after
`updateCapacity`; after `updateCapacity` on a state with `qmax ≥ 0` that total
does not exceed `qmax`. -/
theorem kibam_tanks_sum_to_total (expf : ℚ → ℚ) (k_init c_init q20 t1 q1 q10 SOC_max : ℚ)
    (s : capacity_kibam_t) (I dt : ℚ) (hq : 0 ≤ s.qmax) :
    (capacity_kibam_t.mk0 expf k_init c_init q20 t1 q1 q10 SOC_max).get_q1
        + (capacity_kibam_t.mk0 expf k_init c_init q20 t1 q1 q10 SOC_max).get_q2
        = (capacity_kibam_t.mk0 expf k_init c_init q20 t1 q1 q10 SOC_max).q0
      ∧ (capacity_kibam_t.replace_battery s).get_q1 + (capacity_kibam_t.replace_battery s).get_q2
        = (capacity_kibam_t.replace_battery s).q0
      ∧ (capacity_kibam_t.updateCapacity expf s I dt).get_q1
        + (capacity_kibam_t.updateCapacity expf s I dt).get_q2
        = (capacity_kibam_t.updateCapacity expf s I dt).q0
      ∧ (capacity_kibam_t.updateCapacity expf s I dt).q0
        ≤ (capacity_kibam_t.updateCapacity expf s I dt).qmax := by
  have hrep : ∀ r : capacity_kibam_t, (capacity_kibam_t.replace_battery r).get_q1
      + (capacity_kibam_t.replace_battery r).get_q2 = (capacity_kibam_t.replace_battery r).q0 := by
    intro r
    unfold capacity_kibam_t.get_q1 capacity_kibam_t.get_q2 capacity_kibam_t.replace_battery
    dsimp only
    ring
  refine ⟨?_, hrep s, ?_, ?_⟩
  · unfold capacity_kibam_t.mk0
    exact hrep _
  · unfold capacity_kibam_t.get_q1 capacity_kibam_t.get_q2
    exact (kibam_updateCapacity_charge expf s I dt).1.symm
  · rw [(kibam_updateCapacity_charge expf s I dt).2]
    exact kibam_updateCapacity_le_qmax expf s I dt hq

theorem kibam_tanks_sum_to_total_witness :
    0 ≤ kibam_example.qmax
      ∧ (capacity_kibam_t.updateCapacity exp_approx kibam_example (-30) 1).get_q1
        + (capacity_kibam_t.updateCapacity exp_approx kibam_example (-30) 1).get_q2
        = (capacity_kibam_t.updateCapacity exp_approx kibam_example (-30) 1).q0
      ∧ (capacity_kibam_t.updateCapacity exp_approx kibam_example (-30) 1).q0
        ≤ (capacity_kibam_t.updateCapacity exp_approx kibam_example (-30) 1).qmax :=
  have h := kibam_tanks_sum_to_total exp_approx 0 0 100 1 60 93 100 kibam_example (-30) 1
    (by decide!)
  ⟨by decide!, h.2.2.1, h.2.2.2⟩


/-! ### Rainflow counting -/

/-- Forming the ranges `X` and `Y` changes nothing else. -/
theorem rainflow_ranges_fields (s : lifetime_t) :
    s.rainflow_ranges.Clt = s.Clt ∧ s.rainflow_ranges.jlt = s.jlt
      ∧ s.rainflow_ranges.Peaks = s.Peaks ∧ s.rainflow_ranges.nCycles = s.nCycles
      ∧ s.rainflow_ranges.average_range = s.average_range
      ∧ s.rainflow_ranges.Ylt = |s.peak (s.jlt - 1) - s.peak (s.jlt - 2)|
      ∧ s.rainflow_ranges.Xlt = |s.peak s.jlt - s.peak (s.jlt - 1)| := by
  simp [lifetime_t.rainflow_ranges, lifetime_t.peak]

/-- What `rainflow_compareRanges` does when the latest range is the smaller
one: nothing, and it asks for more data. -/
theorem rainflow_compareRanges_lt (bilinear : ℚ → Int → ℚ) (s : lifetime_t)
    (h : s.Xlt < s.Ylt) :
    lifetime_t.rainflow_compareRanges bilinear s = (s, RetCode.LT_GET_DATA) := by
  unfold lifetime_t.rainflow_compareRanges
  simp [h]

/-- The code returned by `rainflow_compareRanges` is `LT_GET_DATA` with the
state unchanged, or `LT_RERANGE` with `_jlt` lowered by 2. -/
theorem rainflow_compareRanges_code (bilinear : ℚ → Int → ℚ) (s : lifetime_t) :
    (lifetime_t.rainflow_compareRanges bilinear s = (s, RetCode.LT_GET_DATA))
      ∨ ((lifetime_t.rainflow_compareRanges bilinear s).2 = RetCode.LT_RERANGE
          ∧ (lifetime_t.rainflow_compareRanges bilinear s).1.jlt = s.jlt - 2) := by
  by_cases h : s.Xlt < s.Ylt
  · exact Or.inl (rainflow_compareRanges_lt bilinear s h)
  · right
    have h2 : s.Xlt ≥ s.Ylt := not_lt.mp h
    unfold lifetime_t.rainflow_compareRanges
    dsimp only
    simp only [h, h2, if_false, if_true]
    split_ifs <;> simp

/-- The retention after `rainflow_compareRanges` is at most the retention
before and is not negative, when the retention before is not negative. -/
theorem rainflow_compareRanges_Clt (bilinear : ℚ → Int → ℚ) (s : lifetime_t)
    (h : 0 ≤ s.Clt) :
    (lifetime_t.rainflow_compareRanges bilinear s).1.Clt ≤ s.Clt
      ∧ 0 ≤ (lifetime_t.rainflow_compareRanges bilinear s).1.Clt := by
  unfold lifetime_t.rainflow_compareRanges
  dsimp only
  split_ifs <;> (try dsimp only at *) <;> constructor <;> linarith

/-- The loop of `rainflow` leaves only with the code `LT_GET_DATA`. -/
theorem rainflow_loop_code (bilinear : ℚ → Int → ℚ) (n : ℕ) (s : lifetime_t) :
    (lifetime_t.rainflow_loop bilinear n s).2 = RetCode.LT_GET_DATA := by
  induction n generalizing s with
  | zero => rfl
  | succ n ih =>
    unfold lifetime_t.rainflow_loop
    dsimp only
    split_ifs with h1 h2
    · exact h2
    · exact ih _
    · rfl

/-- The pass count `n` given to `rainflow_loop` does not matter once it is at
least `_jlt`: the loop has left by then. -/
theorem rainflow_loop_bound (bilinear : ℚ → Int → ℚ) (n m : ℕ) (s : lifetime_t)
    (hn : s.jlt.toNat ≤ n) (hm : s.jlt.toNat ≤ m) :
    lifetime_t.rainflow_loop bilinear n s = lifetime_t.rainflow_loop bilinear m s := by
  induction n generalizing m s with
  | zero =>
    cases m with
    | zero => rfl
    | succ m =>
      have h : ¬ s.jlt ≥ 2 := by omega
      simp [lifetime_t.rainflow_loop, h]
  | succ n ih =>
    cases m with
    | zero =>
      have h : ¬ s.jlt ≥ 2 := by omega
      simp [lifetime_t.rainflow_loop, h]
    | succ m =>
      unfold lifetime_t.rainflow_loop
      dsimp only
      split_ifs with h1 h2
      · rfl
      · rcases rainflow_compareRanges_code bilinear s.rainflow_ranges with hc | ⟨-, hj⟩
        · rw [hc] at h2
          exact absurd rfl h2
        · have hr := (rainflow_ranges_fields s).2.1
          apply ih <;> omega
      · rfl

/-- The retention after the loop of `rainflow` is at most the retention before
and is not negative. -/
theorem rainflow_loop_Clt (bilinear : ℚ → Int → ℚ) (n : ℕ) (s : lifetime_t)
    (h : 0 ≤ s.Clt) :
    (lifetime_t.rainflow_loop bilinear n s).1.Clt ≤ s.Clt
      ∧ 0 ≤ (lifetime_t.rainflow_loop bilinear n s).1.Clt := by
  induction n generalizing s with
  | zero => exact ⟨le_refl _, h⟩
  | succ n ih =>
    have hr : 0 ≤ s.rainflow_ranges.Clt := by
      rw [(rainflow_ranges_fields s).1]
      exact h
    have hc := rainflow_compareRanges_Clt bilinear s.rainflow_ranges hr
    rw [(rainflow_ranges_fields s).1] at hc
    unfold lifetime_t.rainflow_loop
    dsimp only
    split_ifs with h1 h2
    · exact hc
    · have h3 := ih _ hc.2
      exact ⟨le_trans h3.1 hc.1, h3.2⟩
    · exact ⟨le_refl _, h⟩

/-- The state that `rainflow` returns: the loop result with `_jlt` raised. -/
theorem rainflow_eq (bilinear : ℚ → Int → ℚ) (s : lifetime_t) (DOD : ℚ) :
    lifetime_t.rainflow bilinear s DOD
      = { (lifetime_t.rainflow_loop bilinear s.jlt.toNat
            { s with Peaks := s.Peaks ++ [DOD] }).1 with
          jlt := (lifetime_t.rainflow_loop bilinear s.jlt.toNat
            { s with Peaks := s.Peaks ++ [DOD] }).1.jlt + 1 } := by
  unfold lifetime_t.rainflow
  dsimp only
  rw [if_pos (rainflow_loop_code bilinear _ _)]

/-- C7: for every lifetime state whose retention is not negative and every
sample fed to `rainflow`, whatever function the table lookup `bilinear` is,
`capacity_percent()` after the call is at most `capacity_percent()` before the
call and is not negative. -/
theorem rainflow_retention_nonincreasing (bilinear : ℚ → Int → ℚ) (s : lifetime_t) (DOD : ℚ)
    (h : 0 ≤ s.capacity_percent) :
    (lifetime_t.rainflow bilinear s DOD).capacity_percent ≤ s.capacity_percent
      ∧ 0 ≤ (lifetime_t.rainflow bilinear s DOD).capacity_percent := by
  unfold lifetime_t.capacity_percent at *
  rw [rainflow_eq]
  exact rainflow_loop_Clt bilinear s.jlt.toNat { s with Peaks := s.Peaks ++ [DOD] } h

/-- With fewer than three buffered peaks the loop of `rainflow` does nothing. -/
theorem rainflow_loop_short (bilinear : ℚ → Int → ℚ) (n : ℕ) (s : lifetime_t)
    (h : s.jlt < 2) : lifetime_t.rainflow_loop bilinear n s = (s, RetCode.LT_GET_DATA) := by
  cases n with
  | zero => rfl
  | succ n =>
    have h2 : ¬ s.jlt ≥ 2 := not_le.mpr h
    simp [lifetime_t.rainflow_loop, h2]

/-- When the latest range is smaller than the one before, the loop of
`rainflow` stops after forming the two ranges. -/
theorem rainflow_loop_stop (bilinear : ℚ → Int → ℚ) (n : ℕ) (s : lifetime_t)
    (hj : 2 ≤ s.jlt) (hlt : s.rainflow_ranges.Xlt < s.rainflow_ranges.Ylt) :
    lifetime_t.rainflow_loop bilinear (n + 1) s = (s.rainflow_ranges, RetCode.LT_GET_DATA) := by
  unfold lifetime_t.rainflow_loop
  dsimp only
  rw [if_pos hj, rainflow_compareRanges_lt bilinear _ hlt]
  simp

/-- A prefix of a list with strictly decreasing ranges has strictly decreasing
ranges. -/
theorem ranges_strictly_decreasing_init (xs : List ℚ) (x : ℚ)
    (h : ranges_strictly_decreasing (xs ++ [x])) : ranges_strictly_decreasing xs := by
  intro i hi
  have h1 := h i (by simp; omega)
  rw [List.getD_append _ _ _ _ (by omega), List.getD_append _ _ _ _ (by omega),
    List.getD_append _ _ _ _ (by omega)] at h1
  exact h1

/-- One sample that continues a sequence of strictly decreasing ranges is
appended to the peak buffer and counts nothing. -/
theorem rainflow_keeps_sample (bilinear : ℚ → Int → ℚ) (s : lifetime_t) (x : ℚ)
    (hj : s.jlt = s.Peaks.length) (hd : ranges_strictly_decreasing (s.Peaks ++ [x])) :
    (lifetime_t.rainflow bilinear s x).Peaks = s.Peaks ++ [x]
      ∧ (lifetime_t.rainflow bilinear s x).jlt = s.jlt + 1
      ∧ (lifetime_t.rainflow bilinear s x).nCycles = s.nCycles := by
  rw [rainflow_eq]
  by_cases h2 : s.jlt < 2
  · rw [rainflow_loop_short bilinear _ _ (by exact h2)]
    exact ⟨rfl, rfl, rfl⟩
  · have h3 : 2 ≤ s.Peaks.length := by omega
    obtain ⟨k, hk⟩ : ∃ k, s.jlt.toNat = k + 1 := ⟨s.jlt.toNat - 1, by omega⟩
    have hlt : (lifetime_t.rainflow_ranges { s with Peaks := s.Peaks ++ [x] }).Xlt
        < (lifetime_t.rainflow_ranges { s with Peaks := s.Peaks ++ [x] }).Ylt := by
      rw [(rainflow_ranges_fields _).2.2.2.2.2.1, (rainflow_ranges_fields _).2.2.2.2.2.2]
      have h4 := hd (s.Peaks.length - 2) (by simp; omega)
      have e0 : s.jlt.toNat = s.Peaks.length - 2 + 2 := by omega
      have e1 : (s.jlt - 1).toNat = s.Peaks.length - 2 + 1 := by omega
      have e2 : (s.jlt - 2).toNat = s.Peaks.length - 2 := by omega
      unfold lifetime_t.peak
      dsimp only
      rw [e0, e1, e2]
      exact h4
    rw [hk, rainflow_loop_stop bilinear k _ (by dsimp only; omega) hlt]
    dsimp only
    exact ⟨(rainflow_ranges_fields _).2.2.1, by rw [(rainflow_ranges_fields _).2.1],
      (rainflow_ranges_fields _).2.2.2.1⟩

/-- Feeding a sequence with strictly decreasing ranges from a state with an
empty peak buffer keeps all samples and the cycle count. -/
theorem rainflow_all_keeps (bilinear : ℚ → Int → ℚ) (s : lifetime_t) (xs : List ℚ)
    (hp : s.Peaks = []) (hj : s.jlt = 0) (hd : ranges_strictly_decreasing xs) :
    (lifetime_t.rainflow_all bilinear s xs).Peaks = xs
      ∧ (lifetime_t.rainflow_all bilinear s xs).jlt = xs.length
      ∧ (lifetime_t.rainflow_all bilinear s xs).nCycles = s.nCycles := by
  induction xs using List.reverseRecOn with
  | nil => exact ⟨hp, by simpa using hj, rfl⟩
  | append_singleton xs x ih =>
    obtain ⟨i1, i2, i3⟩ := ih (ranges_strictly_decreasing_init xs x hd)
    have e : lifetime_t.rainflow_all bilinear s (xs ++ [x])
        = lifetime_t.rainflow bilinear (lifetime_t.rainflow_all bilinear s xs) x := by
      unfold lifetime_t.rainflow_all
      rw [List.foldl_append]
      rfl
    have h := rainflow_keeps_sample bilinear (lifetime_t.rainflow_all bilinear s xs) x
      (by rw [i1, i2]) (by rw [i1]; exact hd)
    rw [e, h.1, h.2.1, h.2.2, i1, i2, i3]
    refine ⟨rfl, ?_, rfl⟩
    simp

theorem rainflow_retention_nonincreasing_witness :
    0 ≤ (lifetime_t.rainflow_all example_bilinear
          (lifetime_t.mk0 example_bilinear example_table 1 50) [10, 90]).capacity_percent
      ∧ (lifetime_t.rainflow example_bilinear (lifetime_t.rainflow_all example_bilinear
          (lifetime_t.mk0 example_bilinear example_table 1 50) [10, 90]) 10).capacity_percent
        ≤ (lifetime_t.rainflow_all example_bilinear
          (lifetime_t.mk0 example_bilinear example_table 1 50) [10, 90]).capacity_percent
      ∧ 0 ≤ (lifetime_t.rainflow example_bilinear (lifetime_t.rainflow_all example_bilinear
          (lifetime_t.mk0 example_bilinear example_table 1 50) [10, 90]) 10).capacity_percent :=
  ⟨by decide!, rainflow_retention_nonincreasing example_bilinear
    (lifetime_t.rainflow_all example_bilinear
      (lifetime_t.mk0 example_bilinear example_table 1 50) [10, 90]) 10 (by decide!)⟩

/-- C6: feeding `rainflow`, on a freshly constructed lifetime model, a sample
sequence whose consecutive absolute differences are strictly decreasing counts
no half-cycle (`cycles_elapsed() = 0`) and leaves the peak buffer equal to the
samples in order, with the peak index at their number. -/
theorem rainflow_decreasing_ranges_count_nothing (bilinear : ℚ → Int → ℚ)
    (table : List (ℚ × ℚ × ℚ)) (o : Int) (t : ℚ) (xs : List ℚ)
    (hd : ranges_strictly_decreasing xs) :
    (lifetime_t.rainflow_all bilinear (lifetime_t.mk0 bilinear table o t) xs).cycles_elapsed = 0
      ∧ (lifetime_t.rainflow_all bilinear (lifetime_t.mk0 bilinear table o t) xs).Peaks = xs
      ∧ (lifetime_t.rainflow_all bilinear (lifetime_t.mk0 bilinear table o t) xs).jlt
        = xs.length := by
  have h := rainflow_all_keeps bilinear (lifetime_t.mk0 bilinear table o t) xs rfl rfl hd
  exact ⟨h.2.2, h.1, h.2.1⟩

theorem rainflow_decreasing_ranges_count_nothing_witness :
    ranges_strictly_decreasing [10, 90, 20, 80, 30]
      ∧ (lifetime_t.rainflow_all example_bilinear
          (lifetime_t.mk0 example_bilinear example_table 1 50)
          [10, 90, 20, 80, 30]).cycles_elapsed = 0
      ∧ (lifetime_t.rainflow_all example_bilinear
          (lifetime_t.mk0 example_bilinear example_table 1 50)
          [10, 90, 20, 80, 30]).Peaks = [10, 90, 20, 80, 30] :=
  have h := rainflow_decreasing_ranges_count_nothing example_bilinear example_table 1 50
    [10, 90, 20, 80, 30] (by decide!)
  ⟨by decide!, h.1, h.2.1⟩


/-- What `rainflow_compareRanges` does when the latest range is not the
smaller one: it counts the range `Y` and collapses the buffer. -/
theorem rainflow_compareRanges_count (bilinear : ℚ → Int → ℚ) (s : lifetime_t)
    (h : ¬ s.Xlt < s.Ylt) :
    (lifetime_t.rainflow_compareRanges bilinear s).2 = RetCode.LT_RERANGE
      ∧ (lifetime_t.rainflow_compareRanges bilinear s).1.jlt = s.jlt - 2
      ∧ (lifetime_t.rainflow_compareRanges bilinear s).1.nCycles = s.nCycles + 1
      ∧ (lifetime_t.rainflow_compareRanges bilinear s).1.average_range
        = (s.average_range * s.nCycles + s.Ylt) / (s.nCycles + 1)
      ∧ (lifetime_t.rainflow_compareRanges bilinear s).1.Peaks
        = s.Peaks.dropLast.dropLast.dropLast ++ [s.peak s.jlt] := by
  have h2 : s.Xlt ≥ s.Ylt := not_lt.mp h
  unfold lifetime_t.rainflow_compareRanges
  dsimp only
  simp only [h, h2, if_false, if_true]
  split_ifs <;> simp [lifetime_t.peak]

/-- From the rest state of a constant sequence, the next sample is buffered
without a count. -/
theorem rainflow_flat_first (bilinear : ℚ → Int → ℚ) (d : ℚ) (c : Int) (s : lifetime_t)
    (h : flat_rest d c s) :
    (lifetime_t.rainflow bilinear s d).Peaks = [d, d]
      ∧ (lifetime_t.rainflow bilinear s d).jlt = 2
      ∧ (lifetime_t.rainflow bilinear s d).nCycles = c
      ∧ (lifetime_t.rainflow bilinear s d).average_range = 0 := by
  obtain ⟨hp, hj, hn, ha⟩ := h
  rw [rainflow_eq, rainflow_loop_short bilinear _ _ (by dsimp only; omega)]
  dsimp only
  rw [hp, hj]
  exact ⟨rfl, rfl, hn, ha⟩

/-- With two equal peaks buffered, a third equal sample counts one half-cycle
of range 0 and collapses the buffer to one peak. -/
theorem rainflow_flat_second (bilinear : ℚ → Int → ℚ) (d : ℚ) (c : Int) (s : lifetime_t)
    (hp : s.Peaks = [d, d]) (hj : s.jlt = 2) (hn : s.nCycles = c) (ha : s.average_range = 0) :
    flat_rest d (c + 1) (lifetime_t.rainflow bilinear s d) := by
  have t2 : s.jlt.toNat = 1 + 1 := by omega
  have hx : (lifetime_t.rainflow_ranges { s with Peaks := s.Peaks ++ [d] }).Xlt = 0 := by
    rw [(rainflow_ranges_fields _).2.2.2.2.2.2]
    simp [lifetime_t.peak, hp, hj]
  have hy : (lifetime_t.rainflow_ranges { s with Peaks := s.Peaks ++ [d] }).Ylt = 0 := by
    rw [(rainflow_ranges_fields _).2.2.2.2.2.1]
    simp [lifetime_t.peak, hp, hj]
  rw [rainflow_eq, t2]
  unfold lifetime_t.rainflow_loop
  dsimp only
  rw [if_pos (by omega)]
  have hc := rainflow_compareRanges_count bilinear
    (lifetime_t.rainflow_ranges { s with Peaks := s.Peaks ++ [d] }) (by rw [hx, hy]; simp)
  rw [if_neg (by rw [hc.1]; decide), rainflow_loop_short bilinear _ _ (by
    rw [hc.2.1, (rainflow_ranges_fields _).2.1]; dsimp only; omega)]
  obtain ⟨-, c1, c2, c3, c4⟩ := hc
  refine ⟨?_, ?_, ?_, ?_⟩
  · dsimp only
    rw [c4, (rainflow_ranges_fields _).2.2.1]
    simp [lifetime_t.peak, lifetime_t.rainflow_ranges, hp, hj]
  · dsimp only
    rw [c1, (rainflow_ranges_fields _).2.1]
    dsimp only
    omega
  · dsimp only
    rw [c2, (rainflow_ranges_fields _).2.2.2.1]
    dsimp only
    rw [hn]
  · dsimp only
    rw [c3, hy, (rainflow_ranges_fields _).2.2.2.2.1]
    dsimp only
    rw [ha]
    simp

/-- From the rest state with `c` counted half-cycles, `n` further samples of a
constant sequence count `n / 2` more. -/
theorem rainflow_flat_all (bilinear : ℚ → Int → ℚ) (d : ℚ) (n : ℕ) :
    ∀ (c : Int) (s : lifetime_t), flat_rest d c s →
      (lifetime_t.rainflow_all bilinear s (List.replicate n d)).nCycles = c + ((n / 2 : ℕ) : Int) := by
  induction n using Nat.strong_induction_on with
  | _ n ih =>
    intro c s h
    match n with
    | 0 => simpa [lifetime_t.rainflow_all] using h.2.2.1
    | 1 =>
      have h1 := rainflow_flat_first bilinear d c s h
      simpa [lifetime_t.rainflow_all] using h1.2.2.1
    | k + 2 =>
      have h1 := rainflow_flat_first bilinear d c s h
      have h2 := rainflow_flat_second bilinear d c (lifetime_t.rainflow bilinear s d)
        h1.1 h1.2.1 h1.2.2.1 h1.2.2.2
      have h3 := ih k (by omega) (c + 1) _ h2
      have e : lifetime_t.rainflow_all bilinear s (List.replicate (k + 2) d)
          = lifetime_t.rainflow_all bilinear
              (lifetime_t.rainflow bilinear (lifetime_t.rainflow bilinear s d) d)
              (List.replicate k d) := by
        simp [lifetime_t.rainflow_all, List.replicate_succ]
      rw [e, h3]
      have : (k + 2) / 2 = k / 2 + 1 := by omega
      rw [this]
      push_cast
      ring

/-- C5 (amended): feeding a constant depth-of-discharge sequence of `n`
samples to `rainflow` on a freshly constructed lifetime model leaves
`cycles_elapsed() = (n - 1) / 2` (integer division, `0` for `n ≤ 2`): the first
two samples count nothing, and from the third sample on every second sample
counts one half-cycle, of range 0. -/
theorem rainflow_flat_cycles (bilinear : ℚ → Int → ℚ) (table : List (ℚ × ℚ × ℚ)) (o : Int)
    (t d : ℚ) (n : ℕ) :
    (lifetime_t.rainflow_all bilinear (lifetime_t.mk0 bilinear table o t)
        (List.replicate n d)).cycles_elapsed = (((n - 1) / 2 : ℕ) : Int) := by
  unfold lifetime_t.cycles_elapsed
  cases n with
  | zero => rfl
  | succ k =>
    have h0 : flat_rest d 0 (lifetime_t.rainflow bilinear (lifetime_t.mk0 bilinear table o t) d) := by
      rw [rainflow_eq, rainflow_loop_short bilinear _ _ (by show (0 : Int) < 2; omega)]
      exact ⟨rfl, rfl, rfl, rfl⟩
    have e : lifetime_t.rainflow_all bilinear (lifetime_t.mk0 bilinear table o t)
        (List.replicate (k + 1) d)
        = lifetime_t.rainflow_all bilinear
            (lifetime_t.rainflow bilinear (lifetime_t.mk0 bilinear table o t) d)
            (List.replicate k d) := by
      simp [lifetime_t.rainflow_all, List.replicate_succ]
    rw [e, rainflow_flat_all bilinear d k 0 _ h0]
    simp

/-- C5 (as stated) fails: three equal samples count one half-cycle. -/
theorem rainflow_flat_counts_a_cycle :
    (lifetime_t.rainflow_all example_bilinear
        (lifetime_t.mk0 example_bilinear example_table 1 50) [50, 50, 50]).cycles_elapsed = 1
      ∧ ¬ (lifetime_t.rainflow_all example_bilinear
        (lifetime_t.mk0 example_bilinear example_table 1 50) [50, 50, 50]).cycles_elapsed = 0 := by
  decide!

/-! ### Replacement -/

/-- Comparing the ranges keeps the replacement option and threshold. -/
theorem rainflow_compareRanges_config (bilinear : ℚ → Int → ℚ) (s : lifetime_t) :
    (lifetime_t.rainflow_compareRanges bilinear s).1.replacement_option = s.replacement_option
      ∧ (lifetime_t.rainflow_compareRanges bilinear s).1.replacement_capacity
        = s.replacement_capacity := by
  unfold lifetime_t.rainflow_compareRanges
  dsimp only
  split_ifs <;> exact ⟨rfl, rfl⟩

/-- The loop of `rainflow` keeps the replacement option and threshold. -/
theorem rainflow_loop_config (bilinear : ℚ → Int → ℚ) (n : ℕ) (s : lifetime_t) :
    (lifetime_t.rainflow_loop bilinear n s).1.replacement_option = s.replacement_option
      ∧ (lifetime_t.rainflow_loop bilinear n s).1.replacement_capacity
        = s.replacement_capacity := by
  induction n generalizing s with
  | zero => exact ⟨rfl, rfl⟩
  | succ n ih =>
    have hc := rainflow_compareRanges_config bilinear s.rainflow_ranges
    have hr : s.rainflow_ranges.replacement_option = s.replacement_option
        ∧ s.rainflow_ranges.replacement_capacity = s.replacement_capacity := ⟨rfl, rfl⟩
    unfold lifetime_t.rainflow_loop
    dsimp only
    split_ifs with h1 h2
    · exact ⟨hc.1.trans hr.1, hc.2.trans hr.2⟩
    · have h3 := ih (lifetime_t.rainflow_compareRanges bilinear s.rainflow_ranges).1
      exact ⟨h3.1.trans (hc.1.trans hr.1), h3.2.trans (hc.2.trans hr.2)⟩
    · exact ⟨rfl, rfl⟩

/-- The replacement option and threshold stored by the constructor are those
of every reachable state: no member changes them. -/
theorem lifetime_reachable_config (bilinear : ℚ → Int → ℚ) (table : List (ℚ × ℚ × ℚ))
    (o : Int) (t : ℚ) (s : lifetime_t) (h : lifetime_reachable bilinear table o t s) :
    s.replacement_option = o ∧ s.replacement_capacity = (if t = 0 then 2 else t) := by
  induction h with
  | constructed => exact ⟨rfl, rfl⟩
  | rainflow s DOD _ ih =>
    rw [rainflow_eq]
    have h1 := rainflow_loop_config bilinear s.jlt.toNat { s with Peaks := s.Peaks ++ [DOD] }
    exact ⟨h1.1.trans ih.1, h1.2.trans ih.2⟩
  | check_replaced s _ ih =>
    have hc : (lifetime_t.check_replaced bilinear s).1.replacement_option = s.replacement_option
        ∧ (lifetime_t.check_replaced bilinear s).1.replacement_capacity
          = s.replacement_capacity := by
      unfold lifetime_t.check_replaced
      split_ifs <;> exact ⟨rfl, rfl⟩
    exact ⟨hc.1.trans ih.1, hc.2.trans ih.2⟩
  | force_replacement s _ ih => exact ih
  | reset_replacements s _ ih => exact ih

/-- C8 (as stated) fails: constructed with option 1 and threshold 0 on a table
whose lookup is 1 %, `check_replaced` returns true although the retention is
above the configured threshold and no replacement is pending. -/
theorem check_replaced_zero_threshold :
    (lifetime_t.check_replaced low_bilinear (lifetime_t.mk0 low_bilinear low_table 1 0)).2 = true
      ∧ ¬ (((1 : Int) = 1
            ∧ (lifetime_t.mk0 low_bilinear low_table 1 0).capacity_percent ≤ 0)
          ∨ (lifetime_t.mk0 low_bilinear low_table 1 0).replacement_scheduled = true) := by
  decide!

/-- C8 (amended): for a lifetime model constructed with replacement option `o`
and configured threshold `t`, `check_replaced()` returns true if and only if
(`o = 1` and `capacity_percent() ≤ t'`) or a forced replacement is pending,
where the threshold in force `t'` is `t` when `t ≠ 0` and `2` when `t = 0`;
when it returns false the lifetime state is unchanged. -/
theorem check_replaced_iff (bilinear : ℚ → Int → ℚ) (table : List (ℚ × ℚ × ℚ)) (o : Int)
    (t : ℚ) (s : lifetime_t) (h : lifetime_reachable bilinear table o t s) :
    ((lifetime_t.check_replaced bilinear s).2 = true ↔
        ((o = 1 ∧ s.capacity_percent ≤ (if t = 0 then 2 else t))
          ∨ s.replacement_scheduled = true))
      ∧ ((lifetime_t.check_replaced bilinear s).2 = false →
          (lifetime_t.check_replaced bilinear s).1 = s) := by
  obtain ⟨ho, ht⟩ := lifetime_reachable_config bilinear table o t s h
  unfold lifetime_t.check_replaced lifetime_t.capacity_percent
  rw [ho, ht]
  generalize (if t = 0 then (2 : ℚ) else t) = t'
  split_ifs with h1
  · exact ⟨⟨fun _ => h1, fun _ => rfl⟩, fun hf => absurd hf (by decide)⟩
  · exact ⟨⟨fun hf => absurd hf (by decide), fun hf => absurd hf h1⟩, fun _ => rfl⟩

theorem check_replaced_iff_witness :
    lifetime_reachable example_bilinear example_table 1 0
        (lifetime_t.rainflow_all example_bilinear
          (lifetime_t.mk0 example_bilinear example_table 1 0) [10, 90])
      ∧ (lifetime_t.check_replaced example_bilinear (lifetime_t.rainflow_all example_bilinear
          (lifetime_t.mk0 example_bilinear example_table 1 0) [10, 90])).2 = false
      ∧ (lifetime_t.check_replaced example_bilinear (lifetime_t.rainflow_all example_bilinear
          (lifetime_t.mk0 example_bilinear example_table 1 0) [10, 90])).1
        = lifetime_t.rainflow_all example_bilinear
          (lifetime_t.mk0 example_bilinear example_table 1 0) [10, 90] :=
  have hr : lifetime_reachable example_bilinear example_table 1 0
      (lifetime_t.rainflow_all example_bilinear
        (lifetime_t.mk0 example_bilinear example_table 1 0) [10, 90]) :=
    lifetime_reachable.rainflow _ 90
      (lifetime_reachable.rainflow _ 10 lifetime_reachable.constructed)
  ⟨hr, by decide!, (check_replaced_iff example_bilinear example_table 1 0 _ hr).2 (by decide!)⟩

/-- C9: whenever `check_replaced()` returns true, afterwards
`cycles_elapsed() = 0`, `capacity_percent()` is the lookup `bilinear(0, 0)`,
which is the value the constructor sets, the peak buffer is empty with peak
index 0, the pending forced-replacement flag is cleared and `replacements()`
is one greater than before. -/
theorem check_replaced_resets (bilinear : ℚ → Int → ℚ) (table : List (ℚ × ℚ × ℚ)) (o : Int)
    (t : ℚ) (s : lifetime_t) (h : (lifetime_t.check_replaced bilinear s).2 = true) :
    (lifetime_t.check_replaced bilinear s).1.cycles_elapsed = 0
      ∧ (lifetime_t.check_replaced bilinear s).1.capacity_percent = bilinear 0 0
      ∧ (lifetime_t.check_replaced bilinear s).1.capacity_percent
        = (lifetime_t.mk0 bilinear table o t).capacity_percent
      ∧ (lifetime_t.check_replaced bilinear s).1.Peaks = []
      ∧ (lifetime_t.check_replaced bilinear s).1.jlt = 0
      ∧ (lifetime_t.check_replaced bilinear s).1.replacement_scheduled = false
      ∧ (lifetime_t.check_replaced bilinear s).1.replacements_ = s.replacements_ + 1 := by
  unfold lifetime_t.check_replaced at h ⊢
  split_ifs at h ⊢ with h1
  exact ⟨rfl, rfl, rfl, rfl, rfl, rfl, rfl⟩

theorem check_replaced_resets_witness :
    (lifetime_t.check_replaced example_bilinear (lifetime_t.force_replacement
        (lifetime_t.rainflow_all example_bilinear
          (lifetime_t.mk0 example_bilinear example_table 1 50) [10, 90, 10]))).2 = true
      ∧ (lifetime_t.check_replaced example_bilinear (lifetime_t.force_replacement
        (lifetime_t.rainflow_all example_bilinear
          (lifetime_t.mk0 example_bilinear example_table 1 50) [10, 90, 10]))).1.cycles_elapsed = 0
      ∧ (lifetime_t.check_replaced example_bilinear (lifetime_t.force_replacement
        (lifetime_t.rainflow_all example_bilinear
          (lifetime_t.mk0 example_bilinear example_table 1 50) [10, 90, 10]))).1.Peaks = [] :=
  have h := check_replaced_resets example_bilinear example_table 1 50
    (lifetime_t.force_replacement (lifetime_t.rainflow_all example_bilinear
      (lifetime_t.mk0 example_bilinear example_table 1 50) [10, 90, 10])) (by decide!)
  ⟨by decide!, h.1, h.2.2.2.1⟩

/-! ### Charge after a replacement -/

/-- The maximum charge fitted by `qmax_compute` exceeds the 20-hour capacity
`q20` for every rate constant `k > 0` and capacity share `0 < c < 1` when
`exp(-20 k) < 1`: the charge `q20` that `replace_battery` stores is below the
`qmax0` it restores. -/
theorem kibam_qmax_compute_gt (expf : ℚ → ℚ) (s : capacity_kibam_t) (hk : 0 < s.k)
    (hc0 : 0 < s.c) (hc1 : s.c < 1) (he : expf (-s.k * 20) < 1) (hq : 0 < s.q20) :
    s.q20 < capacity_kibam_t.qmax_compute expf s := by
  unfold capacity_kibam_t.qmax_compute
  dsimp only
  have hd : 0 < s.k * s.c * 20 := by positivity
  rw [lt_div_iff₀ hd]
  have h1 : 0 < (1 - expf (-s.k * 20)) * (1 - s.c) := by
    apply mul_pos <;> linarith
  nlinarith

/-- C10 (as stated) fails for the KiBaM variant: after `replace_battery` on a
battery with `q20 = 100`, `SOC_max = 100` and the `qmax0 = 23200/221` that
`qmax_compute` gives, the stored charge has `100 * q0 / qmax < SOC_max`, and
the state of charge recomputed by a thermal derating pass that does not cap
the charge is `5525/58`, not `SOC_max`. -/
theorem kibam_replace_battery_below_SOC_max :
    kibam_example.qmax0 = capacity_kibam_t.qmax_compute exp_approx kibam_example
      ∧ ¬ (100 * (capacity_kibam_t.replace_battery kibam_example).q0
          / (capacity_kibam_t.replace_battery kibam_example).qmax ≥ kibam_example.SOC_max)
      ∧ ¬ ((capacity_kibam_t.replace_battery kibam_example).q0
          > (capacity_kibam_t.replace_battery kibam_example).qmax * 1)
      ∧ (capacity_kibam_t.updateCapacityForThermal
          (capacity_kibam_t.replace_battery kibam_example) 1).SOC = 5525 / 58
      ∧ (capacity_kibam_t.updateCapacityForThermal
          (capacity_kibam_t.replace_battery kibam_example) 1).SOC ≠ kibam_example.SOC_max := by
  decide!

/-- C10 (amended): after `replace_battery()` the lithium-ion model
(`qmax0 > 0`, `SOC_max ≤ 100`) stores `q0 = qmax = qmax0`, so that
`100 * q0 / qmax ≥ SOC_max` and the state of charge recomputed by a thermal
derating pass that does not cap the charge equals `SOC_max`; the KiBaM model
(`qmax0 > 0`, `q20 ≥ 0`) stores `q0 = q20` and `qmax = qmax0`, so that the state
of charge recomputed by such a pass is `min (100 * q20 / qmax0) SOC_max`. -/
theorem replace_battery_soc (l : capacity_t) (kb : capacity_kibam_t) (pl pk : ℚ)
    (hl : 0 < l.qmax0) (hm : l.SOC_max ≤ 100) (hpl : ¬ l.qmax0 > l.qmax0 * pl)
    (hk : 0 < kb.qmax0) (hq : 0 ≤ kb.q20) (hpk : ¬ kb.q20 > kb.qmax0 * pk) :
    (100 * (capacity_lithium_ion_t.replace_battery l).q0
          / (capacity_lithium_ion_t.replace_battery l).qmax ≥ l.SOC_max
        ∧ (capacity_lithium_ion_t.updateCapacityForThermal
            (capacity_lithium_ion_t.replace_battery l) pl).SOC = l.SOC_max)
      ∧ ((capacity_kibam_t.replace_battery kb).q0 = kb.q20
        ∧ (capacity_kibam_t.replace_battery kb).qmax = kb.qmax0
        ∧ (capacity_kibam_t.updateCapacityForThermal
            (capacity_kibam_t.replace_battery kb) pk).SOC
          = min (100 * kb.q20 / kb.qmax0) kb.SOC_max) := by
  have hl0 : l.qmax0 ≠ 0 := ne_of_gt hl
  refine ⟨⟨?_, ?_⟩, rfl, rfl, ?_⟩
  · unfold capacity_lithium_ion_t.replace_battery
    dsimp only
    rw [mul_div_assoc, div_self hl0]
    linarith
  · unfold capacity_lithium_ion_t.updateCapacityForThermal capacity_lithium_ion_t.replace_battery
    dsimp only
    rw [if_neg hpl]
    unfold capacity_t.update_SOC
    dsimp only
    rw [if_pos hl, div_self hl0]
    split_ifs <;> linarith
  · unfold capacity_kibam_t.updateCapacityForThermal capacity_kibam_t.replace_battery
    dsimp only
    rw [if_neg hpk]
    unfold capacity_t.update_SOC
    dsimp only
    rw [if_pos hk]
    have hnn : 0 ≤ 100 * (kb.q20 / kb.qmax0) := by positivity
    rw [mul_div_assoc]
    split_ifs with h1 h2
    · exact (min_eq_right (le_of_lt h1)).symm
    · linarith
    · exact (min_eq_left (not_lt.mp h1)).symm

theorem replace_battery_soc_witness :
    (capacity_lithium_ion_t.updateCapacityForThermal
        (capacity_lithium_ion_t.replace_battery lithium_example) 1).SOC = lithium_example.SOC_max
      ∧ (capacity_kibam_t.updateCapacityForThermal
          (capacity_kibam_t.replace_battery kibam_example) 1).SOC
        = min (100 * kibam_example.q20 / kibam_example.qmax0) kibam_example.SOC_max :=
  have h := replace_battery_soc lithium_example kibam_example 1 1 (by decide!) (by decide!)
    (by decide!) (by decide!) (by decide!) (by decide!)
  ⟨h.1.2, h.2.2.2⟩

/-! ### Voltage model -/

/-- At full charge the value formed by `voltage_model_tremblay_hybrid` on
fitted parameters is `Vfull + R * (Qfull * C_rate - I)`. -/
theorem tremblay_raw_full_charge (expf : ℚ → ℚ) (he : expf 0 = 1) (nc ns : Int)
    (v Vfull Vexp Vnom Qfull Qexp Qnom C_rate R Q I : ℚ) (hQ : Q ≠ 0) :
    voltage_dynamic_t.tremblay_raw expf
        (voltage_dynamic_t.mk0 expf nc ns v Vfull Vexp Vnom Qfull Qexp Qnom C_rate R) Q I Q
      = some (Vfull + R * (Qfull * C_rate - I)) := by
  unfold voltage_dynamic_t.tremblay_raw voltage_dynamic_t.mk0 voltage_dynamic_t.parameter_compute
    voltage_t.mk0
  have h1 : Q - (Q - Q) = Q := by ring
  dsimp only
  rw [h1, if_neg hQ, div_self hQ]
  have h2 : -(3 / Qexp) * (Q - Q) = 0 := by ring
  rw [h2, he]
  congr 1
  ring

/-- C11 (as stated) fails: at full charge and zero current the fitted example
cell gives 4.145 V, the full-charge voltage 4.1 V plus the drop `R * Qfull *
C_rate` of the fitting current. -/
theorem tremblay_full_charge_zero_current_above_Vfull :
    voltage_dynamic_t.voltage_model_tremblay_hybrid exp_approx voltage_example (225 / 100) 0
        (225 / 100) = 4145 / 1000
      ∧ voltage_dynamic_t.voltage_model_tremblay_hybrid exp_approx voltage_example (225 / 100) 0
        (225 / 100) ≠ voltage_example.Vfull := by
  decide!

/-- C11 (amended): for parameters fitted by `parameter_compute` (`exp 0 = 1`,
`Qexp ≠ 0`, `Qnom ≠ 0`) and full charge `q0 = Q`, `Q > 0`,
`voltage_model_tremblay_hybrid(Q, I, Q)` equals `Vfull` at the fitting current
`I = Qfull * C_rate` (for `Vfull ≥ 0`); at zero current it equals
`Vfull + R * Qfull * C_rate` when that value lies in `[0, 1.25 * Vfull]`. -/
theorem tremblay_full_charge (expf : ℚ → ℚ) (he : expf 0 = 1) (nc ns : Int)
    (v Vfull Vexp Vnom Qfull Qexp Qnom C_rate R Q : ℚ) (hQ : 0 < Q) (_hexp : Qexp ≠ 0)
    (_hnom : Qnom ≠ 0) :
    (0 ≤ Vfull →
        voltage_dynamic_t.voltage_model_tremblay_hybrid expf
          (voltage_dynamic_t.mk0 expf nc ns v Vfull Vexp Vnom Qfull Qexp Qnom C_rate R)
          Q (Qfull * C_rate) Q = Vfull)
      ∧ (0 ≤ Vfull + R * Qfull * C_rate → Vfull + R * Qfull * C_rate ≤ Vfull * (5 / 4) →
        voltage_dynamic_t.voltage_model_tremblay_hybrid expf
          (voltage_dynamic_t.mk0 expf nc ns v Vfull Vexp Vnom Qfull Qexp Qnom C_rate R)
          Q 0 Q = Vfull + R * Qfull * C_rate) := by
  have hV : (voltage_dynamic_t.mk0 expf nc ns v Vfull Vexp Vnom Qfull Qexp Qnom C_rate R).Vfull
      = Vfull := rfl
  constructor
  · intro h0
    unfold voltage_dynamic_t.voltage_model_tremblay_hybrid
    rw [tremblay_raw_full_charge expf he nc ns v Vfull Vexp Vnom Qfull Qexp Qnom C_rate R Q _
      (ne_of_gt hQ)]
    dsimp only
    rw [hV]
    have e : Vfull + R * (Qfull * C_rate - Qfull * C_rate) = Vfull := by ring
    rw [e, if_neg (not_lt.mpr h0), if_neg (by linarith)]
  · intro h0 h1
    unfold voltage_dynamic_t.voltage_model_tremblay_hybrid
    rw [tremblay_raw_full_charge expf he nc ns v Vfull Vexp Vnom Qfull Qexp Qnom C_rate R Q _
      (ne_of_gt hQ)]
    dsimp only
    rw [hV]
    have e : Vfull + R * (Qfull * C_rate - 0) = Vfull + R * Qfull * C_rate := by ring
    rw [e, if_neg (not_lt.mpr h0), if_neg (not_lt.mpr h1)]

theorem tremblay_full_charge_witness :
    voltage_dynamic_t.voltage_model_tremblay_hybrid exp_approx voltage_example (225 / 100)
        ((225 / 100) * (2 / 10)) (225 / 100) = 41 / 10 :=
  (tremblay_full_charge exp_approx (by decide!) 14 1 (41 / 10) (41 / 10) (405 / 100) (34 / 10)
    (225 / 100) (4 / 100) 2 (2 / 10) (1 / 10) (225 / 100) (by norm_num) (by norm_num)
    (by norm_num)).1 (by norm_num)

/-- C12: the formula value `V = E0 - K*(Q/(Q - it)) + A*exp(-B*it) - R*I` with
`it = Q - q0` of `voltage_model_tremblay_hybrid` is undefined exactly when
`q0 = 0` and is the formula for every other `q0`.  The function returns
`0.5 * Vnom` when `V` is undefined (`q0 = 0`) or negative, `Vfull` when `V` is
not negative and above `1.25 * Vfull`, and `V` otherwise; for `Vnom ≥ 0` and
`Vfull ≥ 0` the result is not negative and at most
`max (1.25 * Vfull) (0.5 * Vnom)`. -/
theorem tremblay_guards (expf : ℚ → ℚ) (s : voltage_dynamic_t) (Q I q0 : ℚ) :
    (voltage_dynamic_t.tremblay_raw expf s Q I q0 = none ↔ q0 = 0)
      ∧ (q0 ≠ 0 → voltage_dynamic_t.tremblay_raw expf s Q I q0
        = some (s.E0 - s.K * (Q / (Q - (Q - q0))) + s.A * expf (-s.B * (Q - q0)) - s.R * I))
      ∧ (q0 = 0 →
        voltage_dynamic_t.voltage_model_tremblay_hybrid expf s Q I q0 = (1 / 2) * s.Vnom)
      ∧ (q0 ≠ 0 →
        (s.E0 - s.K * (Q / (Q - (Q - q0))) + s.A * expf (-s.B * (Q - q0)) - s.R * I < 0 →
          voltage_dynamic_t.voltage_model_tremblay_hybrid expf s Q I q0 = (1 / 2) * s.Vnom)
        ∧ (0 ≤ s.E0 - s.K * (Q / (Q - (Q - q0))) + s.A * expf (-s.B * (Q - q0)) - s.R * I →
          s.E0 - s.K * (Q / (Q - (Q - q0))) + s.A * expf (-s.B * (Q - q0)) - s.R * I
            > (5 / 4) * s.Vfull →
          voltage_dynamic_t.voltage_model_tremblay_hybrid expf s Q I q0 = s.Vfull)
        ∧ (0 ≤ s.E0 - s.K * (Q / (Q - (Q - q0))) + s.A * expf (-s.B * (Q - q0)) - s.R * I →
          s.E0 - s.K * (Q / (Q - (Q - q0))) + s.A * expf (-s.B * (Q - q0)) - s.R * I
            ≤ (5 / 4) * s.Vfull →
          voltage_dynamic_t.voltage_model_tremblay_hybrid expf s Q I q0
            = s.E0 - s.K * (Q / (Q - (Q - q0))) + s.A * expf (-s.B * (Q - q0)) - s.R * I))
      ∧ (voltage_dynamic_t.tremblay_raw expf s Q I q0 = none →
        voltage_dynamic_t.voltage_model_tremblay_hybrid expf s Q I q0 = (1 / 2) * s.Vnom)
      ∧ (∀ V, voltage_dynamic_t.tremblay_raw expf s Q I q0 = some V →
        (V < 0 →
          voltage_dynamic_t.voltage_model_tremblay_hybrid expf s Q I q0 = (1 / 2) * s.Vnom)
        ∧ (0 ≤ V → V > (5 / 4) * s.Vfull →
          voltage_dynamic_t.voltage_model_tremblay_hybrid expf s Q I q0 = s.Vfull)
        ∧ (0 ≤ V → V ≤ (5 / 4) * s.Vfull →
          voltage_dynamic_t.voltage_model_tremblay_hybrid expf s Q I q0 = V)
        ∧ V = s.E0 - s.K * (Q / (Q - (Q - q0))) + s.A * expf (-s.B * (Q - q0)) - s.R * I)
      ∧ (0 ≤ s.Vnom → 0 ≤ s.Vfull →
        0 ≤ voltage_dynamic_t.voltage_model_tremblay_hybrid expf s Q I q0
          ∧ voltage_dynamic_t.voltage_model_tremblay_hybrid expf s Q I q0
            ≤ max ((5 / 4) * s.Vfull) ((1 / 2) * s.Vnom)) := by
  have hdiv : Q - (Q - q0) = 0 ↔ q0 = 0 := by
    constructor
    · intro h
      linarith
    · intro h
      rw [h]
      ring
  have hnone : q0 = 0 → voltage_dynamic_t.tremblay_raw expf s Q I q0 = none := by
    intro h
    unfold voltage_dynamic_t.tremblay_raw
    dsimp only
    rw [if_pos (hdiv.mpr h)]
  have hsome : q0 ≠ 0 → voltage_dynamic_t.tremblay_raw expf s Q I q0
      = some (s.E0 - s.K * (Q / (Q - (Q - q0))) + s.A * expf (-s.B * (Q - q0)) - s.R * I) := by
    intro h
    unfold voltage_dynamic_t.tremblay_raw
    dsimp only
    rw [if_neg (fun hh => h (hdiv.mp hh))]
  have hcases : ∀ V, voltage_dynamic_t.tremblay_raw expf s Q I q0 = some V →
      (V < 0 →
        voltage_dynamic_t.voltage_model_tremblay_hybrid expf s Q I q0 = (1 / 2) * s.Vnom)
      ∧ (0 ≤ V → V > (5 / 4) * s.Vfull →
        voltage_dynamic_t.voltage_model_tremblay_hybrid expf s Q I q0 = s.Vfull)
      ∧ (0 ≤ V → V ≤ (5 / 4) * s.Vfull →
        voltage_dynamic_t.voltage_model_tremblay_hybrid expf s Q I q0 = V) := by
    intro V hV
    refine ⟨?_, ?_, ?_⟩
    · intro h
      unfold voltage_dynamic_t.voltage_model_tremblay_hybrid
      rw [hV]
      dsimp only
      rw [if_pos h]
    · intro h0 h1
      unfold voltage_dynamic_t.voltage_model_tremblay_hybrid
      rw [hV]
      dsimp only
      rw [if_neg (not_lt.mpr h0), if_pos (by linarith)]
    · intro h0 h1
      unfold voltage_dynamic_t.voltage_model_tremblay_hybrid
      rw [hV]
      dsimp only
      rw [if_neg (not_lt.mpr h0), if_neg (by linarith)]
  have hhalf : voltage_dynamic_t.tremblay_raw expf s Q I q0 = none →
      voltage_dynamic_t.voltage_model_tremblay_hybrid expf s Q I q0 = (1 / 2) * s.Vnom := by
    intro h
    unfold voltage_dynamic_t.voltage_model_tremblay_hybrid
    rw [h]
  refine ⟨?_, hsome, fun h => hhalf (hnone h), fun h => hcases _ (hsome h), hhalf, ?_, ?_⟩
  · constructor
    · intro h
      by_contra hq
      rw [hsome hq] at h
      cases h
    · exact hnone
  · intro V hV
    obtain ⟨c1, c2, c3⟩ := hcases V hV
    refine ⟨c1, c2, c3, ?_⟩
    by_cases hq : q0 = 0
    · rw [hnone hq] at hV
      cases hV
    · rw [hsome hq] at hV
      exact (Option.some.inj hV).symm
  · intro hn hf
    unfold voltage_dynamic_t.voltage_model_tremblay_hybrid
    cases voltage_dynamic_t.tremblay_raw expf s Q I q0 with
    | none =>
      dsimp only
      exact ⟨by linarith, le_max_right _ _⟩
    | some V =>
      dsimp only
      split_ifs with h1 h2
      · exact ⟨by linarith, le_max_right _ _⟩
      · exact ⟨hf, le_trans (by linarith) (le_max_left _ _)⟩
      · exact ⟨not_lt.mp h1, le_trans (by linarith) (le_max_left _ _)⟩

theorem tremblay_guards_witness :
    voltage_dynamic_t.voltage_model_tremblay_hybrid exp_approx voltage_example (225 / 100) 0 0
        = (1 / 2) * voltage_example.Vnom
      ∧ voltage_dynamic_t.tremblay_raw exp_approx voltage_example (225 / 100) 0 (225 / 100)
        = some (829 / 200)
      ∧ voltage_dynamic_t.voltage_model_tremblay_hybrid exp_approx voltage_example (225 / 100) 0
          (225 / 100) = 829 / 200 := by
  have h0 := (tremblay_guards exp_approx voltage_example (225 / 100) 0 0).2.2.1 rfl
  have h1 := tremblay_guards exp_approx voltage_example (225 / 100) 0 (225 / 100)
  have hv : voltage_example.E0
      - voltage_example.K * (225 / 100 / (225 / 100 - (225 / 100 - 225 / 100)))
      + voltage_example.A * exp_approx (-voltage_example.B * (225 / 100 - 225 / 100))
      - voltage_example.R * 0 = 829 / 200 := by decide!
  have h2 := h1.2.1 (by norm_num)
  have h3 := (h1.2.2.2.1 (by norm_num)).2.2
  rw [hv] at h2 h3
  exact ⟨h0, h2, h3 (by norm_num) (by decide!)⟩

/-! ### Thermal model -/

/-- The parameters of the thermal model are not changed by a step. -/
theorem updateTemperature_fields (s : thermal_t) (I R dt : ℚ) :
    (s.updateTemperature I R dt).mass = s.mass ∧ (s.updateTemperature I R dt).Cp = s.Cp
      ∧ (s.updateTemperature I R dt).h = s.h ∧ (s.updateTemperature I R dt).A = s.A
      ∧ (s.updateTemperature I R dt).T_room = s.T_room :=
  ⟨rfl, rfl, rfl, rfl, rfl⟩

/-- One step with zero current scales the distance to the room temperature by
`(1 - a) / (1 + a)`. -/
theorem updateTemperature_idle (s : thermal_t) (R dt : ℚ) (hm : 0 < s.mass) (hCp : 0 < s.Cp)
    (hh : 0 < s.h) (hA : 0 < s.A) (hdt : 0 < dt) :
    (s.updateTemperature 0 R dt).T_battery - s.T_room
      = (1 - thermal_step_coefficient s dt) / (1 + thermal_step_coefficient s dt)
        * (s.T_battery - s.T_room) := by
  have ha : 0 < thermal_step_coefficient s dt := by
    unfold thermal_step_coefficient
    positivity
  have hmc : s.mass * s.Cp ≠ 0 := by positivity
  have h1 : 1 + thermal_step_coefficient s dt ≠ 0 := by linarith
  have h2 : (1 + 1 / 2 * (dt * 3600) * (1 / (s.mass * s.Cp)) * (s.h * s.A))
      = 1 + thermal_step_coefficient s dt := by
    unfold thermal_step_coefficient
    field_simp
    ring
  unfold thermal_t.updateTemperature thermal_t.trapezoidal thermal_t.f thermal_t.HR2SEC
  dsimp only
  rw [h2, div_sub' _ _ _ h1]
  have h3 : (1 - thermal_step_coefficient s dt) / (1 + thermal_step_coefficient s dt)
      * (s.T_battery - s.T_room)
      = ((1 - thermal_step_coefficient s dt) * (s.T_battery - s.T_room))
        / (1 + thermal_step_coefficient s dt) := by
    rw [div_mul_eq_mul_div]
  rw [h3]
  congr 1
  unfold thermal_step_coefficient
  field_simp
  ring

/-- The factor `|1 - a| / (1 + a)` is below 1 and not negative for `a > 0`. -/
theorem thermal_factor_lt_one (a : ℚ) (ha : 0 < a) :
    0 ≤ |1 - a| / (1 + a) ∧ |1 - a| / (1 + a) < 1 := by
  have h1 : 0 < 1 + a := by linarith
  refine ⟨by positivity, ?_⟩
  rw [div_lt_one h1, abs_lt]
  constructor <;> linarith

/-- The distance to the room temperature after `n` idle steps is the start
distance times the `n`-th power of the factor. -/
theorem run_idle_distance (s : thermal_t) (Rs : ℕ → ℚ) (dt : ℚ) (hm : 0 < s.mass)
    (hCp : 0 < s.Cp) (hh : 0 < s.h) (hA : 0 < s.A) (hdt : 0 < dt) (n : ℕ) :
    ((s.run_idle Rs dt n).mass = s.mass ∧ (s.run_idle Rs dt n).Cp = s.Cp
      ∧ (s.run_idle Rs dt n).h = s.h ∧ (s.run_idle Rs dt n).A = s.A
      ∧ (s.run_idle Rs dt n).T_room = s.T_room)
    ∧ |(s.run_idle Rs dt n).T_battery - s.T_room|
      = (|1 - thermal_step_coefficient s dt| / (1 + thermal_step_coefficient s dt)) ^ n
        * |s.T_battery - s.T_room| := by
  induction n with
  | zero => exact ⟨⟨rfl, rfl, rfl, rfl, rfl⟩, by simp [thermal_t.run_idle]⟩
  | succ n ih =>
    obtain ⟨⟨e1, e2, e3, e4, e5⟩, ih2⟩ := ih
    have hc : thermal_step_coefficient (s.run_idle Rs dt n) dt = thermal_step_coefficient s dt := by
      unfold thermal_step_coefficient
      rw [e1, e2, e3, e4]
    have ha : 0 < thermal_step_coefficient s dt := by
      unfold thermal_step_coefficient
      positivity
    have hstep := updateTemperature_idle (s.run_idle Rs dt n) (Rs n) dt (by rw [e1]; exact hm)
      (by rw [e2]; exact hCp) (by rw [e3]; exact hh) (by rw [e4]; exact hA) hdt
    rw [hc, e5] at hstep
    refine ⟨⟨e1, e2, e3, e4, e5⟩, ?_⟩
    show |((s.run_idle Rs dt n).updateTemperature 0 (Rs n) dt).T_battery - s.T_room| = _
    rw [hstep, abs_mul, abs_div, ih2, abs_of_pos (by linarith : 0 < 1 + thermal_step_coefficient s dt)]
    ring

/-- C13: for positive mass, `Cp`, `h`, surface area `A` and timestep `dt`, a
constant room temperature and zero current, one `updateTemperature` step
multiplies `|T_battery - T_room|` by `|1 - a| / (1 + a)` with
`a = 0.5 * dt * 3600 * h * A / (mass * Cp)`, which strictly reduces it unless
it is 0, and from every start temperature the temperatures after `n` steps
converge to `T_room`. -/
theorem thermal_idle_converges (s : thermal_t) (Rs : ℕ → ℚ) (dt : ℚ) (hm : 0 < s.mass)
    (hCp : 0 < s.Cp) (hh : 0 < s.h) (hA : 0 < s.A) (hdt : 0 < dt) :
    (∀ R : ℚ, |(s.updateTemperature 0 R dt).T_battery - s.T_room|
        = |1 - thermal_step_coefficient s dt| / (1 + thermal_step_coefficient s dt)
          * |s.T_battery - s.T_room|)
      ∧ (∀ R : ℚ, s.T_battery ≠ s.T_room →
        |(s.updateTemperature 0 R dt).T_battery - s.T_room| < |s.T_battery - s.T_room|)
      ∧ (∀ ε : ℚ, 0 < ε → ∃ N : ℕ, ∀ n : ℕ, N ≤ n →
        |(s.run_idle Rs dt n).T_battery - s.T_room| < ε) := by
  have ha : 0 < thermal_step_coefficient s dt := by
    unfold thermal_step_coefficient
    positivity
  obtain ⟨hf0, hf1⟩ := thermal_factor_lt_one _ ha
  have hone : ∀ R : ℚ, |(s.updateTemperature 0 R dt).T_battery - s.T_room|
        = |1 - thermal_step_coefficient s dt| / (1 + thermal_step_coefficient s dt)
          * |s.T_battery - s.T_room| := by
    intro R
    rw [updateTemperature_idle s R dt hm hCp hh hA hdt, abs_mul, abs_div,
      abs_of_pos (by linarith : 0 < 1 + thermal_step_coefficient s dt)]
  refine ⟨hone, ?_, ?_⟩
  · intro R hne
    rw [hone R]
    have hpos : 0 < |s.T_battery - s.T_room| := abs_pos.mpr (sub_ne_zero.mpr hne)
    nlinarith
  · intro ε hε
    have hd : 0 < |s.T_battery - s.T_room| + 1 := by positivity
    obtain ⟨N, hN⟩ := exists_pow_lt_of_lt_one (div_pos hε hd) hf1
    refine ⟨N, fun n hn => ?_⟩
    rw [(run_idle_distance s Rs dt hm hCp hh hA hdt n).2]
    have hpow : (|1 - thermal_step_coefficient s dt| / (1 + thermal_step_coefficient s dt)) ^ n
        ≤ (|1 - thermal_step_coefficient s dt| / (1 + thermal_step_coefficient s dt)) ^ N :=
      pow_le_pow_of_le_one hf0 (le_of_lt hf1) hn
    have hlt : (|1 - thermal_step_coefficient s dt| / (1 + thermal_step_coefficient s dt)) ^ n
        < ε / (|s.T_battery - s.T_room| + 1) := lt_of_le_of_lt hpow hN
    rw [lt_div_iff₀ hd] at hlt
    have hnn : 0 ≤ (|1 - thermal_step_coefficient s dt|
        / (1 + thermal_step_coefficient s dt)) ^ n := pow_nonneg hf0 n
    nlinarith [abs_nonneg (s.T_battery - s.T_room)]

theorem thermal_idle_converges_witness :
    |(thermal_example.updateTemperature 0 (4 / 1000) 1).T_battery - thermal_example.T_room|
      < |thermal_example.T_battery - thermal_example.T_room| :=
  (thermal_idle_converges thermal_example (fun _ => 4 / 1000) 1 (by decide!) (by decide!)
    (by decide!) (by decide!) (by norm_num)).2.1 (4 / 1000) (by decide!)

/-! ### Dispatch controllers -/

/-- C14 (as stated) fails in its last part: with the flip to charging
suppressed the battery energy flow is 0, yet `current_controller` returns the
current `Id_max = -5`, because the clamp `I > _Id_max` holds for `I = 0`. -/
theorem switch_controller_current_nonzero :
    dispatch_example.charging ≠ dispatch_example.prev_charging
      ∧ dispatch_example.t_at_mode ≤ dispatch_example.t_min
      ∧ dispatch_example.switch_controller.e_tofrom_batt = 0
      ∧ dispatch_example.switch_controller.charging = dispatch_example.prev_charging
      ∧ dispatch_example.switch_controller.current_controller 50 = -5
      ∧ dispatch_example.switch_controller.current_controller 50 ≠ 0 := by
  decide!

/-- C14 (amended): when the direction chosen for the step differs from the
previous one and `_t_at_mode ≤ _t_min`, `switch_controller` returns with
`_e_tofrom_batt = 0` and `_charging = _prev_charging`; the current that
`current_controller` then computes is 0 when the limits `_Ic_max` and
`_Id_max` are not negative (timestep and battery voltage not zero). -/
theorem switch_controller_suppresses_flip (s : dispatch_t) (battery_voltage : ℚ)
    (hflip : s.charging ≠ s.prev_charging) (ht : s.t_at_mode ≤ s.t_min) :
    s.switch_controller.e_tofrom_batt = 0
      ∧ s.switch_controller.charging = s.prev_charging
      ∧ s.switch_controller.prev_charging = s.prev_charging
      ∧ (0 ≤ s.Ic_max → 0 ≤ s.Id_max → s.dt_hour ≠ 0 → battery_voltage ≠ 0 →
        s.switch_controller.current_controller battery_voltage = 0) := by
  have h1 : s.switch_controller.e_tofrom_batt = 0 := by
    unfold dispatch_t.switch_controller
    rw [if_pos hflip, if_pos ht]
  have h2 : s.switch_controller.charging = s.prev_charging := by
    unfold dispatch_t.switch_controller
    rw [if_pos hflip, if_pos ht]
  have h3 : s.switch_controller.prev_charging = s.prev_charging := by
    unfold dispatch_t.switch_controller
    rw [if_pos hflip, if_pos ht]
  have h4 : s.switch_controller.Ic_max = s.Ic_max ∧ s.switch_controller.Id_max = s.Id_max := by
    unfold dispatch_t.switch_controller
    rw [if_pos hflip, if_pos ht]
    exact ⟨rfl, rfl⟩
  refine ⟨h1, h2, h3, ?_⟩
  intro hc hd _ _
  unfold dispatch_t.current_controller
  dsimp only
  rw [h1, h4.1, h4.2]
  simp only [mul_zero, zero_div, abs_zero]
  rw [if_neg (not_lt.mpr hc), if_neg (not_lt.mpr hd)]
  simp

theorem switch_controller_suppresses_flip_witness :
    dispatch_example.switch_controller.e_tofrom_batt = 0
      ∧ dispatch_example.switch_controller.charging = dispatch_example.prev_charging :=
  have h := switch_controller_suppresses_flip dispatch_example 50 (by decide!) (by decide!)
  ⟨h.1, h.2.1⟩

/-- The clamp of a charge request `e < 0` in `SOC_controller`: with the bound
`b` on the charge energy, the request after the maximum-charge clamp has a
magnitude of at most `min |e| (max 0 b)`, and the percent throttle `p` does not
raise the magnitude. -/
theorem charge_clamp_bound (e b p : ℚ) (h : e < 0) :
    |if |(if e < (if -b > 0 then 0 else -b) then (if -b > 0 then 0 else -b) else e)| > |p|
        then p else (if e < (if -b > 0 then 0 else -b) then (if -b > 0 then 0 else -b) else e)|
      ≤ min |e| (max 0 b) := by
  have h1 : |(if e < (if -b > 0 then 0 else -b) then (if -b > 0 then 0 else -b) else e)|
      ≤ min |e| (max 0 b) := by
    rw [le_min_iff, abs_of_neg h]
    split_ifs <;>
      first
      | (rw [abs_zero]; exact ⟨by linarith, le_max_left _ _⟩)
      | (rw [abs_of_neg h]
         exact ⟨le_refl _, by linarith [le_max_left (0 : ℚ) b, le_max_right (0 : ℚ) b]⟩)
      | (rw [abs_neg, abs_of_nonneg (by linarith : 0 ≤ b)]
         exact ⟨by linarith, le_max_right _ _⟩)
  by_cases c : |(if e < (if -b > 0 then 0 else -b) then (if -b > 0 then 0 else -b) else e)| > |p|
  · rw [if_pos c]
    exact le_trans (le_of_lt c) h1
  · rw [if_neg c]
    exact h1

/-- The battery energy that `SOC_controller` leaves for a charge request, as
the two clamps applied to the request: the maximum-charge clamp, then the
percent throttle `p`. -/
theorem SOC_controller_charge_eq (s : dispatch_t) (V q qmax b : ℚ) (h : s.e_tofrom_batt < 0)
    (hb : V * (q - qmax * s.SOC_max * (1 / 100)) * watt_to_kilowatt = -b) :
    ∃ p : ℚ, (s.SOC_controller V q qmax).e_tofrom_batt
      = (if |(if s.e_tofrom_batt < (if -b > 0 then 0 else -b)
            then (if -b > 0 then 0 else -b) else s.e_tofrom_batt)| > |p|
          then p
          else (if s.e_tofrom_batt < (if -b > 0 then 0 else -b)
            then (if -b > 0 then 0 else -b) else s.e_tofrom_batt)) := by
  refine ⟨(if true ≠ s.prev_charging then (if -b > 0 then 0 else -b) else s.e_max_charge)
    * s.percent_charge * (1 / 100), ?_⟩
  unfold dispatch_t.SOC_controller
  rw [if_neg (not_lt.mpr (le_of_lt h)), if_pos h]
  dsimp only
  rw [hb]
  split_ifs <;> (try dsimp only at *)

/-- C15: `SOC_controller(V, q, qmax)` keeps the requested battery energy inside
the bound of the state of charge: a discharge request `e > 0` becomes at most
`min e (max 0 (V * (q - qmax * SOC_min / 100) / 1000))`; a charge request
`e < 0` becomes of magnitude at most
`min |e| (max 0 (V * (qmax * SOC_max / 100 - q) / 1000))`; a zero request stays
zero and the charging direction is that of the previous step. -/
theorem SOC_controller_bounds (s : dispatch_t) (V q qmax : ℚ) :
    (0 < s.e_tofrom_batt →
        (s.SOC_controller V q qmax).e_tofrom_batt
          ≤ min s.e_tofrom_batt (max 0 (V * (q - qmax * s.SOC_min / 100) / 1000)))
      ∧ (s.e_tofrom_batt < 0 →
        |(s.SOC_controller V q qmax).e_tofrom_batt|
          ≤ min |s.e_tofrom_batt| (max 0 (V * (qmax * s.SOC_max / 100 - q) / 1000)))
      ∧ (s.e_tofrom_batt = 0 →
        (s.SOC_controller V q qmax).e_tofrom_batt = 0
          ∧ (s.SOC_controller V q qmax).charging = s.prev_charging
          ∧ (s.SOC_controller V q qmax).prev_charging = s.prev_charging) := by
  refine ⟨?_, ?_, ?_⟩
  · intro h
    have e1 : V * (q - qmax * s.SOC_min * (1 / 100)) * watt_to_kilowatt
        = V * (q - qmax * s.SOC_min / 100) / 1000 := by
      unfold watt_to_kilowatt
      ring
    unfold dispatch_t.SOC_controller
    rw [if_pos h]
    dsimp only
    rw [e1]
    generalize V * (q - qmax * s.SOC_min / 100) / 1000 = b
    rw [le_min_iff]
    split_ifs <;> (try dsimp only at *) <;> constructor <;>
      first
      | linarith
      | exact le_max_left _ _
      | exact le_max_right _ _
      | (apply le_trans _ (le_max_left _ _); linarith)
      | (apply le_trans _ (le_max_right _ _); linarith)
  · intro h
    have e1 : V * (q - qmax * s.SOC_max * (1 / 100)) * watt_to_kilowatt
        = -(V * (qmax * s.SOC_max / 100 - q) / 1000) := by
      unfold watt_to_kilowatt
      ring
    obtain ⟨p, hp⟩ := SOC_controller_charge_eq s V q qmax _ h e1
    rw [hp]
    exact charge_clamp_bound s.e_tofrom_batt _ p h
  · intro h
    unfold dispatch_t.SOC_controller
    rw [if_neg (by rw [h]; exact lt_irrefl _), if_neg (by rw [h]; exact lt_irrefl _)]
    exact ⟨h, rfl, rfl⟩

theorem SOC_controller_bounds_witness :
    0 < ({ dispatch_example with e_tofrom_batt := 5 } : dispatch_t).e_tofrom_batt
      ∧ (({ dispatch_example with e_tofrom_batt := 5 } : dispatch_t).SOC_controller 50 80
          100).e_tofrom_batt
        ≤ min 5 (max 0 (50 * (80 - 100 * 20 / 100) / 1000)) :=
  ⟨by decide!, (SOC_controller_bounds { dispatch_example with e_tofrom_batt := 5 } 50 80 100).1
    (by decide!)⟩

/-! ### Energy accounting of a manual dispatch step -/

/-- What the first part of `dispatch` leaves: the three to-load flows are 0,
and the coupling is untouched. -/
theorem dispatch_request_fields (hours_in_month : Int → Int) (tolerance : ℚ)
    (s : dispatch_manual_t) (B : battery_view) (hour_of_year step : Int) (e_pv e_load : ℚ) :
    (dispatch_manual_t.dispatch_request hours_in_month tolerance s B hour_of_year step e_pv
        e_load).pv_to_load = 0
      ∧ (dispatch_manual_t.dispatch_request hours_in_month tolerance s B hour_of_year step e_pv
        e_load).battery_to_load = 0
      ∧ (dispatch_manual_t.dispatch_request hours_in_month tolerance s B hour_of_year step e_pv
        e_load).grid_to_load = 0
      ∧ (dispatch_manual_t.dispatch_request hours_in_month tolerance s B hour_of_year step e_pv
        e_load).ac_or_dc = s.ac_or_dc := by
  have hp : (dispatch_manual_t.dispatch_profile hours_in_month s hour_of_year step).ac_or_dc
      = s.ac_or_dc := by
    unfold dispatch_manual_t.dispatch_profile
    dsimp only
    split_ifs <;> rfl
  unfold dispatch_manual_t.dispatch_request dispatch_manual_t.dispatch_choose
  dsimp only
  rw [← hp]
  split_ifs <;> exact ⟨rfl, rfl, rfl, rfl⟩

/-- `SOC_controller` changes neither the to-load flows nor the coupling. -/
theorem SOC_controller_fields (s : dispatch_t) (V q qmax : ℚ) :
    (s.SOC_controller V q qmax).pv_to_load = s.pv_to_load
      ∧ (s.SOC_controller V q qmax).battery_to_load = s.battery_to_load
      ∧ (s.SOC_controller V q qmax).grid_to_load = s.grid_to_load
      ∧ (s.SOC_controller V q qmax).ac_or_dc = s.ac_or_dc := by
  unfold dispatch_t.SOC_controller
  dsimp only
  split_ifs <;> exact ⟨rfl, rfl, rfl, rfl⟩

/-- `switch_controller` changes neither the to-load flows nor the coupling. -/
theorem switch_controller_fields (s : dispatch_t) :
    s.switch_controller.pv_to_load = s.pv_to_load
      ∧ s.switch_controller.battery_to_load = s.battery_to_load
      ∧ s.switch_controller.grid_to_load = s.grid_to_load
      ∧ s.switch_controller.ac_or_dc = s.ac_or_dc := by
  unfold dispatch_t.switch_controller
  dsimp only
  split_ifs <;> exact ⟨rfl, rfl, rfl, rfl⟩

/-- `total_loss` changes neither the to-load flows nor the coupling, and sets
the annual loss to the difference of the annual accumulators. -/
theorem total_loss_fields (s : dispatch_t) (I V Vn : ℚ) :
    (s.total_loss I V Vn).pv_to_load = s.pv_to_load
      ∧ (s.total_loss I V Vn).battery_to_load = s.battery_to_load
      ∧ (s.total_loss I V Vn).grid_to_load = s.grid_to_load
      ∧ (s.total_loss I V Vn).ac_or_dc = s.ac_or_dc
      ∧ (s.total_loss I V Vn).e_loss_annual
        = (s.total_loss I V Vn).charge_annual - (s.total_loss I V Vn).discharge_annual := by
  unfold dispatch_t.total_loss dispatch_t.conversion_loss_in dispatch_t.conversion_loss_out
  dsimp only
  split_ifs <;> exact ⟨rfl, rfl, rfl, rfl, rfl⟩

/-- `compute_efficiency` changes neither the to-load flows, the coupling, the
battery energy of the step nor the annual loss, and moves the difference of
the annual accumulators by the battery energy of the step. -/
theorem compute_efficiency_fields (s : dispatch_t) :
    s.compute_efficiency.pv_to_load = s.pv_to_load
      ∧ s.compute_efficiency.battery_to_load = s.battery_to_load
      ∧ s.compute_efficiency.grid_to_load = s.grid_to_load
      ∧ s.compute_efficiency.ac_or_dc = s.ac_or_dc
      ∧ s.compute_efficiency.e_tofrom_batt = s.e_tofrom_batt
      ∧ s.compute_efficiency.e_loss_annual = s.e_loss_annual
      ∧ s.compute_efficiency.charge_annual - s.compute_efficiency.discharge_annual
        = s.charge_annual - s.discharge_annual - s.e_tofrom_batt := by
  unfold dispatch_t.compute_efficiency
  dsimp only
  split_ifs <;> refine ⟨rfl, rfl, rfl, rfl, rfl, rfl, ?_⟩ <;> dsimp only <;> linarith

/-- The to-load flows that `compute_grid_net` leaves when it is entered with
the battery-to-load and grid-to-load flows at 0, a load and a PV share
`e_gen * _pv_fraction` that are not negative, and a battery share that is not
negative when the battery discharges. -/
theorem compute_grid_net_to_load (s : dispatch_t) (e_gen e_load : ℚ)
    (hb : s.battery_to_load = 0) (hg : s.grid_to_load = 0) (hl : 0 ≤ e_load)
    (hpv : 0 ≤ e_gen * s.pv_fraction)
    (hbat : 0 < s.e_tofrom_batt → 0 ≤ e_gen * s.battery_fraction) :
    (s.compute_grid_net e_gen e_load).pv_to_load = min (e_gen * s.pv_fraction) e_load
      ∧ 0 ≤ (s.compute_grid_net e_gen e_load).pv_to_load
      ∧ 0 ≤ (s.compute_grid_net e_gen e_load).battery_to_load
      ∧ 0 ≤ (s.compute_grid_net e_gen e_load).grid_to_load
      ∧ (s.compute_grid_net e_gen e_load).pv_to_load
          + (s.compute_grid_net e_gen e_load).battery_to_load
          + (s.compute_grid_net e_gen e_load).grid_to_load = e_load := by
  unfold dispatch_t.compute_grid_net
  dsimp only
  rw [hb, hg]
  generalize e_gen * s.pv_fraction = x at *
  by_cases h1 : x > e_load
  · simp only [h1, if_true]
    exact ⟨(min_eq_right (le_of_lt h1)).symm, hl, le_refl _, le_refl _, by ring⟩
  · simp only [h1, if_false]
    have h1' : x ≤ e_load := not_lt.mp h1
    refine ⟨(min_eq_left h1').symm, hpv, ?_, ?_, by ring⟩
    · by_cases c : s.e_tofrom_batt > 0
      · have hy := hbat c
        simp only [c, if_true]
        split_ifs <;> linarith
      · simp only [c, if_false]
        split_ifs <;> linarith
    · by_cases c : s.e_tofrom_batt > 0
      · simp only [c, if_true]
        split_ifs with c2
        · linarith
        · have c3 := not_or.mp c2
          linarith [not_lt.mp c3.2]
      · simp only [c, if_false]
        split_ifs with c2
        · linarith
        · linarith

/-- The generation and the shares that `generation_fractions` stores: the PV
share of the generation is the PV energy when the generation is not zero, and
0 otherwise; likewise the battery share. -/
theorem generation_fractions_shares (s : dispatch_t) (e_pv : ℚ) :
    (s.generation_fractions e_pv).e_gen = e_pv + s.e_tofrom_batt
      ∧ (s.generation_fractions e_pv).e_gen * (s.generation_fractions e_pv).pv_fraction
        = (if e_pv + s.e_tofrom_batt = 0 then 0 else e_pv)
      ∧ (s.generation_fractions e_pv).e_gen * (s.generation_fractions e_pv).battery_fraction
        = (if e_pv + s.e_tofrom_batt = 0 then 0 else s.e_tofrom_batt)
      ∧ (s.generation_fractions e_pv).e_tofrom_batt = s.e_tofrom_batt
      ∧ (s.generation_fractions e_pv).pv_to_load = s.pv_to_load
      ∧ (s.generation_fractions e_pv).battery_to_load = s.battery_to_load
      ∧ (s.generation_fractions e_pv).grid_to_load = s.grid_to_load
      ∧ (s.generation_fractions e_pv).ac_or_dc = s.ac_or_dc := by
  unfold dispatch_t.generation_fractions
  dsimp only
  refine ⟨rfl, ?_, ?_, rfl, rfl, rfl, rfl, rfl⟩
  · by_cases h : e_pv + s.e_tofrom_batt = 0
    · simp [h]
    · have hp : |e_pv + s.e_tofrom_batt| > 0 := abs_pos.mpr h
      rw [if_pos hp, if_neg h]
      field_simp
  · by_cases h : e_pv + s.e_tofrom_batt = 0
    · simp [h]
    · have hp : |e_pv + s.e_tofrom_batt| > 0 := abs_pos.mpr h
      rw [if_pos hp, if_neg h]
      field_simp

/-- The to-load flows after the accounting part of an AC-coupled dispatch step
that is entered with the battery-to-load and grid-to-load flows at 0. -/
theorem dispatch_account_to_load (d : dispatch_t) (V I Vn e_pv e_load : ℚ)
    (hb : d.battery_to_load = 0) (hg : d.grid_to_load = 0) (hac : d.ac_or_dc = true)
    (hl : 0 ≤ e_load) (hpv : 0 ≤ e_pv) :
    (dispatch_manual_t.dispatch_account d V I Vn e_pv e_load).pv_to_load
        = min ((dispatch_manual_t.dispatch_account d V I Vn e_pv e_load).e_gen
            * (dispatch_manual_t.dispatch_account d V I Vn e_pv e_load).pv_fraction) e_load
      ∧ 0 ≤ (dispatch_manual_t.dispatch_account d V I Vn e_pv e_load).pv_to_load
      ∧ 0 ≤ (dispatch_manual_t.dispatch_account d V I Vn e_pv e_load).battery_to_load
      ∧ 0 ≤ (dispatch_manual_t.dispatch_account d V I Vn e_pv e_load).grid_to_load
      ∧ (dispatch_manual_t.dispatch_account d V I Vn e_pv e_load).pv_to_load
          + (dispatch_manual_t.dispatch_account d V I Vn e_pv e_load).battery_to_load
          + (dispatch_manual_t.dispatch_account d V I Vn e_pv e_load).grid_to_load = e_load := by
  unfold dispatch_manual_t.dispatch_account
  dsimp only
  generalize hd1 : ({ d with e_tofrom_batt := I * (1 / 2) * (V + Vn) * d.dt_hour
    * watt_to_kilowatt } : dispatch_t) = d1
  have b1 : d1.battery_to_load = 0 ∧ d1.grid_to_load = 0 ∧ d1.ac_or_dc = true := by
    rw [← hd1]
    exact ⟨hb, hg, hac⟩
  obtain ⟨-, t2, t3, t4, -⟩ := total_loss_fields d1 I V Vn
  obtain ⟨-, c2, c3, c4, -⟩ := compute_efficiency_fields (d1.total_loss I V Vn)
  obtain ⟨g1, g2, g3, g4, -, g6, g7, g8⟩ :=
    generation_fractions_shares (d1.total_loss I V Vn).compute_efficiency e_pv
  generalize ((d1.total_loss I V Vn).compute_efficiency).generation_fractions e_pv = d4 at *
  have hac4 : d4.ac_or_dc = true := by rw [g8, c4, t4]; exact b1.2.2
  rw [if_pos hac4]
  have h := compute_grid_net_to_load d4 d4.e_gen e_load (by rw [g6, c2, t2]; exact b1.1)
    (by rw [g7, c3, t3]; exact b1.2.1) hl
    (by rw [g2]; split_ifs <;> linarith)
    (by
      intro hpos
      rw [g3]
      split_ifs
      · exact le_refl _
      · rw [g4] at hpos
        exact le_of_lt hpos)
  have e1 : (d4.compute_grid_net d4.e_gen e_load).e_gen = d4.e_gen := rfl
  have e2 : (d4.compute_grid_net d4.e_gen e_load).pv_fraction = d4.pv_fraction := rfl
  rw [e1, e2]
  exact h

/-- C16: after an AC-coupled `dispatch` step with load and PV energy that are
not negative, the PV-to-load flow is the smaller of the PV share of the
generation `_e_gen * _pv_fraction` and the load, the three to-load flows are
not negative, and they sum to the load. -/
theorem dispatch_to_load_balance (hours_in_month : Int → Int) (tolerance : ℚ)
    (s : dispatch_manual_t) (B : battery_view) (hour_of_year step : Int) (e_pv e_load : ℚ)
    (hac : s.ac_or_dc = true) (hl : 0 ≤ e_load) (hpv : 0 ≤ e_pv) :
    (dispatch_manual_t.dispatch hours_in_month tolerance s B hour_of_year step e_pv
        e_load).pv_to_load
      = min ((dispatch_manual_t.dispatch hours_in_month tolerance s B hour_of_year step e_pv
            e_load).e_gen
          * (dispatch_manual_t.dispatch hours_in_month tolerance s B hour_of_year step e_pv
            e_load).pv_fraction) e_load
      ∧ 0 ≤ (dispatch_manual_t.dispatch hours_in_month tolerance s B hour_of_year step e_pv
        e_load).pv_to_load
      ∧ 0 ≤ (dispatch_manual_t.dispatch hours_in_month tolerance s B hour_of_year step e_pv
        e_load).battery_to_load
      ∧ 0 ≤ (dispatch_manual_t.dispatch hours_in_month tolerance s B hour_of_year step e_pv
        e_load).grid_to_load
      ∧ (dispatch_manual_t.dispatch hours_in_month tolerance s B hour_of_year step e_pv
          e_load).pv_to_load
        + (dispatch_manual_t.dispatch hours_in_month tolerance s B hour_of_year step e_pv
          e_load).battery_to_load
        + (dispatch_manual_t.dispatch hours_in_month tolerance s B hour_of_year step e_pv
          e_load).grid_to_load = e_load := by
  obtain ⟨-, r2, r3, r4⟩ :=
    dispatch_request_fields hours_in_month tolerance s B hour_of_year step e_pv e_load
  obtain ⟨-, o2, o3, o4⟩ := SOC_controller_fields
    (dispatch_manual_t.dispatch_request hours_in_month tolerance s B hour_of_year step e_pv
      e_load).todispatch_t B.battery_voltage B.charge_total B.charge_max
  obtain ⟨-, w2, w3, w4⟩ := switch_controller_fields
    ((dispatch_manual_t.dispatch_request hours_in_month tolerance s B hour_of_year step e_pv
      e_load).todispatch_t.SOC_controller B.battery_voltage B.charge_total B.charge_max)
  unfold dispatch_manual_t.dispatch
  dsimp only
  exact dispatch_account_to_load _ _ _ _ e_pv e_load (by rw [w2, o2]; exact r2)
    (by rw [w3, o3]; exact r3) (by rw [w4, o4]; exact r4.trans hac) hl hpv

theorem dispatch_to_load_balance_witness :
    (dispatch_manual_t.dispatch hours_in_month_table (1 / 1000) manual_example battery_example
        0 0 0 1).pv_to_load
      + (dispatch_manual_t.dispatch hours_in_month_table (1 / 1000) manual_example
        battery_example 0 0 0 1).battery_to_load
      + (dispatch_manual_t.dispatch hours_in_month_table (1 / 1000) manual_example
        battery_example 0 0 0 1).grid_to_load = 1 :=
  (dispatch_to_load_balance hours_in_month_table (1 / 1000) manual_example battery_example
    0 0 0 1 (by decide!) (by norm_num) (by norm_num)).2.2.2.2

/-- After the accounting part of a `dispatch` step the reported annual loss is
the difference of the annual accumulators before the battery energy of the
step was added to them: it exceeds `charge_annual() - discharge_annual()` by
that energy. -/
theorem dispatch_account_loss (d : dispatch_t) (V I Vn e_pv e_load : ℚ) :
    (dispatch_manual_t.dispatch_account d V I Vn e_pv e_load).energy_loss_annual
      = (dispatch_manual_t.dispatch_account d V I Vn e_pv e_load).charge_annual
        - (dispatch_manual_t.dispatch_account d V I Vn e_pv e_load).discharge_annual
        + (dispatch_manual_t.dispatch_account d V I Vn e_pv e_load).e_tofrom_batt := by
  unfold dispatch_manual_t.dispatch_account dispatch_t.energy_loss_annual
  dsimp only
  generalize ({ d with e_tofrom_batt := I * (1 / 2) * (V + Vn) * d.dt_hour
    * watt_to_kilowatt } : dispatch_t) = d1
  obtain ⟨-, -, -, -, t5⟩ := total_loss_fields d1 I V Vn
  obtain ⟨-, -, -, -, c5, c6, c7⟩ := compute_efficiency_fields (d1.total_loss I V Vn)
  have key : ((d1.total_loss I V Vn).compute_efficiency).e_loss_annual
      = ((d1.total_loss I V Vn).compute_efficiency).charge_annual
        - ((d1.total_loss I V Vn).compute_efficiency).discharge_annual
        + ((d1.total_loss I V Vn).compute_efficiency).e_tofrom_batt := by
    rw [c6, c7, c5, t5]
    ring
  generalize (d1.total_loss I V Vn).compute_efficiency = d3 at key
  split_ifs
  · exact key
  · exact key

/-- After every `dispatch` call the reported annual loss exceeds
`charge_annual() - discharge_annual()` by the battery energy of the step. -/
theorem dispatch_loss_identity (hours_in_month : Int → Int) (tolerance : ℚ)
    (s : dispatch_manual_t) (B : battery_view) (hour_of_year step : Int) (e_pv e_load : ℚ) :
    (dispatch_manual_t.dispatch hours_in_month tolerance s B hour_of_year step e_pv
        e_load).energy_loss_annual
      = (dispatch_manual_t.dispatch hours_in_month tolerance s B hour_of_year step e_pv
          e_load).charge_annual
        - (dispatch_manual_t.dispatch hours_in_month tolerance s B hour_of_year step e_pv
          e_load).discharge_annual
        + (dispatch_manual_t.dispatch hours_in_month tolerance s B hour_of_year step e_pv
          e_load).e_tofrom_batt := by
  unfold dispatch_manual_t.dispatch
  dsimp only
  exact dispatch_account_loss _ _ _ _ _ _

/-- The failing input for C17: one discharging step of the example dispatcher
(load 1 kWh, no PV).  The step moves 0.96 kWh out of the battery, the annual
discharge is 0.96 kWh, and the reported annual loss is still 0. -/
theorem dispatch_loss_lags :
    (dispatch_manual_t.dispatch hours_in_month_table (1 / 1000) manual_example battery_example
        0 0 0 1).energy_loss_annual = 0
      ∧ (dispatch_manual_t.dispatch hours_in_month_table (1 / 1000) manual_example
          battery_example 0 0 0 1).charge_annual
        - (dispatch_manual_t.dispatch hours_in_month_table (1 / 1000) manual_example
          battery_example 0 0 0 1).discharge_annual = -(24 / 25)
      ∧ (dispatch_manual_t.dispatch hours_in_month_table (1 / 1000) manual_example
          battery_example 0 0 0 1).energy_loss_annual
        ≠ (dispatch_manual_t.dispatch hours_in_month_table (1 / 1000) manual_example
          battery_example 0 0 0 1).charge_annual
        - (dispatch_manual_t.dispatch hours_in_month_table (1 / 1000) manual_example
          battery_example 0 0 0 1).discharge_annual := by
  decide!

/-! ### Discharge profiles of the automated dispatch -/

/-- The profile number and the flag arrays that the loop of `set_discharge`
leaves: one profile and one triple of flags for every point of the leading run
of points that need energy. -/
theorem set_discharge_loop_arrays (him : Int → Int) (a : automate_dispatch_t) (hoy : Int)
    (P E_max : ℚ) (L : List grid_point) :
    ∀ (d : dispatch_manual_t) (p : Int),
      (a.set_discharge_loop him hoy P E_max L d p).2
          = p + ((L.takeWhile (fun g => decide ((g.Grid - P) * a.dt_hour > 0))).length : ℕ)
        ∧ (a.set_discharge_loop him hoy P E_max L d p).1.charge_array
          = d.charge_array ++ List.replicate
            (L.takeWhile (fun g => decide ((g.Grid - P) * a.dt_hour > 0))).length true
        ∧ (a.set_discharge_loop him hoy P E_max L d p).1.discharge_array
          = d.discharge_array ++ List.replicate
            (L.takeWhile (fun g => decide ((g.Grid - P) * a.dt_hour > 0))).length true
        ∧ (a.set_discharge_loop him hoy P E_max L d p).1.gridcharge_array
          = d.gridcharge_array ++ List.replicate
            (L.takeWhile (fun g => decide ((g.Grid - P) * a.dt_hour > 0))).length false := by
  induction L with
  | nil =>
    intro d p
    simp [automate_dispatch_t.set_discharge_loop]
  | cons g rest ih =>
    intro d p
    unfold automate_dispatch_t.set_discharge_loop
    dsimp only
    by_cases h : (g.Grid - P) * a.dt_hour > 0
    · rw [if_pos h, List.takeWhile_cons_of_pos (by simpa using h)]
      obtain ⟨i1, i2, i3, i4⟩ := ih
        { d with
          sched := sched_set_value d.sched (p + 1)
            (automate_dispatch_t.cell him a hoy g).1 (automate_dispatch_t.cell him a hoy g).2
          charge_array := d.charge_array ++ [true]
          discharge_array := d.discharge_array ++ [true]
          gridcharge_array := d.gridcharge_array ++ [false]
          percent_discharge_array := map_set d.percent_discharge_array (p + 1)
            (100 * ((g.Grid - P) * a.dt_hour / E_max))
          percent_charge_array := map_set d.percent_charge_array (p + 1) 100 } (p + 1)
      rw [i1, i2, i3, i4]
      refine ⟨?_, ?_, ?_, ?_⟩
      · simp only [List.length_cons]
        push_cast
        ring
      · simp [List.replicate_succ]
      · simp [List.replicate_succ]
      · simp [List.replicate_succ]
    · rw [if_neg h, List.takeWhile_cons_of_neg (by simpa using h)]
      simp

/-- The loop of `set_discharge` leaves the percentages of the profiles up to
the entry value of `profile` alone. -/
theorem set_discharge_loop_percent_low (him : Int → Int) (a : automate_dispatch_t) (hoy : Int)
    (P E_max : ℚ) (L : List grid_point) :
    ∀ (d : dispatch_manual_t) (p key : Int), key ≤ p →
      (a.set_discharge_loop him hoy P E_max L d p).1.percent_discharge_array key
          = d.percent_discharge_array key
        ∧ (a.set_discharge_loop him hoy P E_max L d p).1.percent_charge_array key
          = d.percent_charge_array key := by
  induction L with
  | nil =>
    intro d p key _
    exact ⟨rfl, rfl⟩
  | cons g rest ih =>
    intro d p key hk
    unfold automate_dispatch_t.set_discharge_loop
    dsimp only
    by_cases h : (g.Grid - P) * a.dt_hour > 0
    · rw [if_pos h]
      obtain ⟨i1, i2⟩ := ih
        { d with
          sched := sched_set_value d.sched (p + 1)
            (automate_dispatch_t.cell him a hoy g).1 (automate_dispatch_t.cell him a hoy g).2
          charge_array := d.charge_array ++ [true]
          discharge_array := d.discharge_array ++ [true]
          gridcharge_array := d.gridcharge_array ++ [false]
          percent_discharge_array := map_set d.percent_discharge_array (p + 1)
            (100 * ((g.Grid - P) * a.dt_hour / E_max))
          percent_charge_array := map_set d.percent_charge_array (p + 1) 100 } (p + 1) key
        (by omega)
      rw [i1, i2]
      have hne : key ≠ p + 1 := by omega
      simp [map_set, hne]
    · rw [if_neg h]
      exact ⟨rfl, rfl⟩

/-- The percentages that the loop of `set_discharge` stores: the point at
position `j` of the leading run gets profile `p + 1 + j` with the discharge
percent `100 * ((net load - P_target) * dt / E_max)` and the charge percent
100. -/
theorem set_discharge_loop_percent (him : Int → Int) (a : automate_dispatch_t) (hoy : Int)
    (P E_max : ℚ) (L : List grid_point) :
    ∀ (d : dispatch_manual_t) (p : Int) (j : ℕ) (g : grid_point),
      j < (L.takeWhile (fun g => decide ((g.Grid - P) * a.dt_hour > 0))).length →
      L[j]? = some g →
      (a.set_discharge_loop him hoy P E_max L d p).1.percent_discharge_array (p + 1 + j)
          = 100 * ((g.Grid - P) * a.dt_hour / E_max)
        ∧ (a.set_discharge_loop him hoy P E_max L d p).1.percent_charge_array (p + 1 + j)
          = 100 := by
  induction L with
  | nil =>
    intro d p j g hj
    simp at hj
  | cons g0 rest ih =>
    intro d p j g hj hg
    unfold automate_dispatch_t.set_discharge_loop
    dsimp only
    by_cases h : (g0.Grid - P) * a.dt_hour > 0
    · rw [if_pos h]
      rw [List.takeWhile_cons_of_pos (by simpa using h)] at hj
      cases j with
      | zero =>
        simp only [List.getElem?_cons_zero, Option.some.injEq] at hg
        subst hg
        obtain ⟨l1, l2⟩ := set_discharge_loop_percent_low him a hoy P E_max rest
          { d with
            sched := sched_set_value d.sched (p + 1)
              (automate_dispatch_t.cell him a hoy g0).1 (automate_dispatch_t.cell him a hoy g0).2
            charge_array := d.charge_array ++ [true]
            discharge_array := d.discharge_array ++ [true]
            gridcharge_array := d.gridcharge_array ++ [false]
            percent_discharge_array := map_set d.percent_discharge_array (p + 1)
              (100 * ((g0.Grid - P) * a.dt_hour / E_max))
            percent_charge_array := map_set d.percent_charge_array (p + 1) 100 } (p + 1) (p + 1)
          (le_refl _)
        simp only [Nat.cast_zero, add_zero]
        rw [l1, l2]
        simp [map_set]
      | succ j =>
        simp only [List.getElem?_cons_succ] at hg
        simp only [List.length_cons, Nat.succ_lt_succ_iff] at hj
        obtain ⟨i1, i2⟩ := ih
          { d with
            sched := sched_set_value d.sched (p + 1)
              (automate_dispatch_t.cell him a hoy g0).1 (automate_dispatch_t.cell him a hoy g0).2
            charge_array := d.charge_array ++ [true]
            discharge_array := d.discharge_array ++ [true]
            gridcharge_array := d.gridcharge_array ++ [false]
            percent_discharge_array := map_set d.percent_discharge_array (p + 1)
              (100 * ((g0.Grid - P) * a.dt_hour / E_max))
            percent_charge_array := map_set d.percent_charge_array (p + 1) 100 } (p + 1) j g
          (by omega) hg
        have e : p + 1 + ((j + 1 : ℕ) : Int) = p + 1 + 1 + (j : Int) := by
          push_cast
          ring
        rw [e]
        exact ⟨i1, i2⟩
    · rw [List.takeWhile_cons_of_neg (by simpa using h)] at hj
      simp at hj

/-- The loop of `set_discharge` leaves every schedule cell alone that is not
the cell of a point of the leading run. -/
theorem set_discharge_loop_sched_other (him : Int → Int) (a : automate_dispatch_t) (hoy : Int)
    (P E_max : ℚ) (L : List grid_point) :
    ∀ (d : dispatch_manual_t) (p : Int) (rc : Int × Int),
      rc ∉ (L.takeWhile (fun g => decide ((g.Grid - P) * a.dt_hour > 0))).map
        (automate_dispatch_t.cell him a hoy) →
      (a.set_discharge_loop him hoy P E_max L d p).1.sched rc.1 rc.2 = d.sched rc.1 rc.2 := by
  induction L with
  | nil =>
    intro d p rc _
    rfl
  | cons g rest ih =>
    intro d p rc hrc
    unfold automate_dispatch_t.set_discharge_loop
    dsimp only
    by_cases h : (g.Grid - P) * a.dt_hour > 0
    · rw [if_pos h]
      rw [List.takeWhile_cons_of_pos (by simpa using h), List.map_cons, List.mem_cons,
        not_or] at hrc
      rw [ih _ (p + 1) rc hrc.2]
      dsimp only [sched_set_value]
      have hne : ¬ (rc.1 = (automate_dispatch_t.cell him a hoy g).1
          ∧ rc.2 = (automate_dispatch_t.cell him a hoy g).2) := by
        intro hh
        exact hrc.1 (Prod.ext hh.1 hh.2)
      rw [if_neg hne]
    · rw [if_neg h]

/-- The schedule cells that the loop of `set_discharge` writes: when the
points of the leading run occupy distinct cells, the cell of the point at
position `j` holds the profile `p + 1 + j`. -/
theorem set_discharge_loop_sched (him : Int → Int) (a : automate_dispatch_t) (hoy : Int)
    (P E_max : ℚ) (L : List grid_point) :
    ∀ (d : dispatch_manual_t) (p : Int) (j : ℕ) (g : grid_point),
      ((L.takeWhile (fun g => decide ((g.Grid - P) * a.dt_hour > 0))).map
        (automate_dispatch_t.cell him a hoy)).Nodup →
      j < (L.takeWhile (fun g => decide ((g.Grid - P) * a.dt_hour > 0))).length →
      L[j]? = some g →
      (a.set_discharge_loop him hoy P E_max L d p).1.sched
          (automate_dispatch_t.cell him a hoy g).1 (automate_dispatch_t.cell him a hoy g).2
        = p + 1 + j := by
  induction L with
  | nil =>
    intro d p j g _ hj
    simp at hj
  | cons g0 rest ih =>
    intro d p j g hnd hj hg
    unfold automate_dispatch_t.set_discharge_loop
    dsimp only
    by_cases h : (g0.Grid - P) * a.dt_hour > 0
    · rw [if_pos h]
      rw [List.takeWhile_cons_of_pos (by simpa using h)] at hj hnd
      rw [List.map_cons, List.nodup_cons] at hnd
      cases j with
      | zero =>
        simp only [List.getElem?_cons_zero, Option.some.injEq] at hg
        subst hg
        rw [set_discharge_loop_sched_other him a hoy P E_max rest _ (p + 1) _ hnd.1]
        simp [sched_set_value]
      | succ j =>
        simp only [List.getElem?_cons_succ] at hg
        simp only [List.length_cons, Nat.succ_lt_succ_iff] at hj
        rw [ih _ (p + 1) j g hnd.2 (by omega) hg]
        push_cast
        ring
    · rw [List.takeWhile_cons_of_neg (by simpa using h)] at hj
      simp at hj

/-- In a list of points sorted by net load, highest first, the points with a
net load above `P` are the leading run of the list: they are counted by the
length of the run, and the point at position `j` is one of them exactly when
`j` is below that count. -/
theorem sorted_leading_run (P dt : ℚ) (hdt : 0 < dt) (L : List grid_point)
    (hs : L.Pairwise (fun x y => x.Grid ≥ y.Grid)) :
    (L.takeWhile (fun g => decide ((g.Grid - P) * dt > 0))).length
        = L.countP (fun g => decide (g.Grid > P))
      ∧ ∀ (j : ℕ) (g : grid_point), L[j]? = some g →
        (g.Grid > P ↔ j < L.countP (fun g => decide (g.Grid > P))) := by
  have hiff : ∀ g : grid_point, ((g.Grid - P) * dt > 0) ↔ g.Grid > P := by
    intro g
    constructor
    · intro h
      by_contra hc
      have : (g.Grid - P) * dt ≤ 0 := mul_nonpos_of_nonpos_of_nonneg (by linarith) (le_of_lt hdt)
      linarith
    · intro h
      exact mul_pos (by linarith) hdt
  induction L with
  | nil => simp
  | cons g0 rest ih =>
    rw [List.pairwise_cons] at hs
    obtain ⟨i1, i2⟩ := ih hs.2
    by_cases h : g0.Grid > P
    · have h' : (g0.Grid - P) * dt > 0 := (hiff g0).mpr h
      rw [List.takeWhile_cons_of_pos (by simpa using h'),
        List.countP_cons_of_pos _ _ (by simpa using h)]
      refine ⟨by simp [i1], ?_⟩
      intro j g hg
      cases j with
      | zero =>
        simp only [List.getElem?_cons_zero, Option.some.injEq] at hg
        subst hg
        simp [h]
      | succ j =>
        simp only [List.getElem?_cons_succ] at hg
        rw [i2 j g hg]
        omega
    · have h' : ¬ (g0.Grid - P) * dt > 0 := fun hh => h ((hiff g0).mp hh)
      have hnone : rest.countP (fun g => decide (g.Grid > P)) = 0 := by
        rw [List.countP_eq_zero]
        intro x hx
        have := hs.1 x hx
        simp only [decide_eq_true_eq, not_lt]
        linarith [not_lt.mp h]
      rw [List.takeWhile_cons_of_neg (by simpa using h'),
        List.countP_cons_of_neg _ _ (by simpa using h), hnone]
      refine ⟨rfl, ?_⟩
      intro j g hg
      have hmem : g ∈ g0 :: rest := List.getElem?_mem hg
      have hle : g.Grid ≤ P := by
        rcases List.mem_cons.mp hmem with e | e
        · rw [e]
          exact not_lt.mp h
        · have := hs.1 g e
          linarith [not_lt.mp h]
      constructor
      · intro hgt
        linarith
      · intro hj
        omega

/-- C20: for points sorted by net load, highest first, and the number `k` of
points with a net load strictly above `P_target` (timestep positive,
`E_max ≠ 0`, the sub-steps in distinct schedule cells), `set_discharge` returns
`k + 1`; the points above the target are those at the positions `j < k`; the
point at position `j < k` gets the profile `j + 2` in its schedule cell, with
the discharge percent `100 * (net load - P_target) * dt / E_max` and the charge
percent 100; the cells of the other points keep their profile; and `k` triples
of flags (charge, discharge, no grid charge) are appended. -/
theorem set_discharge_assigns (him : Int → Int) (a : automate_dispatch_t)
    (d : dispatch_manual_t) (hoy : Int) (P E_max : ℚ) (hdt : 0 < a.dt_hour) (_hE : E_max ≠ 0)
    (hs : a.points.Pairwise (fun x y => x.Grid ≥ y.Grid))
    (hc : (a.points.map (automate_dispatch_t.cell him a hoy)).Nodup) :
    (a.set_discharge him d hoy P E_max).2 = (a.steps_above P : Int) + 1
      ∧ (∀ (j : ℕ) (g : grid_point), a.points[j]? = some g →
        (g.Grid > P ↔ j < a.steps_above P))
      ∧ (∀ (j : ℕ) (g : grid_point), a.points[j]? = some g → j < a.steps_above P →
        (a.set_discharge him d hoy P E_max).1.sched (automate_dispatch_t.cell him a hoy g).1
            (automate_dispatch_t.cell him a hoy g).2 = (j : Int) + 2
          ∧ (a.set_discharge him d hoy P E_max).1.percent_discharge_array ((j : Int) + 2)
            = 100 * (g.Grid - P) * a.dt_hour / E_max
          ∧ (a.set_discharge him d hoy P E_max).1.percent_charge_array ((j : Int) + 2) = 100)
      ∧ (∀ (j : ℕ) (g : grid_point), a.points[j]? = some g → a.steps_above P ≤ j →
        (a.set_discharge him d hoy P E_max).1.sched (automate_dispatch_t.cell him a hoy g).1
            (automate_dispatch_t.cell him a hoy g).2
          = d.sched (automate_dispatch_t.cell him a hoy g).1
            (automate_dispatch_t.cell him a hoy g).2)
      ∧ (a.set_discharge him d hoy P E_max).1.charge_array
        = d.charge_array ++ List.replicate (a.steps_above P) true
      ∧ (a.set_discharge him d hoy P E_max).1.discharge_array
        = d.discharge_array ++ List.replicate (a.steps_above P) true
      ∧ (a.set_discharge him d hoy P E_max).1.gridcharge_array
        = d.gridcharge_array ++ List.replicate (a.steps_above P) false := by
  obtain ⟨hk, hpos⟩ := sorted_leading_run P a.dt_hour hdt a.points hs
  obtain ⟨a1, a2, a3, a4⟩ := set_discharge_loop_arrays him a hoy P E_max a.points d 1
  unfold automate_dispatch_t.set_discharge automate_dispatch_t.steps_above
  rw [← hk]
  have hnd : ((a.points.takeWhile (fun g => decide ((g.Grid - P) * a.dt_hour > 0))).map
      (automate_dispatch_t.cell him a hoy)).Nodup :=
    List.Nodup.sublist (List.Sublist.map _ (List.takeWhile_sublist _)) hc
  refine ⟨?_, ?_, ?_, ?_, a2, a3, a4⟩
  · rw [a1]
    ring
  · intro j g hg
    rw [hk]
    exact hpos j g hg
  · intro j g hg hj
    obtain ⟨p1, p2⟩ := set_discharge_loop_percent him a hoy P E_max a.points d 1 j g hj hg
    have hsc := set_discharge_loop_sched him a hoy P E_max a.points d 1 j g hnd hj hg
    have e : (1 : Int) + 1 + j = j + 2 := by ring
    rw [e] at p1 p2 hsc
    refine ⟨hsc, ?_, p2⟩
    rw [p1]
    ring
  · intro j g hg hj
    apply set_discharge_loop_sched_other him a hoy P E_max a.points d 1
      (automate_dispatch_t.cell him a hoy g)
    intro hmem
    rw [List.mem_map] at hmem
    obtain ⟨g', hg', hcell⟩ := hmem
    obtain ⟨i, hi⟩ := List.mem_iff_getElem?.mp hg'
    have hik : i < (a.points.takeWhile
        (fun g => decide ((g.Grid - P) * a.dt_hour > 0))).length :=
      (List.getElem?_eq_some.mp hi).1
    obtain ⟨t, ht⟩ := List.takeWhile_prefix (fun g => decide ((g.Grid - P) * a.dt_hour > 0))
      (l := a.points)
    have hLi : a.points[i]? = some g' := by
      rw [← ht, List.getElem?_append_left hik]
      exact hi
    have hil : i < (a.points.map (automate_dispatch_t.cell him a hoy)).length := by
      rw [List.length_map]
      exact (List.getElem?_eq_some.mp hLi).1
    have heq : (a.points.map (automate_dispatch_t.cell him a hoy))[i]?
        = (a.points.map (automate_dispatch_t.cell him a hoy))[j]? := by
      rw [List.getElem?_map, List.getElem?_map, hLi, hg]
      simp [hcell]
    have hij := List.getElem?_inj hil hc heq
    omega

theorem set_discharge_assigns_witness :
    (sharp_peak_day.set_discharge hours_in_month_table manual_example 0 (505 / 100) 5).2 = 2
      ∧ (sharp_peak_day.set_discharge hours_in_month_table manual_example 0 (505 / 100)
          5).1.discharge_array = manual_example.discharge_array ++ [true] := by
  have h := set_discharge_assigns hours_in_month_table sharp_peak_day manual_example 0
    (505 / 100) 5 (by decide!) (by norm_num) (by decide!) (by decide!)
  have hk : sharp_peak_day.steps_above (505 / 100) = 1 := by decide!
  rw [hk] at h
  exact ⟨h.1, h.2.2.2.2.2.1⟩

/-! ### Peak shaving of the automated dispatch -/

/-- C18 (as stated) fails: on the day with one peak of 10 kW above 23
sub-steps of 9 kW and a usable energy of 1000 kWh, far more than the 1 kWh that
shaves the peak to the second-highest net load, `target_power` takes its 30 %
fallback, `P_target = 7`, and `set_discharge` gives a discharge profile to all
24 sub-steps; the sub-step of hour 1 holds the discharge profile 3. -/
theorem sufficient_energy_shaves_every_step :
    flat_peak_day.points.Pairwise (fun x y => x.Grid ≥ y.Grid)
      ∧ (∀ g ∈ flat_peak_day.points.tail, g.Grid < 10)
      ∧ flat_peak_day.points[0]? = some ⟨10, 0, 0⟩
      ∧ (10 - 9) * flat_peak_day.dt_hour ≤ (1000 : ℚ)
      ∧ flat_peak_day.target_power 1000 = 7
      ∧ (flat_peak_day.set_discharge hours_in_month_table manual_example 0
          (flat_peak_day.target_power 1000) 1000).2 = 25
      ∧ (flat_peak_day.set_discharge hours_in_month_table manual_example 0
          (flat_peak_day.target_power 1000) 1000).1.sched
            (automate_dispatch_t.cell hours_in_month_table flat_peak_day 0 ⟨9, 1, 0⟩).1
            (automate_dispatch_t.cell hours_in_month_table flat_peak_day 0 ⟨9, 1, 0⟩).2 = 3
      ∧ (flat_peak_day.set_discharge hours_in_month_table manual_example 0
          (flat_peak_day.target_power 1000) 1000).1.discharge_array.count true
        = manual_example.discharge_array.count true + 24 := by
  decide!

/-- The profile number that `set_discharge` returns on sorted points is one
more than the number of points above the target. -/
theorem set_discharge_count (him : Int → Int) (a : automate_dispatch_t)
    (d : dispatch_manual_t) (hoy : Int) (P E_max : ℚ) (hdt : 0 < a.dt_hour)
    (hs : a.points.Pairwise (fun x y => x.Grid ≥ y.Grid)) :
    (a.set_discharge him d hoy P E_max).2 = (a.steps_above P : Int) + 1
      ∧ (a.set_discharge him d hoy P E_max).1.discharge_array
        = d.discharge_array ++ List.replicate (a.steps_above P) true := by
  obtain ⟨hk, -⟩ := sorted_leading_run P a.dt_hour hdt a.points hs
  obtain ⟨a1, -, a3, -⟩ := set_discharge_loop_arrays him a hoy P E_max a.points d 1
  unfold automate_dispatch_t.set_discharge automate_dispatch_t.steps_above
  rw [← hk, a1, a3]
  exact ⟨by ring, rfl⟩

/-- With a peak `g0` above the second net load `g1`, the peak is the only point
above `P` exactly when `g1 ≤ P < g0`. -/
theorem steps_above_eq_one (a : automate_dispatch_t) (P : ℚ) (g0 g1 : grid_point)
    (hdt : 0 < a.dt_hour) (hs : a.points.Pairwise (fun x y => x.Grid ≥ y.Grid))
    (h0 : a.points[0]? = some g0) (h1 : a.points[1]? = some g1) :
    a.steps_above P = 1 ↔ g1.Grid ≤ P ∧ P < g0.Grid := by
  obtain ⟨-, hpos⟩ := sorted_leading_run P a.dt_hour hdt a.points hs
  have p0 := hpos 0 g0 h0
  have p1 := hpos 1 g1 h1
  unfold automate_dispatch_t.steps_above
  constructor
  · intro hk
    rw [hk] at p0 p1
    exact ⟨not_lt.mp (fun hh => absurd (p1.mp hh) (by omega)), p0.mpr (by omega)⟩
  · intro ⟨hle, hlt⟩
    have q0 := p0.mp hlt
    have q1 : ¬ 1 < a.points.countP (fun g => decide (g.Grid > P)) :=
      fun hh => absurd (p1.mpr hh) (not_lt.mpr hle)
    omega

/-- The target power when the usable energy is at most the energy that shaves
the peak to the second net load and `target_power` does not take its
fallback. -/
theorem target_power_limited (a : automate_dispatch_t) (E_useful : ℚ) (g0 g1 : grid_point)
    (hdt : 0 < a.dt_hour) (h0 : a.points[0]? = some g0) (h1 : a.points[1]? = some g1)
    (hpeak : g1.Grid < g0.Grid) (hnf : ¬ (a.target_min E_useful).1 < (7 / 10) * E_useful)
    (hg1 : 0 ≤ g1.Grid) (hle : E_useful ≤ (g0.Grid - g1.Grid) * a.dt_hour) :
    a.target_power E_useful
      = max ((1 + 1 / 100) * (g0.Grid - E_useful / a.dt_hour)) (a.target_min E_useful).2 := by
  have l0 : a.loads.getD 0 0 = g0.Grid := by
    unfold automate_dispatch_t.loads
    simp [List.getD_eq_getElem?_getD, h0]
  have l1 : a.loads.getD (0 + 1) 0 = g1.Grid := by
    unfold automate_dispatch_t.loads
    simp [List.getD_eq_getElem?_getD, h1]
  have hn : ∃ r, a.num_steps.toNat - 1 = r + 1 := by
    have hlen : 1 < a.points.length := (List.getElem?_eq_some.mp h1).1
    have hle2 : a.points.length ≤ a.num_steps.toNat := by
      unfold automate_dispatch_t.points
      exact List.length_take_le _ _
    exact ⟨a.num_steps.toNat - 2, by omega⟩
  obtain ⟨r, hr⟩ := hn
  have hne : a.dt_hour ≠ 0 := ne_of_gt hdt
  have hscan : automate_dispatch_t.target_scan a.loads a.dt_hour E_useful (r + 1) 0 g0.Grid 0
      = g0.Grid - E_useful / a.dt_hour := by
    unfold automate_dispatch_t.target_scan
    dsimp only
    rw [l0, l1, if_neg (not_lt.mpr hg1), if_neg (by linarith [sub_pos.mpr hpeak])]
    have hsum : ¬ (0 + (g0.Grid - g1.Grid) * (((0 : ℕ) : ℚ) + 1) * a.dt_hour < E_useful) := by
      push_cast
      rw [not_lt]
      linarith
    rw [if_neg hsum]
    push_cast
    field_simp
    ring
  unfold automate_dispatch_t.target_power
  dsimp only
  rw [if_neg hnf, hr, l0, hscan]
  have e : g0.Grid - E_useful / a.dt_hour + 1 / 100 * (g0.Grid - E_useful / a.dt_hour)
      = (1 + 1 / 100) * (g0.Grid - E_useful / a.dt_hour) := by ring
  rw [e]
  split_ifs with hc
  · exact (max_eq_right (le_of_lt hc)).symm
  · exact (max_eq_left (not_lt.mp hc)).symm

/-- C18 (amended): for points sorted by net load with a peak `g0` above the
second net load `g1` (timestep positive), `target_power` followed by
`set_discharge` gives a discharge profile to the peak sub-step and to no other
(returns profile 2, appends one discharge flag) exactly when the target
`P_target` of `target_power` has `g1 ≤ P_target < g0`.  When `target_power`
does not take its 30 % fallback, `g1 ≥ 0` and the usable energy is at most the
energy `(g0 - g1) * dt` that shaves the peak to the second net load,
`P_target = max (1.01 * (g0 - E_useful / dt)) P_target_min ≥ g1`, so that no
sub-step other than the peak gets a discharge profile. -/
theorem peak_only_discharge (him : Int → Int) (a : automate_dispatch_t)
    (d : dispatch_manual_t) (hoy : Int) (E_useful E_max : ℚ) (g0 g1 : grid_point)
    (hdt : 0 < a.dt_hour) (hs : a.points.Pairwise (fun x y => x.Grid ≥ y.Grid))
    (h0 : a.points[0]? = some g0) (h1 : a.points[1]? = some g1) (hpeak : g1.Grid < g0.Grid) :
    (((a.set_discharge him d hoy (a.target_power E_useful) E_max).2 = 2
          ∧ (a.set_discharge him d hoy (a.target_power E_useful) E_max).1.discharge_array
            = d.discharge_array ++ [true])
        ↔ (g1.Grid ≤ a.target_power E_useful ∧ a.target_power E_useful < g0.Grid))
      ∧ (¬ (a.target_min E_useful).1 < (7 / 10) * E_useful → 0 ≤ g1.Grid →
        E_useful ≤ (g0.Grid - g1.Grid) * a.dt_hour →
        a.target_power E_useful
            = max ((1 + 1 / 100) * (g0.Grid - E_useful / a.dt_hour)) (a.target_min E_useful).2
          ∧ g1.Grid ≤ a.target_power E_useful
          ∧ (a.set_discharge him d hoy (a.target_power E_useful) E_max).2 ≤ 2) := by
  obtain ⟨c1, c2⟩ := set_discharge_count him a d hoy (a.target_power E_useful) E_max hdt hs
  have hone := steps_above_eq_one a (a.target_power E_useful) g0 g1 hdt hs h0 h1
  constructor
  · rw [c1, c2, ← hone]
    constructor
    · intro ⟨h, _⟩
      omega
    · intro h
      rw [h]
      exact ⟨rfl, rfl⟩
  · intro hnf hg1 hle
    have ht := target_power_limited a E_useful g0 g1 hdt h0 h1 hpeak hnf hg1 hle
    have hge : g1.Grid ≤ a.target_power E_useful := by
      rw [ht]
      apply le_trans _ (le_max_left _ _)
      have hq : E_useful / a.dt_hour ≤ g0.Grid - g1.Grid := by
        rw [div_le_iff₀ hdt]
        exact hle
      nlinarith
    refine ⟨ht, hge, ?_⟩
    rw [c1]
    obtain ⟨-, hpos⟩ := sorted_leading_run (a.target_power E_useful) a.dt_hour hdt a.points hs
    have p1 := hpos 1 g1 h1
    have : ¬ 1 < a.steps_above (a.target_power E_useful) := by
      intro hh
      exact absurd (p1.mpr hh) (not_lt.mpr hge)
    omega

theorem peak_only_discharge_witness :
    sharp_peak_day.target_power 5 = 505 / 100
      ∧ (sharp_peak_day.set_discharge hours_in_month_table manual_example 0
          (sharp_peak_day.target_power 5) 5).2 = 2 :=
  have h := peak_only_discharge hours_in_month_table sharp_peak_day manual_example 0 5 5
    ⟨10, 0, 0⟩ ⟨5, 1, 0⟩ (by decide!) (by decide!) (by decide!) (by decide!) (by decide!)
  ⟨by decide!, (h.1.mpr (by decide!)).1⟩

/-! ### Grid-charge profiles of the automated dispatch -/

/-- The profile number and the grid-charge flags that the second loop of
`set_gridcharge` leaves, for a positive timestep and `E_max`: one profile for
every point of the leading run of points at or below the target. -/
theorem set_gridcharge_loop_arrays (him : Int → Int) (a : automate_dispatch_t) (hoy : Int)
    (P E_max : ℚ) (hdt : 0 < a.dt_hour) (hE : 0 < E_max) (L : List grid_point) :
    ∀ (d : dispatch_manual_t) (p : Int) (E : ℚ),
      (a.set_gridcharge_loop him hoy P E_max L d p E).2.1
          = p + ((L.takeWhile (fun g => decide (g.Grid ≤ P))).length : ℕ)
        ∧ (a.set_gridcharge_loop him hoy P E_max L d p E).1.gridcharge_array
          = d.gridcharge_array
            ++ List.replicate (L.takeWhile (fun g => decide (g.Grid ≤ P))).length true := by
  induction L with
  | nil =>
    intro d p E
    simp [automate_dispatch_t.set_gridcharge_loop]
  | cons g rest ih =>
    intro d p E
    unfold automate_dispatch_t.set_gridcharge_loop
    dsimp only
    by_cases h : g.Grid > P
    · rw [if_pos h, List.takeWhile_cons_of_neg (by simpa using h)]
      simp
    · have hle : g.Grid ≤ P := not_lt.mp h
      have hpct : ¬ 100 * ((P - g.Grid) * a.dt_hour) / E_max < 0 := by
        rw [not_lt]
        apply div_nonneg _ (le_of_lt hE)
        have : 0 ≤ (P - g.Grid) * a.dt_hour := mul_nonneg (by linarith) (le_of_lt hdt)
        linarith
      rw [if_neg h, if_neg hpct, List.takeWhile_cons_of_pos (by simpa using hle)]
      obtain ⟨i1, i2⟩ := ih
        { d with
          sched := sched_set_value d.sched p
            (automate_dispatch_t.cell him a hoy g).1 (automate_dispatch_t.cell him a hoy g).2
          charge_array := d.charge_array ++ [true]
          discharge_array := d.discharge_array ++ [false]
          gridcharge_array := d.gridcharge_array ++ [true]
          percent_charge_array := map_set d.percent_charge_array p
            (100 * ((P - g.Grid) * a.dt_hour) / E_max) } (p + 1)
        (E + (P - g.Grid) * a.dt_hour)
      rw [i1, i2]
      refine ⟨?_, ?_⟩
      · simp only [List.length_cons]
        push_cast
        ring
      · simp [List.replicate_succ]

/-- In a list of points sorted by net load, lowest first, the points with a
net load of at most `P` are the leading run of the list. -/
theorem ascending_leading_run (P : ℚ) (L : List grid_point)
    (hs : L.Pairwise (fun x y => x.Grid ≤ y.Grid)) :
    (L.takeWhile (fun g => decide (g.Grid ≤ P))).length
      = L.countP (fun g => decide (g.Grid ≤ P)) := by
  induction L with
  | nil => simp
  | cons g0 rest ih =>
    rw [List.pairwise_cons] at hs
    by_cases h : g0.Grid ≤ P
    · rw [List.takeWhile_cons_of_pos (by simpa using h),
        List.countP_cons_of_pos _ _ (by simpa using h)]
      simp [ih hs.2]
    · have hnone : rest.countP (fun g => decide (g.Grid ≤ P)) = 0 := by
        rw [List.countP_eq_zero]
        intro x hx
        have := hs.1 x hx
        simp only [decide_eq_true_eq, not_le]
        linarith [not_le.mp h]
      rw [List.takeWhile_cons_of_neg (by simpa using h),
        List.countP_cons_of_neg _ _ (by simpa using h), hnone]
      rfl

/-- C19 (as stated) fails: on the day with a peak of 10 kW above 23 sub-steps
without net load, with `P_target = 5` and `E_max = 6`, the accumulated charge
energy is 10 kWh, above `E_max`, after the two lowest sub-steps; the walk goes
on all the same and gives a grid-charge profile to all 23 sub-steps at or
below the target, among them profile 5 to the sub-step of hour 21, with 115 kWh
accumulated at the end. -/
theorem gridcharge_ignores_accumulated_energy :
    automate_dispatch_t.surplus_energy idle_peak_day.dt_hour idle_peak_day.loads 0 < (6 : ℚ)
      ∧ (idle_peak_day.set_gridcharge_loop hours_in_month_table 0 5 6
          (idle_peak_day.points.reverse.take 2) manual_example 3 0).2.2 = 10
      ∧ (idle_peak_day.set_gridcharge_run hours_in_month_table manual_example 0 2 5 6).2.1 = 26
      ∧ (idle_peak_day.set_gridcharge_run hours_in_month_table manual_example 0 2 5 6).2.2 = 115
      ∧ (idle_peak_day.set_gridcharge hours_in_month_table manual_example 0 2 5 6).sched
          (automate_dispatch_t.cell hours_in_month_table idle_peak_day 0 ⟨0, 21, 0⟩).1
          (automate_dispatch_t.cell hours_in_month_table idle_peak_day 0 ⟨0, 21, 0⟩).2 = 5
      ∧ (idle_peak_day.set_gridcharge hours_in_month_table manual_example 0 2 5
          6).gridcharge_array.count true = manual_example.gridcharge_array.count true + 23 := by
  decide!

/-- What one pass of the second loop of `set_gridcharge` that assigns a
profile makes of the dispatcher and goes on with, for a positive timestep and
`E_max`: a point at or below the target never leaves through
`charge_percent < 0`. -/
theorem set_gridcharge_loop_cons (him : Int → Int) (a : automate_dispatch_t) (hoy : Int)
    (P E_max : ℚ) (hdt : 0 < a.dt_hour) (hE : 0 < E_max) (g : grid_point)
    (rest : List grid_point) (d : dispatch_manual_t) (p : Int) (E : ℚ) (hle : g.Grid ≤ P) :
    a.set_gridcharge_loop him hoy P E_max (g :: rest) d p E
      = a.set_gridcharge_loop him hoy P E_max rest
        { d with
          sched := sched_set_value d.sched p
            (automate_dispatch_t.cell him a hoy g).1 (automate_dispatch_t.cell him a hoy g).2
          charge_array := d.charge_array ++ [true]
          discharge_array := d.discharge_array ++ [false]
          gridcharge_array := d.gridcharge_array ++ [true]
          percent_charge_array := map_set d.percent_charge_array p
            (100 * ((P - g.Grid) * a.dt_hour) / E_max) } (p + 1)
        (E + (P - g.Grid) * a.dt_hour) := by
  have hpct : ¬ 100 * ((P - g.Grid) * a.dt_hour) / E_max < 0 := by
    rw [not_lt]
    apply div_nonneg _ (le_of_lt hE)
    have : 0 ≤ (P - g.Grid) * a.dt_hour := mul_nonneg (by linarith) (le_of_lt hdt)
    linarith
  conv_lhs => unfold automate_dispatch_t.set_gridcharge_loop
  dsimp only
  rw [if_neg (not_lt.mpr hle), if_neg hpct]

/-- The second loop of `set_gridcharge` entered at a point above the target
changes nothing. -/
theorem set_gridcharge_loop_stop (him : Int → Int) (a : automate_dispatch_t) (hoy : Int)
    (P E_max : ℚ) (g : grid_point) (rest : List grid_point) (d : dispatch_manual_t) (p : Int)
    (E : ℚ) (h : g.Grid > P) :
    a.set_gridcharge_loop him hoy P E_max (g :: rest) d p E = (d, p, E) := by
  unfold automate_dispatch_t.set_gridcharge_loop
  dsimp only
  rw [if_pos h]

/-- The charge and discharge flags that the second loop of `set_gridcharge`
appends, for a positive timestep and `E_max`: (charge, no discharge) for every
point of the leading run of points at or below the target. -/
theorem set_gridcharge_loop_flags (him : Int → Int) (a : automate_dispatch_t) (hoy : Int)
    (P E_max : ℚ) (hdt : 0 < a.dt_hour) (hE : 0 < E_max) (L : List grid_point) :
    ∀ (d : dispatch_manual_t) (p : Int) (E : ℚ),
      (a.set_gridcharge_loop him hoy P E_max L d p E).1.charge_array
          = d.charge_array
            ++ List.replicate (L.takeWhile (fun g => decide (g.Grid ≤ P))).length true
        ∧ (a.set_gridcharge_loop him hoy P E_max L d p E).1.discharge_array
          = d.discharge_array
            ++ List.replicate (L.takeWhile (fun g => decide (g.Grid ≤ P))).length false := by
  induction L with
  | nil =>
    intro d p E
    simp [automate_dispatch_t.set_gridcharge_loop]
  | cons g rest ih =>
    intro d p E
    by_cases h : g.Grid > P
    · rw [set_gridcharge_loop_stop him a hoy P E_max g rest d p E h,
        List.takeWhile_cons_of_neg (by simpa using h)]
      simp
    · have hle : g.Grid ≤ P := not_lt.mp h
      rw [set_gridcharge_loop_cons him a hoy P E_max hdt hE g rest d p E hle,
        List.takeWhile_cons_of_pos (by simpa using hle)]
      obtain ⟨i1, i2⟩ := ih
        { d with
          sched := sched_set_value d.sched p
            (automate_dispatch_t.cell him a hoy g).1 (automate_dispatch_t.cell him a hoy g).2
          charge_array := d.charge_array ++ [true]
          discharge_array := d.discharge_array ++ [false]
          gridcharge_array := d.gridcharge_array ++ [true]
          percent_charge_array := map_set d.percent_charge_array p
            (100 * ((P - g.Grid) * a.dt_hour) / E_max) } (p + 1)
        (E + (P - g.Grid) * a.dt_hour)
      rw [i1, i2]
      exact ⟨by simp [List.replicate_succ], by simp [List.replicate_succ]⟩

/-- The second loop of `set_gridcharge` leaves the charge percents of the
profiles below the entry value of `profile` alone, and every discharge
percent. -/
theorem set_gridcharge_loop_percent_low (him : Int → Int) (a : automate_dispatch_t) (hoy : Int)
    (P E_max : ℚ) (hdt : 0 < a.dt_hour) (hE : 0 < E_max) (L : List grid_point) :
    ∀ (d : dispatch_manual_t) (p : Int) (E : ℚ),
      (∀ key : Int, key < p →
        (a.set_gridcharge_loop him hoy P E_max L d p E).1.percent_charge_array key
          = d.percent_charge_array key)
        ∧ (a.set_gridcharge_loop him hoy P E_max L d p E).1.percent_discharge_array
          = d.percent_discharge_array := by
  induction L with
  | nil =>
    intro d p E
    exact ⟨fun _ _ => rfl, rfl⟩
  | cons g rest ih =>
    intro d p E
    by_cases h : g.Grid > P
    · rw [set_gridcharge_loop_stop him a hoy P E_max g rest d p E h]
      exact ⟨fun _ _ => rfl, rfl⟩
    · have hle : g.Grid ≤ P := not_lt.mp h
      rw [set_gridcharge_loop_cons him a hoy P E_max hdt hE g rest d p E hle]
      obtain ⟨i1, i2⟩ := ih
        { d with
          sched := sched_set_value d.sched p
            (automate_dispatch_t.cell him a hoy g).1 (automate_dispatch_t.cell him a hoy g).2
          charge_array := d.charge_array ++ [true]
          discharge_array := d.discharge_array ++ [false]
          gridcharge_array := d.gridcharge_array ++ [true]
          percent_charge_array := map_set d.percent_charge_array p
            (100 * ((P - g.Grid) * a.dt_hour) / E_max) } (p + 1)
        (E + (P - g.Grid) * a.dt_hour)
      refine ⟨?_, i2⟩
      intro key hk
      rw [i1 key (by omega)]
      have hne : key ≠ p := by omega
      simp [map_set, hne]

/-- The charge percents that the second loop of `set_gridcharge` stores, for a
positive timestep and `E_max`: the point at position `j` of the leading run of
points at or below the target gets the profile `p + j` with the charge percent
`100 * ((P_target - net load) * dt) / E_max`. -/
theorem set_gridcharge_loop_percent (him : Int → Int) (a : automate_dispatch_t) (hoy : Int)
    (P E_max : ℚ) (hdt : 0 < a.dt_hour) (hE : 0 < E_max) (L : List grid_point) :
    ∀ (d : dispatch_manual_t) (p : Int) (E : ℚ) (j : ℕ) (g : grid_point),
      j < (L.takeWhile (fun g => decide (g.Grid ≤ P))).length → L[j]? = some g →
      (a.set_gridcharge_loop him hoy P E_max L d p E).1.percent_charge_array (p + j)
        = 100 * ((P - g.Grid) * a.dt_hour) / E_max := by
  induction L with
  | nil =>
    intro d p E j g hj
    simp at hj
  | cons g0 rest ih =>
    intro d p E j g hj hg
    by_cases h : g0.Grid > P
    · rw [List.takeWhile_cons_of_neg (by simpa using h)] at hj
      simp at hj
    · have hle : g0.Grid ≤ P := not_lt.mp h
      rw [set_gridcharge_loop_cons him a hoy P E_max hdt hE g0 rest d p E hle]
      rw [List.takeWhile_cons_of_pos (by simpa using hle)] at hj
      cases j with
      | zero =>
        simp only [List.getElem?_cons_zero, Option.some.injEq] at hg
        subst hg
        simp only [Nat.cast_zero, add_zero]
        rw [(set_gridcharge_loop_percent_low him a hoy P E_max hdt hE rest _ (p + 1) _).1 p
          (by omega)]
        simp [map_set]
      | succ j =>
        simp only [List.getElem?_cons_succ] at hg
        simp only [List.length_cons, Nat.succ_lt_succ_iff] at hj
        have e : p + ((j + 1 : ℕ) : Int) = p + 1 + (j : Int) := by
          push_cast
          ring
        rw [e]
        exact ih _ (p + 1) _ j g hj hg

/-- The second loop of `set_gridcharge` leaves every schedule cell alone that
is not the cell of a point of the leading run of points at or below the
target. -/
theorem set_gridcharge_loop_sched_other (him : Int → Int) (a : automate_dispatch_t) (hoy : Int)
    (P E_max : ℚ) (hdt : 0 < a.dt_hour) (hE : 0 < E_max) (L : List grid_point) :
    ∀ (d : dispatch_manual_t) (p : Int) (E : ℚ) (rc : Int × Int),
      rc ∉ (L.takeWhile (fun g => decide (g.Grid ≤ P))).map
        (automate_dispatch_t.cell him a hoy) →
      (a.set_gridcharge_loop him hoy P E_max L d p E).1.sched rc.1 rc.2 = d.sched rc.1 rc.2 := by
  induction L with
  | nil =>
    intro d p E rc _
    rfl
  | cons g rest ih =>
    intro d p E rc hrc
    by_cases h : g.Grid > P
    · rw [set_gridcharge_loop_stop him a hoy P E_max g rest d p E h]
    · have hle : g.Grid ≤ P := not_lt.mp h
      rw [set_gridcharge_loop_cons him a hoy P E_max hdt hE g rest d p E hle]
      rw [List.takeWhile_cons_of_pos (by simpa using hle), List.map_cons, List.mem_cons,
        not_or] at hrc
      rw [ih _ (p + 1) _ rc hrc.2]
      dsimp only [sched_set_value]
      have hne : ¬ (rc.1 = (automate_dispatch_t.cell him a hoy g).1
          ∧ rc.2 = (automate_dispatch_t.cell him a hoy g).2) := by
        intro hh
        exact hrc.1 (Prod.ext hh.1 hh.2)
      rw [if_neg hne]

/-- The schedule cells that the second loop of `set_gridcharge` writes: when
the points of the leading run occupy distinct cells, the cell of the point at
position `j` holds the profile `p + j`. -/
theorem set_gridcharge_loop_sched (him : Int → Int) (a : automate_dispatch_t) (hoy : Int)
    (P E_max : ℚ) (hdt : 0 < a.dt_hour) (hE : 0 < E_max) (L : List grid_point) :
    ∀ (d : dispatch_manual_t) (p : Int) (E : ℚ) (j : ℕ) (g : grid_point),
      ((L.takeWhile (fun g => decide (g.Grid ≤ P))).map
        (automate_dispatch_t.cell him a hoy)).Nodup →
      j < (L.takeWhile (fun g => decide (g.Grid ≤ P))).length → L[j]? = some g →
      (a.set_gridcharge_loop him hoy P E_max L d p E).1.sched
          (automate_dispatch_t.cell him a hoy g).1 (automate_dispatch_t.cell him a hoy g).2
        = p + j := by
  induction L with
  | nil =>
    intro d p E j g _ hj
    simp at hj
  | cons g0 rest ih =>
    intro d p E j g hnd hj hg
    by_cases h : g0.Grid > P
    · rw [List.takeWhile_cons_of_neg (by simpa using h)] at hj
      simp at hj
    · have hle : g0.Grid ≤ P := not_lt.mp h
      rw [set_gridcharge_loop_cons him a hoy P E_max hdt hE g0 rest d p E hle]
      rw [List.takeWhile_cons_of_pos (by simpa using hle)] at hj hnd
      rw [List.map_cons, List.nodup_cons] at hnd
      cases j with
      | zero =>
        simp only [List.getElem?_cons_zero, Option.some.injEq] at hg
        subst hg
        rw [set_gridcharge_loop_sched_other him a hoy P E_max hdt hE rest _ (p + 1) _ _ hnd.1]
        simp [sched_set_value]
      | succ j =>
        simp only [List.getElem?_cons_succ] at hg
        simp only [List.length_cons, Nat.succ_lt_succ_iff] at hj
        rw [ih _ (p + 1) _ j g hnd.2 hj hg]
        push_cast
        ring

/-- In a list of points sorted by net load, lowest first, the point at
position `j` has a net load of at most `P` exactly when `j` is below the number
of such points. -/
theorem ascending_leading_run_position (P : ℚ) (L : List grid_point)
    (hs : L.Pairwise (fun x y => x.Grid ≤ y.Grid)) :
    ∀ (j : ℕ) (g : grid_point), L[j]? = some g →
      (g.Grid ≤ P ↔ j < L.countP (fun g => decide (g.Grid ≤ P))) := by
  induction L with
  | nil =>
    intro j g hg
    simp at hg
  | cons g0 rest ih =>
    rw [List.pairwise_cons] at hs
    intro j g hg
    by_cases h : g0.Grid ≤ P
    · rw [List.countP_cons_of_pos _ _ (by simpa using h)]
      cases j with
      | zero =>
        simp only [List.getElem?_cons_zero, Option.some.injEq] at hg
        subst hg
        simp [h]
      | succ j =>
        simp only [List.getElem?_cons_succ] at hg
        rw [ih hs.2 j g hg]
        omega
    · have hnone : rest.countP (fun g => decide (g.Grid ≤ P)) = 0 := by
        rw [List.countP_eq_zero]
        intro x hx
        have := hs.1 x hx
        simp only [decide_eq_true_eq, not_le]
        linarith [not_le.mp h]
      rw [List.countP_cons_of_neg _ _ (by simpa using h), hnone]
      have hmem : g ∈ g0 :: rest := List.getElem?_mem hg
      have hgt : P < g.Grid := by
        rcases List.mem_cons.mp hmem with e | e
        · rw [e]
          exact not_le.mp h
        · have := hs.1 g e
          linarith [not_le.mp h]
      constructor
      · intro hle
        linarith
      · intro hj
        omega

/-- C19 (amended): for points sorted by net load, a positive timestep and
`E_max > 0`, `set_gridcharge` compares the charge energy with `E_max` once,
before its walk, for the PV-surplus energy of the day.  When that is below
`E_max` it walks from the lowest net load upward: with `n` the number of
sub-steps at or below `P_target`, these are the sub-steps at the positions
`j < n` of the walk, and the sub-step at position `j < n` gets the grid-charge
profile `profile + 1 + j`, with the charge percent
`100 * ((P_target - net load) * dt) / E_max` and, the sub-steps being in
distinct schedule cells, in its schedule cell, whatever charge energy has
accumulated; the cells of the other sub-steps keep their profile; `n` triples
of flags (charge, no discharge, grid charge) are appended and the returned
profile number is `profile + 1 + n`.  Otherwise it changes nothing. -/
theorem set_gridcharge_assigns (him : Int → Int) (a : automate_dispatch_t)
    (d : dispatch_manual_t) (hoy profile : Int) (P E_max : ℚ) (hdt : 0 < a.dt_hour)
    (hE : 0 < E_max) (hs : a.points.Pairwise (fun x y => x.Grid ≥ y.Grid)) :
    (automate_dispatch_t.surplus_energy a.dt_hour a.loads 0 < E_max →
        (a.set_gridcharge_run him d hoy profile P E_max).2.1
            = profile + 1 + (a.steps_at_or_below P : Int)
          ∧ (∀ (j : ℕ) (g : grid_point), a.points.reverse[j]? = some g →
            (g.Grid ≤ P ↔ j < a.steps_at_or_below P))
          ∧ (∀ (j : ℕ) (g : grid_point), a.points.reverse[j]? = some g →
            j < a.steps_at_or_below P →
            (a.set_gridcharge him d hoy profile P E_max).percent_charge_array
                (profile + 1 + (j : Int))
              = 100 * ((P - g.Grid) * a.dt_hour) / E_max)
          ∧ ((a.points.map (automate_dispatch_t.cell him a hoy)).Nodup →
            ∀ (j : ℕ) (g : grid_point), a.points.reverse[j]? = some g →
              (j < a.steps_at_or_below P →
                (a.set_gridcharge him d hoy profile P E_max).sched
                    (automate_dispatch_t.cell him a hoy g).1
                    (automate_dispatch_t.cell him a hoy g).2
                  = profile + 1 + (j : Int))
              ∧ (a.steps_at_or_below P ≤ j →
                (a.set_gridcharge him d hoy profile P E_max).sched
                    (automate_dispatch_t.cell him a hoy g).1
                    (automate_dispatch_t.cell him a hoy g).2
                  = d.sched (automate_dispatch_t.cell him a hoy g).1
                    (automate_dispatch_t.cell him a hoy g).2))
          ∧ (a.set_gridcharge him d hoy profile P E_max).charge_array
            = d.charge_array ++ List.replicate (a.steps_at_or_below P) true
          ∧ (a.set_gridcharge him d hoy profile P E_max).discharge_array
            = d.discharge_array ++ List.replicate (a.steps_at_or_below P) false
          ∧ (a.set_gridcharge him d hoy profile P E_max).gridcharge_array
            = d.gridcharge_array ++ List.replicate (a.steps_at_or_below P) true)
      ∧ (¬ automate_dispatch_t.surplus_energy a.dt_hour a.loads 0 < E_max →
        (a.set_gridcharge_run him d hoy profile P E_max).2.1 = profile + 1
          ∧ (a.set_gridcharge him d hoy profile P E_max).sched = d.sched
          ∧ (a.set_gridcharge him d hoy profile P E_max).gridcharge_array
            = d.gridcharge_array
          ∧ a.set_gridcharge him d hoy profile P E_max = d) := by
  have hasc : a.points.reverse.Pairwise (fun x y => x.Grid ≤ y.Grid) := by
    rw [List.pairwise_reverse]
    exact hs
  have hk := ascending_leading_run P a.points.reverse hasc
  have hpos := ascending_leading_run_position P a.points.reverse hasc
  rw [List.countP_reverse] at hk hpos
  constructor
  · intro hlt
    obtain ⟨i1, i2⟩ := set_gridcharge_loop_arrays him a hoy P E_max hdt hE a.points.reverse d
      (profile + 1) (automate_dispatch_t.surplus_energy a.dt_hour a.loads 0)
    obtain ⟨f1, f2⟩ := set_gridcharge_loop_flags him a hoy P E_max hdt hE a.points.reverse d
      (profile + 1) (automate_dispatch_t.surplus_energy a.dt_hour a.loads 0)
    have hrun : a.set_gridcharge_run him d hoy profile P E_max
        = a.set_gridcharge_loop him hoy P E_max a.points.reverse d (profile + 1)
          (automate_dispatch_t.surplus_energy a.dt_hour a.loads 0) := by
      unfold automate_dispatch_t.set_gridcharge_run
      dsimp only
      rw [if_pos hlt]
    unfold automate_dispatch_t.set_gridcharge automate_dispatch_t.steps_at_or_below
    rw [hrun, i1, i2, f1, f2, hk]
    refine ⟨rfl, hpos, ?_, ?_, rfl, rfl, rfl⟩
    · intro j g hg hj
      exact set_gridcharge_loop_percent him a hoy P E_max hdt hE a.points.reverse d
        (profile + 1) _ j g (by rw [hk]; exact hj) hg
    · intro hc j g hg
      have hcr : (a.points.reverse.map (automate_dispatch_t.cell him a hoy)).Nodup := by
        rw [List.map_reverse, List.nodup_reverse]
        exact hc
      have hnd : ((a.points.reverse.takeWhile (fun g => decide (g.Grid ≤ P))).map
          (automate_dispatch_t.cell him a hoy)).Nodup :=
        List.Nodup.sublist (List.Sublist.map _ (List.takeWhile_sublist _)) hcr
      constructor
      · intro hj
        exact set_gridcharge_loop_sched him a hoy P E_max hdt hE a.points.reverse d
          (profile + 1) _ j g hnd (by rw [hk]; exact hj) hg
      · intro hj
        apply set_gridcharge_loop_sched_other him a hoy P E_max hdt hE a.points.reverse d
          (profile + 1) _ (automate_dispatch_t.cell him a hoy g)
        intro hmem
        rw [List.mem_map] at hmem
        obtain ⟨g', hg', hcell⟩ := hmem
        obtain ⟨i, hi⟩ := List.mem_iff_getElem?.mp hg'
        have hik : i < (a.points.reverse.takeWhile
            (fun g => decide (g.Grid ≤ P))).length :=
          (List.getElem?_eq_some.mp hi).1
        obtain ⟨t, ht⟩ := List.takeWhile_prefix (fun g => decide (g.Grid ≤ P))
          (l := a.points.reverse)
        have hLi : a.points.reverse[i]? = some g' := by
          rw [← ht, List.getElem?_append_left hik]
          exact hi
        have hil : i < (a.points.reverse.map (automate_dispatch_t.cell him a hoy)).length := by
          rw [List.length_map]
          exact (List.getElem?_eq_some.mp hLi).1
        have heq : (a.points.reverse.map (automate_dispatch_t.cell him a hoy))[i]?
            = (a.points.reverse.map (automate_dispatch_t.cell him a hoy))[j]? := by
          rw [List.getElem?_map, List.getElem?_map, hLi, hg]
          simp [hcell]
        have hij := List.getElem?_inj hil hcr heq
        rw [hk] at hik
        omega
  · intro hge
    unfold automate_dispatch_t.set_gridcharge automate_dispatch_t.set_gridcharge_run
    dsimp only
    rw [if_neg hge]
    exact ⟨rfl, rfl, rfl, rfl⟩

theorem set_gridcharge_assigns_witness :
    (idle_peak_day.set_gridcharge_run hours_in_month_table manual_example 0 2 5 6).2.1
        = 2 + 1 + (idle_peak_day.steps_at_or_below 5 : Int)
      ∧ (idle_peak_day.set_gridcharge hours_in_month_table manual_example 0 2 5
          6).percent_charge_array (2 + 1 + ((2 : ℕ) : Int))
        = 100 * ((5 - (⟨0, 21, 0⟩ : grid_point).Grid) * idle_peak_day.dt_hour) / 6
      ∧ (idle_peak_day.set_gridcharge hours_in_month_table manual_example 0 2 5 6).sched
          (automate_dispatch_t.cell hours_in_month_table idle_peak_day 0 ⟨0, 21, 0⟩).1
          (automate_dispatch_t.cell hours_in_month_table idle_peak_day 0 ⟨0, 21, 0⟩).2
        = 2 + 1 + ((2 : ℕ) : Int) :=
  have h := (set_gridcharge_assigns hours_in_month_table idle_peak_day manual_example 0 2 5 6
    (by decide!) (by norm_num) (by decide!)).1 (by decide!)
  ⟨h.1, h.2.2.1 2 ⟨0, 21, 0⟩ (by decide!) (by decide!),
    (h.2.2.2.1 (by decide!) 2 ⟨0, 21, 0⟩ (by decide!)).1 (by decide!)⟩

/-! ### Derating of the capacity -/

/-- C23 (as stated) fails: the thermal hook leaves `qmax()` as it is.  For the
lithium-ion example (95 Ah of 100 Ah) a call with the factor 1/2 lowers the
charge to 50 Ah and leaves `qmax() = 100`, not 50; a call with the value 50
changes neither `qmax()` nor the charge of 95 Ah. -/
theorem thermal_derating_keeps_qmax :
    (capacity_lithium_ion_t.updateCapacityForThermal lithium_example (1 / 2)).qmax = 100
      ∧ (capacity_lithium_ion_t.updateCapacityForThermal lithium_example (1 / 2)).qmax
        ≠ lithium_example.qmax * (1 / 2)
      ∧ (capacity_lithium_ion_t.updateCapacityForThermal lithium_example (1 / 2)).q0 = 50
      ∧ (capacity_lithium_ion_t.updateCapacityForThermal lithium_example 50).qmax = 100
      ∧ (capacity_lithium_ion_t.updateCapacityForThermal lithium_example 50).q0 = 95
      ∧ (capacity_kibam_t.updateCapacityForThermal kibam_example (1 / 2)).qmax
        = kibam_example.qmax
      ∧ (capacity_kibam_t.updateCapacityForThermal kibam_example (1 / 2)).qmax
        ≠ kibam_example.qmax * (1 / 2) := by
  decide!

/-- C23 (amended): for both capacity variants `updateCapacityForThermal(pct)`
leaves `qmax()` unchanged and caps the charge at the thermally derated value
`qmax * pct` (not negative for the KiBaM variant): afterwards
`q0 = min q0_before (qmax * pct)`, so `q0 ≤ qmax * pct`, and `q0 ≤ qmax()` when
`pct ≤ 1` and `qmax ≥ 0`. -/
theorem thermal_derating_caps_charge (l : capacity_t) (kb : capacity_kibam_t) (pct : ℚ)
    (hk : 0 ≤ kb.qmax * pct) :
    (capacity_lithium_ion_t.updateCapacityForThermal l pct).qmax = l.qmax
      ∧ (capacity_lithium_ion_t.updateCapacityForThermal l pct).q0 = min l.q0 (l.qmax * pct)
      ∧ (capacity_lithium_ion_t.updateCapacityForThermal l pct).q0 ≤ l.qmax * pct
      ∧ (0 ≤ l.qmax → pct ≤ 1 →
        (capacity_lithium_ion_t.updateCapacityForThermal l pct).q0
          ≤ (capacity_lithium_ion_t.updateCapacityForThermal l pct).qmax)
      ∧ (capacity_kibam_t.updateCapacityForThermal kb pct).qmax = kb.qmax
      ∧ (capacity_kibam_t.updateCapacityForThermal kb pct).q0 = min kb.q0 (kb.qmax * pct)
      ∧ (capacity_kibam_t.updateCapacityForThermal kb pct).q0 ≤ kb.qmax * pct
      ∧ (0 ≤ kb.qmax → pct ≤ 1 →
        (capacity_kibam_t.updateCapacityForThermal kb pct).q0
          ≤ (capacity_kibam_t.updateCapacityForThermal kb pct).qmax) := by
  have hl1 : (capacity_lithium_ion_t.updateCapacityForThermal l pct).qmax = l.qmax := by
    unfold capacity_lithium_ion_t.updateCapacityForThermal
    dsimp only
    rw [(update_SOC_fields _).2.2.1]
    split_ifs <;> rfl
  have hl2 : (capacity_lithium_ion_t.updateCapacityForThermal l pct).q0
      = min l.q0 (l.qmax * pct) := by
    unfold capacity_lithium_ion_t.updateCapacityForThermal
    dsimp only
    rw [(update_SOC_fields _).2.1]
    split_ifs with h
    · exact (min_eq_right (le_of_lt h)).symm
    · exact (min_eq_left (not_lt.mp h)).symm
  have hk1 : (capacity_kibam_t.updateCapacityForThermal kb pct).qmax = kb.qmax := by
    unfold capacity_kibam_t.updateCapacityForThermal
    dsimp only
    rw [(update_SOC_fields _).2.2.1]
    split_ifs <;> rfl
  have hk2 : (capacity_kibam_t.updateCapacityForThermal kb pct).q0
      = min kb.q0 (kb.qmax * pct) := by
    unfold capacity_kibam_t.updateCapacityForThermal
    dsimp only
    rw [(update_SOC_fields _).2.1]
    split_ifs with h
    · have hne : kb.q0 ≠ 0 := by
        have : 0 < kb.q0 := lt_of_le_of_lt hk h
        exact ne_of_gt this
      dsimp only
      rw [min_eq_right (le_of_lt h)]
      field_simp
    · exact (min_eq_left (not_lt.mp h)).symm
  refine ⟨hl1, hl2, ?_, ?_, hk1, hk2, ?_, ?_⟩
  · rw [hl2]
    exact min_le_right _ _
  · intro hq hp
    rw [hl1, hl2]
    exact le_trans (min_le_right _ _) (by nlinarith)
  · rw [hk2]
    exact min_le_right _ _
  · intro hq hp
    rw [hk1, hk2]
    exact le_trans (min_le_right _ _) (by nlinarith)

theorem thermal_derating_caps_charge_witness :
    (capacity_kibam_t.updateCapacityForThermal kibam_example (1 / 2)).q0
      = min kibam_example.q0 (kibam_example.qmax * (1 / 2)) :=
  (thermal_derating_caps_charge lithium_example kibam_example (1 / 2) (by decide!)).2.2.2.2.2.1

/-- C24: for both capacity variants, in a state with a recorded timestep that
is not zero (and `q0 ≠ 0` for KiBaM), `updateCapacityForLifetime(pct)` gives
`qmax = min qmax_before (qmax0 * pct / 100)`, which does not exceed the
maximum before, `q0 = min q0_before qmax`, and a loss current grown by the shed
charge per hour, `I_loss = I_loss_before + (q0_before - q0) / dt_hour`. -/
theorem lifetime_derating_ratchet (l : capacity_t) (kb : capacity_kibam_t) (pct : ℚ)
    (_hl : l.dt_hour ≠ 0) (_hk : kb.dt_hour ≠ 0) (hq : kb.q0 ≠ 0) :
    ((capacity_lithium_ion_t.updateCapacityForLifetime l pct).qmax
          = min l.qmax (l.qmax0 * pct / 100)
        ∧ (capacity_lithium_ion_t.updateCapacityForLifetime l pct).qmax ≤ l.qmax
        ∧ (capacity_lithium_ion_t.updateCapacityForLifetime l pct).q0
          = min l.q0 (capacity_lithium_ion_t.updateCapacityForLifetime l pct).qmax
        ∧ (capacity_lithium_ion_t.updateCapacityForLifetime l pct).I_loss
          = l.I_loss
            + (l.q0 - (capacity_lithium_ion_t.updateCapacityForLifetime l pct).q0) / l.dt_hour)
      ∧ ((capacity_kibam_t.updateCapacityForLifetime kb pct).qmax
          = min kb.qmax (kb.qmax0 * pct / 100)
        ∧ (capacity_kibam_t.updateCapacityForLifetime kb pct).qmax ≤ kb.qmax
        ∧ (capacity_kibam_t.updateCapacityForLifetime kb pct).q0
          = min kb.q0 (capacity_kibam_t.updateCapacityForLifetime kb pct).qmax
        ∧ (capacity_kibam_t.updateCapacityForLifetime kb pct).I_loss
          = kb.I_loss
            + (kb.q0 - (capacity_kibam_t.updateCapacityForLifetime kb pct).q0) / kb.dt_hour) := by
  have e : ∀ x p : ℚ, x * p * (1 / 100) = x * p / 100 := by
    intro x p
    ring
  constructor
  · have h1 : (capacity_lithium_ion_t.updateCapacityForLifetime l pct).qmax
        = min l.qmax (l.qmax0 * pct / 100) := by
      unfold capacity_lithium_ion_t.updateCapacityForLifetime
      dsimp only
      rw [(update_SOC_fields _).2.2.1, e]
      by_cases h : l.qmax0 * pct / 100 ≤ l.qmax
      · rw [if_pos h, min_eq_right h]
        split_ifs <;> rfl
      · rw [if_neg h, min_eq_left (le_of_lt (not_le.mp h))]
        split_ifs <;> rfl
    have h2 : (capacity_lithium_ion_t.updateCapacityForLifetime l pct).q0
        = min l.q0 (min l.qmax (l.qmax0 * pct / 100)) := by
      unfold capacity_lithium_ion_t.updateCapacityForLifetime
      dsimp only
      rw [(update_SOC_fields _).2.1, e]
      by_cases h : l.qmax0 * pct / 100 ≤ l.qmax
      · rw [if_pos h, min_eq_right h]
        dsimp only
        split_ifs with h3
        · exact (min_eq_right (le_of_lt h3)).symm
        · exact (min_eq_left (not_lt.mp h3)).symm
      · rw [if_neg h, min_eq_left (le_of_lt (not_le.mp h))]
        split_ifs with h3
        · exact (min_eq_right (le_of_lt h3)).symm
        · exact (min_eq_left (not_lt.mp h3)).symm
    refine ⟨h1, ?_, ?_, ?_⟩
    · rw [h1]
      exact min_le_left _ _
    · rw [h2, h1]
    · rw [h2]
      unfold capacity_lithium_ion_t.updateCapacityForLifetime
      dsimp only
      rw [e]
      by_cases h : l.qmax0 * pct / 100 ≤ l.qmax
      · rw [if_pos h, min_eq_right h]
        dsimp only
        split_ifs with h3
        · simp only [capacity_t.update_SOC]
          rw [min_eq_right (le_of_lt h3)]
        · simp only [capacity_t.update_SOC]
          rw [min_eq_left (not_lt.mp h3)]
          simp
      · rw [if_neg h, min_eq_left (le_of_lt (not_le.mp h))]
        split_ifs with h3
        · simp only [capacity_t.update_SOC]
          rw [min_eq_right (le_of_lt h3)]
        · simp only [capacity_t.update_SOC]
          rw [min_eq_left (not_lt.mp h3)]
          simp
  · have h1 : (capacity_kibam_t.updateCapacityForLifetime kb pct).qmax
        = min kb.qmax (kb.qmax0 * pct / 100) := by
      unfold capacity_kibam_t.updateCapacityForLifetime
      dsimp only
      rw [(update_SOC_fields _).2.2.1, e]
      by_cases h : kb.qmax0 * pct / 100 ≤ kb.qmax
      · rw [if_pos h, min_eq_right h]
        split_ifs <;> rfl
      · rw [if_neg h, min_eq_left (le_of_lt (not_le.mp h))]
        split_ifs <;> rfl
    have h2 : (capacity_kibam_t.updateCapacityForLifetime kb pct).q0
        = min kb.q0 (min kb.qmax (kb.qmax0 * pct / 100)) := by
      unfold capacity_kibam_t.updateCapacityForLifetime
      dsimp only
      rw [(update_SOC_fields _).2.1, e]
      by_cases h : kb.qmax0 * pct / 100 ≤ kb.qmax
      · rw [if_pos h, min_eq_right h]
        dsimp only
        split_ifs with h3
        · dsimp only
          rw [min_eq_right (le_of_lt h3)]
          field_simp
          ring
        · exact (min_eq_left (not_lt.mp h3)).symm
      · rw [if_neg h, min_eq_left (le_of_lt (not_le.mp h))]
        split_ifs with h3
        · dsimp only
          rw [min_eq_right (le_of_lt h3)]
          field_simp
        · exact (min_eq_left (not_lt.mp h3)).symm
    refine ⟨h1, ?_, ?_, ?_⟩
    · rw [h1]
      exact min_le_left _ _
    · rw [h2, h1]
    · rw [h2]
      unfold capacity_kibam_t.updateCapacityForLifetime
      dsimp only
      rw [e]
      by_cases h : kb.qmax0 * pct / 100 ≤ kb.qmax
      · rw [if_pos h, min_eq_right h]
        dsimp only
        split_ifs with h3
        · simp only [capacity_t.update_SOC]
          rw [min_eq_right (le_of_lt h3)]
          congr 2
          field_simp
          ring
        · simp only [capacity_t.update_SOC]
          rw [min_eq_left (not_lt.mp h3)]
          simp
      · rw [if_neg h, min_eq_left (le_of_lt (not_le.mp h))]
        split_ifs with h3
        · simp only [capacity_t.update_SOC]
          rw [min_eq_right (le_of_lt h3)]
          congr 2
          field_simp
        · simp only [capacity_t.update_SOC]
          rw [min_eq_left (not_lt.mp h3)]
          simp

theorem lifetime_derating_ratchet_witness :
    (capacity_kibam_t.updateCapacityForLifetime kibam_example 50).qmax
        = min kibam_example.qmax (kibam_example.qmax0 * 50 / 100)
      ∧ (capacity_kibam_t.updateCapacityForLifetime kibam_example 50).I_loss
        = kibam_example.I_loss
          + (kibam_example.q0 - (capacity_kibam_t.updateCapacityForLifetime kibam_example 50).q0)
            / kibam_example.dt_hour :=
  have h := lifetime_derating_ratchet lithium_discharged kibam_example 50 (by decide!)
    (by decide!) (by decide!)
  ⟨h.2.1, h.2.2.2.2⟩


/-- The failing input for C25: the KiBaM example state (tanks of 50 Ah each,
100 Ah in total) has to shed charge in `updateCapacityForLifetime(50)` and in
`updateCapacityForThermal(1/2)`.  The total is lowered to `11600/221` Ah, the
tanks reported by `q1()` and `q2()` still sum to 100 Ah, and the members that
are scaled instead are the reference capacities `_q1` and `_q2`. -/
theorem kibam_derating_leaves_tanks :
    kibam_example.get_q1 + kibam_example.get_q2 = kibam_example.q0
      ∧ kibam_example.q0 > kibam_example.qmax0 * 50 * (1 / 100)
      ∧ (capacity_kibam_t.updateCapacityForLifetime kibam_example 50).q0 = 11600 / 221
      ∧ (capacity_kibam_t.updateCapacityForLifetime kibam_example 50).get_q1
        + (capacity_kibam_t.updateCapacityForLifetime kibam_example 50).get_q2 = 100
      ∧ (capacity_kibam_t.updateCapacityForLifetime kibam_example 50).get_q1
        + (capacity_kibam_t.updateCapacityForLifetime kibam_example 50).get_q2
        ≠ (capacity_kibam_t.updateCapacityForLifetime kibam_example 50).q0
      ∧ (capacity_kibam_t.updateCapacityForLifetime kibam_example 50).q1
        = kibam_example.q1 * (116 / 221)
      ∧ kibam_example.q0 > kibam_example.qmax * (1 / 2)
      ∧ (capacity_kibam_t.updateCapacityForThermal kibam_example (1 / 2)).q0 = 11600 / 221
      ∧ (capacity_kibam_t.updateCapacityForThermal kibam_example (1 / 2)).get_q1
        + (capacity_kibam_t.updateCapacityForThermal kibam_example (1 / 2)).get_q2 = 100
      ∧ (capacity_kibam_t.updateCapacityForThermal kibam_example (1 / 2)).get_q1
        + (capacity_kibam_t.updateCapacityForThermal kibam_example (1 / 2)).get_q2
        ≠ (capacity_kibam_t.updateCapacityForThermal kibam_example (1 / 2)).q0 := by
  decide!

/-! ### Rescaling of the KiBaM tanks -/

/-- The loss current is changed neither by `update_SOC` nor by the direction
check. -/
theorem update_SOC_check_I_loss (s : capacity_t) :
    (s.update_SOC).check_charge_change.I_loss = s.I_loss := by
  unfold capacity_t.check_charge_change capacity_t.update_SOC
  dsimp only
  split_ifs <;> rfl

/-- The tanks and the loss current that `capacity_kibam_t::updateCapacity`
stores, in terms of the tanks it computes before the comparison with `_qmax`. -/
theorem kibam_updateCapacity_tanks (expf : ℚ → ℚ) (s : capacity_kibam_t) (I dt : ℚ) :
    (capacity_kibam_t.updateCapacity expf s I dt).q1_0
        = (if (capacity_kibam_t.advanced_tanks expf s I dt).1
              + (capacity_kibam_t.advanced_tanks expf s I dt).2 > s.qmax then
            s.qmax * ((capacity_kibam_t.advanced_tanks expf s I dt).1
              / ((capacity_kibam_t.advanced_tanks expf s I dt).1
                + (capacity_kibam_t.advanced_tanks expf s I dt).2))
          else (capacity_kibam_t.advanced_tanks expf s I dt).1)
      ∧ (capacity_kibam_t.updateCapacity expf s I dt).q2_0
        = (if (capacity_kibam_t.advanced_tanks expf s I dt).1
              + (capacity_kibam_t.advanced_tanks expf s I dt).2 > s.qmax then
            s.qmax * ((capacity_kibam_t.advanced_tanks expf s I dt).2
              / ((capacity_kibam_t.advanced_tanks expf s I dt).1
                + (capacity_kibam_t.advanced_tanks expf s I dt).2))
          else (capacity_kibam_t.advanced_tanks expf s I dt).2)
      ∧ (capacity_kibam_t.updateCapacity expf s I dt).I_loss = 0 := by
  unfold capacity_kibam_t.updateCapacity capacity_kibam_t.advanced_tanks
  dsimp only
  rw [update_SOC_check_I_loss]
  refine ⟨?_, ?_, ?_⟩
  · split_ifs <;> rfl
  · split_ifs <;> rfl
  · split_ifs <;> rfl

/-- C26 (as stated) fails in its last part: in the KiBaM example state derated
to `qmax = 11600/221` Ah, a step with 5 A for one hour advances the tanks to a
sum of `14695/221` Ah, above `qmax`; the tanks are rescaled to `qmax`, and the
loss current after the call is 0, not the discrepancy `3095/221` A. -/
theorem kibam_rescale_records_no_loss :
    (capacity_kibam_t.advanced_tanks exp_approx
          (capacity_kibam_t.updateCapacityForLifetime kibam_example 50) 5 1).1
        + (capacity_kibam_t.advanced_tanks exp_approx
          (capacity_kibam_t.updateCapacityForLifetime kibam_example 50) 5 1).2
        > (capacity_kibam_t.updateCapacityForLifetime kibam_example 50).qmax
      ∧ ((capacity_kibam_t.advanced_tanks exp_approx
            (capacity_kibam_t.updateCapacityForLifetime kibam_example 50) 5 1).1
          + (capacity_kibam_t.advanced_tanks exp_approx
            (capacity_kibam_t.updateCapacityForLifetime kibam_example 50) 5 1).2
          - (capacity_kibam_t.updateCapacityForLifetime kibam_example 50).qmax) / 1
        = 3095 / 221
      ∧ (capacity_kibam_t.updateCapacity exp_approx
          (capacity_kibam_t.updateCapacityForLifetime kibam_example 50) 5 1).q0 = 11600 / 221
      ∧ (capacity_kibam_t.updateCapacity exp_approx
          (capacity_kibam_t.updateCapacityForLifetime kibam_example 50) 5 1).I_loss = 0 := by
  decide!

/-- C26 (amended): for the KiBaM model with `qmax ≥ 0`, when the analytically
advanced tanks `q1 + q2` exceed `qmax` in `updateCapacity(I, dt)`, the tanks
are rescaled by the common factor `qmax / (q1 + q2)`, so that their sum and the
total charge are exactly `qmax` and the ratio `q1 : q2` is preserved; the
discrepancy is not recorded: `I_loss()` after the call is 0. -/
theorem kibam_rescale_to_qmax (expf : ℚ → ℚ) (s : capacity_kibam_t) (I dt : ℚ)
    (hq : 0 ≤ s.qmax)
    (h : (capacity_kibam_t.advanced_tanks expf s I dt).1
      + (capacity_kibam_t.advanced_tanks expf s I dt).2 > s.qmax) :
    (capacity_kibam_t.updateCapacity expf s I dt).get_q1
        = s.qmax / ((capacity_kibam_t.advanced_tanks expf s I dt).1
            + (capacity_kibam_t.advanced_tanks expf s I dt).2)
          * (capacity_kibam_t.advanced_tanks expf s I dt).1
      ∧ (capacity_kibam_t.updateCapacity expf s I dt).get_q2
        = s.qmax / ((capacity_kibam_t.advanced_tanks expf s I dt).1
            + (capacity_kibam_t.advanced_tanks expf s I dt).2)
          * (capacity_kibam_t.advanced_tanks expf s I dt).2
      ∧ (capacity_kibam_t.updateCapacity expf s I dt).get_q1
        + (capacity_kibam_t.updateCapacity expf s I dt).get_q2 = s.qmax
      ∧ (capacity_kibam_t.updateCapacity expf s I dt).q0 = s.qmax
      ∧ (capacity_kibam_t.updateCapacity expf s I dt).get_q1
          * (capacity_kibam_t.advanced_tanks expf s I dt).2
        = (capacity_kibam_t.updateCapacity expf s I dt).get_q2
          * (capacity_kibam_t.advanced_tanks expf s I dt).1
      ∧ (capacity_kibam_t.updateCapacity expf s I dt).I_loss = 0 := by
  obtain ⟨e1, e2, e3⟩ := kibam_updateCapacity_tanks expf s I dt
  have e0 := (kibam_updateCapacity_charge expf s I dt).1
  unfold capacity_kibam_t.get_q1 capacity_kibam_t.get_q2
  rw [if_pos h] at e1 e2
  rw [e0, e1, e2]
  generalize (capacity_kibam_t.advanced_tanks expf s I dt).1 = a at *
  generalize (capacity_kibam_t.advanced_tanks expf s I dt).2 = b at *
  have hne : a + b ≠ 0 := by linarith
  refine ⟨?_, ?_, ?_, ?_, ?_, e3⟩
  · field_simp
  · field_simp
  · field_simp
    ring
  · field_simp
    ring
  · field_simp
    ring

theorem kibam_rescale_to_qmax_witness :
    (capacity_kibam_t.updateCapacity exp_approx
          (capacity_kibam_t.updateCapacityForLifetime kibam_example 50) 5 1).get_q1
        + (capacity_kibam_t.updateCapacity exp_approx
          (capacity_kibam_t.updateCapacityForLifetime kibam_example 50) 5 1).get_q2
        = (capacity_kibam_t.updateCapacityForLifetime kibam_example 50).qmax
      ∧ (capacity_kibam_t.updateCapacity exp_approx
          (capacity_kibam_t.updateCapacityForLifetime kibam_example 50) 5 1).I_loss = 0 :=
  have h := kibam_rescale_to_qmax exp_approx
    (capacity_kibam_t.updateCapacityForLifetime kibam_example 50) 5 1 (by decide!) (by decide!)
  ⟨h.2.2.1, h.2.2.2.2.2⟩

/-! ### Reported state of charge -/

/-- After `update_SOC`, for a configured maximum that is not negative, the
reported values are the ones recomputed from the charges. -/
theorem update_SOC_recomputed (s : capacity_t) (m : ℚ) (hm : s.SOC_max = m) (h : 0 ≤ m) :
    SOC_recomputed s.update_SOC := by
  subst hm
  unfold SOC_recomputed capacity_t.recomputed_SOC capacity_t.update_SOC
  dsimp only
  refine ⟨?_, rfl⟩
  intro hq
  rw [if_pos hq]
  split_ifs with h1 h2
  · rw [min_eq_right (le_of_lt h1), max_eq_right h]
  · rw [min_eq_left (not_lt.mp h1), max_eq_left (le_of_lt h2)]
  · rw [min_eq_left (not_lt.mp h1), max_eq_right (not_lt.mp h2)]

/-- The same after the direction check that follows `update_SOC` in
`updateCapacity`. -/
theorem update_SOC_check_recomputed (s : capacity_t) (m : ℚ) (hm : s.SOC_max = m)
    (h : 0 ≤ m) : SOC_recomputed (s.update_SOC).check_charge_change := by
  have h1 := update_SOC_recomputed s m hm h
  have h2 := check_charge_change_fields s.update_SOC
  unfold SOC_recomputed capacity_t.recomputed_SOC at *
  rw [h2.1, h2.2.1, h2.2.2.1, h2.2.2.2.1, h2.2.2.2.2.1]
  exact h1

/-- C27 (as stated) fails: right after construction with `SOC_max = 95` the
reported `DOD` is 0, not `100 - SOC = 5`; and `replace_battery()` on the
lithium-ion state discharged to 45 % leaves the reported `SOC` at 45, while
the value recomputed from the restored charge is 95. -/
theorem constructed_DOD_not_recomputed :
    lithium_example.SOC = 95 ∧ lithium_example.DOD = 0
      ∧ lithium_example.DOD ≠ 100 - lithium_example.SOC
      ∧ lithium_discharged.SOC = 45
      ∧ (capacity_lithium_ion_t.replace_battery lithium_discharged).SOC = 45
      ∧ (capacity_lithium_ion_t.replace_battery lithium_discharged).recomputed_SOC = 95
      ∧ (capacity_lithium_ion_t.replace_battery lithium_discharged).SOC
        ≠ (capacity_lithium_ion_t.replace_battery lithium_discharged).recomputed_SOC := by
  decide!

/-- C27 (amended): for either variant with a configured `SOC_max ≥ 0`, after
each of `updateCapacity`, `updateCapacityForThermal` and
`updateCapacityForLifetime` the reported `SOC` is the value recomputed from the
current charge, `clamp(100 * q0 / qmax, 0, SOC_max)` (for `qmax > 0`), and
`DOD = 100 - SOC`.  The constructor stores `SOC = SOC_max` and `DOD = 0`, and
`replace_battery()` leaves the reported `SOC` and `DOD` as they were. -/
theorem SOC_recomputed_after_update (expf : ℚ → ℚ) (l : capacity_t)
    (kb : capacity_kibam_t) (I dt pct q m : ℚ) (hl : 0 ≤ l.SOC_max) (hk : 0 ≤ kb.SOC_max) :
    SOC_recomputed (capacity_lithium_ion_t.updateCapacity l I dt)
      ∧ SOC_recomputed (capacity_lithium_ion_t.updateCapacityForThermal l pct)
      ∧ SOC_recomputed (capacity_lithium_ion_t.updateCapacityForLifetime l pct)
      ∧ SOC_recomputed (capacity_kibam_t.updateCapacity expf kb I dt).tocapacity_t
      ∧ SOC_recomputed (capacity_kibam_t.updateCapacityForThermal kb pct).tocapacity_t
      ∧ SOC_recomputed (capacity_kibam_t.updateCapacityForLifetime kb pct).tocapacity_t
      ∧ ((capacity_t.mk0 q m).SOC = m ∧ (capacity_t.mk0 q m).DOD = 0)
      ∧ ((capacity_lithium_ion_t.replace_battery l).SOC = l.SOC
        ∧ (capacity_lithium_ion_t.replace_battery l).DOD = l.DOD)
      ∧ ((capacity_kibam_t.replace_battery kb).SOC = kb.SOC
        ∧ (capacity_kibam_t.replace_battery kb).DOD = kb.DOD) := by
  refine ⟨?_, ?_, ?_, ?_, ?_, ?_, ⟨rfl, rfl⟩, ⟨rfl, rfl⟩, ⟨rfl, rfl⟩⟩
  · unfold capacity_lithium_ion_t.updateCapacity
    dsimp only
    apply update_SOC_check_recomputed _ _ _ hl
    split_ifs <;> rfl
  · unfold capacity_lithium_ion_t.updateCapacityForThermal
    dsimp only
    apply update_SOC_recomputed _ _ _ hl
    split_ifs <;> rfl
  · unfold capacity_lithium_ion_t.updateCapacityForLifetime
    dsimp only
    apply update_SOC_recomputed _ _ _ hl
    split_ifs <;> rfl
  · unfold capacity_kibam_t.updateCapacity
    dsimp only
    apply update_SOC_check_recomputed _ _ _ hk
    split_ifs <;> rfl
  · unfold capacity_kibam_t.updateCapacityForThermal
    dsimp only
    apply update_SOC_recomputed _ _ _ hk
    split_ifs <;> rfl
  · unfold capacity_kibam_t.updateCapacityForLifetime
    dsimp only
    apply update_SOC_recomputed _ _ _ hk
    split_ifs <;> rfl

theorem SOC_recomputed_after_update_witness :
    SOC_recomputed (capacity_lithium_ion_t.updateCapacity lithium_example 50 1)
      ∧ SOC_recomputed
        (capacity_kibam_t.updateCapacityForLifetime kibam_example 50).tocapacity_t :=
  have h := SOC_recomputed_after_update exp_approx lithium_example kibam_example 50 1 50 100 95
    (by decide!) (by decide!)
  ⟨h.1, h.2.2.2.2.2.1⟩

/-! ### Construction from a table without rows -/

/-- C28 (as stated) fails: the thermal constructor accepts a table with zero
rows; the model it produces holds the empty table, starts at room temperature
and can be stepped. -/
theorem thermal_constructed_from_empty_table :
    (thermal_t.mk0 100 1 1 1 1000 10 (29315 / 100) []).cap_vs_temp = []
      ∧ (thermal_t.mk0 100 1 1 1 1000 10 (29315 / 100) []).T_battery = 29315 / 100
      ∧ ((thermal_t.mk0 100 1 1 1 1000 10 (29315 / 100) []).updateTemperature 10 (1 / 100)
          1).T_battery = 152447 / 520 := by
  decide!

/-- C28 (amended): neither constructor checks the number of rows of its table.
The thermal constructor keeps every table, one without rows too, and the
temperature after a step of the model does not depend on the table.  The
lifetime constructor copies the rows it is given and calls `bilinear(0, 0)`,
which first reads the first row: from a table with at least one row it
constructs the model with the rows as given and the initial retention
`bilinear(0, 0)`; from a table without rows that read is out of range and no
model is constructed, and that is the only table for which none is. -/
theorem constructors_without_row_check (bilinear : ℚ → Int → ℚ) (mass length width height Cp
    h T_room I R dt : ℚ) (c_vs_t : List (ℚ × ℚ)) (table : List (ℚ × ℚ × ℚ)) (o : Int) (t : ℚ) :
    (thermal_t.mk0 mass length width height Cp h T_room c_vs_t).cap_vs_temp.length
        = c_vs_t.length
      ∧ (thermal_t.mk0 mass length width height Cp h T_room []).cap_vs_temp = []
      ∧ ((thermal_t.mk0 mass length width height Cp h T_room c_vs_t).updateTemperature I R
          dt).T_battery
        = ((thermal_t.mk0 mass length width height Cp h T_room []).updateTemperature I R
          dt).T_battery
      ∧ lifetime_t.bilinear bilinear [] 0 0 = none
      ∧ lifetime_t.construct bilinear [] o t = none
      ∧ (lifetime_t.construct bilinear table o t = none ↔ table = [])
      ∧ (table ≠ [] →
        lifetime_t.construct bilinear table o t = some (lifetime_t.mk0 bilinear table o t)
          ∧ (lifetime_t.mk0 bilinear table o t).DOD_vect = table.map (fun r => r.1)
          ∧ (lifetime_t.mk0 bilinear table o t).cycles_vect = table.map (fun r => r.2.1)
          ∧ (lifetime_t.mk0 bilinear table o t).capacities_vect = table.map (fun r => r.2.2)
          ∧ (lifetime_t.mk0 bilinear table o t).DOD_vect.length = table.length
          ∧ (lifetime_t.mk0 bilinear table o t).Clt = bilinear 0 0) := by
  have hsome : table ≠ [] →
      lifetime_t.construct bilinear table o t = some (lifetime_t.mk0 bilinear table o t) := by
    intro hne
    cases table with
    | nil => exact absurd rfl hne
    | cons r rest => rfl
  refine ⟨?_, rfl, rfl, rfl, rfl, ?_, ?_⟩
  · simp [thermal_t.mk0]
  · constructor
    · intro hn
      by_contra hne
      rw [hsome hne] at hn
      cases hn
    · intro he
      rw [he]
      rfl
  · intro hne
    refine ⟨hsome hne, rfl, rfl, rfl, ?_, rfl⟩
    simp [lifetime_t.mk0]

theorem constructors_without_row_check_witness :
    lifetime_t.construct example_bilinear example_table 0 0
        = some (lifetime_t.mk0 example_bilinear example_table 0 0)
      ∧ lifetime_t.construct example_bilinear [] 0 0 = none :=
  have h := constructors_without_row_check example_bilinear 100 1 1 1 1000 10 (29315 / 100) 10
    (1 / 100) 1 [] example_table 0 0
  ⟨(h.2.2.2.2.2.2 (by decide)).1, h.2.2.2.2.1⟩

/-! ### Fit of the KiBaM parameters -/

/-- One pass of the search loop in terms of the candidate pair. -/
theorem parameter_step_candidate (expf : ℚ → ℚ) (s : capacity_kibam_t) (acc : ℚ × ℚ × ℚ)
    (i : ℕ) :
    capacity_kibam_t.parameter_step expf s acc i
      = (match capacity_kibam_t.candidate expf s i with
        | some p =>
          if |p.1 - p.2| < acc.1 then (|p.1 - p.2|, (i : ℚ) * (1 / 1000), (1 / 2) * (p.1 + p.2))
          else acc
        | none => acc) := by
  unfold capacity_kibam_t.parameter_step capacity_kibam_t.candidate
  dsimp only
  generalize capacity_kibam_t.c_compute expf s.F1 s.t1 20 ((i : ℚ) * (1 / 1000)) = x
  generalize capacity_kibam_t.c_compute expf s.F2 s.t1 s.t2 ((i : ℚ) * (1 / 1000)) = y
  cases x <;> cases y <;> rfl

/-- The accumulator `(minRes, _k, _c)` after the first `n` passes of the search
loop started with `acc`: either no candidate was below `acc.1` and the
accumulator is `acc`, or it holds the first candidate of smallest
discrepancy. -/
theorem parameter_search (expf : ℚ → ℚ) (s : capacity_kibam_t) (acc : ℚ × ℚ × ℚ) (n : ℕ) :
    ((List.range n).foldl (capacity_kibam_t.parameter_step expf s) acc = acc
        ∧ ∀ j, j < n → ∀ q, capacity_kibam_t.candidate expf s j = some q →
          ¬ |q.1 - q.2| < acc.1)
      ∨ ∃ i p, i < n ∧ capacity_kibam_t.candidate expf s i = some p ∧ |p.1 - p.2| < acc.1
        ∧ (List.range n).foldl (capacity_kibam_t.parameter_step expf s) acc
          = (|p.1 - p.2|, (i : ℚ) * (1 / 1000), (1 / 2) * (p.1 + p.2))
        ∧ (∀ j, j < n → ∀ q, capacity_kibam_t.candidate expf s j = some q →
          |p.1 - p.2| ≤ |q.1 - q.2|)
        ∧ (∀ j, j < i → ∀ q, capacity_kibam_t.candidate expf s j = some q →
          |p.1 - p.2| < |q.1 - q.2|) := by
  induction n with
  | zero =>
    left
    exact ⟨rfl, fun j hj => absurd hj (Nat.not_lt_zero j)⟩
  | succ n ih =>
    rw [List.range_succ, List.foldl_append, List.foldl_cons, List.foldl_nil,
      parameter_step_candidate]
    rcases ih with ⟨hacc, hnone⟩ | ⟨i, p, hi, hp, hlt, hacc, hmin, hfirst⟩
    · rw [hacc]
      cases hn : capacity_kibam_t.candidate expf s n with
      | none =>
        left
        refine ⟨rfl, ?_⟩
        intro j hj q hq
        rcases Nat.lt_succ_iff_lt_or_eq.mp hj with h | h
        · exact hnone j h q hq
        · rw [h, hn] at hq
          cases hq
      | some p =>
        dsimp only
        by_cases hc : |p.1 - p.2| < acc.1
        · right
          rw [if_pos hc]
          refine ⟨n, p, Nat.lt_succ_self n, hn, hc, rfl, ?_, ?_⟩
          · intro j hj q hq
            rcases Nat.lt_succ_iff_lt_or_eq.mp hj with h | h
            · exact le_of_lt (lt_of_lt_of_le hc (not_lt.mp (hnone j h q hq)))
            · rw [h, hn] at hq
              cases hq
              exact le_refl _
          · intro j hj q hq
            exact lt_of_lt_of_le hc (not_lt.mp (hnone j hj q hq))
        · left
          rw [if_neg hc]
          refine ⟨rfl, ?_⟩
          intro j hj q hq
          rcases Nat.lt_succ_iff_lt_or_eq.mp hj with h | h
          · exact hnone j h q hq
          · rw [h, hn] at hq
            cases hq
            exact hc
    · rw [hacc]
      right
      cases hn : capacity_kibam_t.candidate expf s n with
      | none =>
        refine ⟨i, p, Nat.lt_succ_of_lt hi, hp, hlt, rfl, ?_, hfirst⟩
        intro j hj q hq
        rcases Nat.lt_succ_iff_lt_or_eq.mp hj with h | h
        · exact hmin j h q hq
        · rw [h, hn] at hq
          cases hq
      | some q0 =>
        dsimp only
        by_cases hc : |q0.1 - q0.2| < |p.1 - p.2|
        · rw [if_pos hc]
          refine ⟨n, q0, Nat.lt_succ_self n, hn, lt_trans hc hlt, rfl, ?_, ?_⟩
          · intro j hj q hq
            rcases Nat.lt_succ_iff_lt_or_eq.mp hj with h | h
            · exact le_of_lt (lt_of_lt_of_le hc (hmin j h q hq))
            · rw [h, hn] at hq
              cases hq
              exact le_refl _
          · intro j hj q hq
            exact lt_of_lt_of_le hc (hmin j hj q hq)
        · rw [if_neg hc]
          refine ⟨i, p, Nat.lt_succ_of_lt hi, hp, hlt, rfl, ?_, hfirst⟩
          intro j hj q hq
          rcases Nat.lt_succ_iff_lt_or_eq.mp hj with h | h
          · exact hmin j h q hq
          · rw [h, hn] at hq
            cases hq
            exact not_lt.mp hc

/-- With the reference time `t1 = 0` both quotients of every candidate have
the divisor zero. -/
theorem candidate_none_of_t1_zero (expf : ℚ → ℚ) (he : expf 0 = 1) (s : capacity_kibam_t)
    (h : s.t1 = 0) (i : ℕ) : capacity_kibam_t.candidate expf s i = none := by
  unfold capacity_kibam_t.candidate capacity_kibam_t.c_compute
  simp [h, he]

/-- The constructor in terms of the state it hands to `parameter_compute`. -/
theorem kibam_mk0_fitted (expf : ℚ → ℚ) (k_init c_init q20 t1 q1 q10 SOC_max : ℚ) :
    (capacity_kibam_t.mk0 expf k_init c_init q20 t1 q1 q10 SOC_max).k
        = (capacity_kibam_t.parameter_compute expf
          (capacity_kibam_t.unfitted k_init c_init q20 t1 q1 q10 SOC_max)).k
      ∧ (capacity_kibam_t.mk0 expf k_init c_init q20 t1 q1 q10 SOC_max).c
        = (capacity_kibam_t.parameter_compute expf
          (capacity_kibam_t.unfitted k_init c_init q20 t1 q1 q10 SOC_max)).c := by
  unfold capacity_kibam_t.mk0 capacity_kibam_t.replace_battery capacity_kibam_t.unfitted
  dsimp only
  exact ⟨rfl, rfl⟩

/-- The members that `parameter_compute` assigns, in terms of the accumulator
of its search loop. -/
theorem parameter_compute_fields (expf : ℚ → ℚ) (s : capacity_kibam_t) :
    (capacity_kibam_t.parameter_compute expf s).k
        = ((List.range 5000).foldl (capacity_kibam_t.parameter_step expf s)
          (10000, s.k, s.c)).2.1
      ∧ (capacity_kibam_t.parameter_compute expf s).c
        = ((List.range 5000).foldl (capacity_kibam_t.parameter_step expf s)
          (10000, s.k, s.c)).2.2
      ∧ (capacity_kibam_t.parameter_compute expf s).qmax
        = capacity_kibam_t.qmax_compute expf
          { s with
            k := ((List.range 5000).foldl (capacity_kibam_t.parameter_step expf s)
              (10000, s.k, s.c)).2.1
            c := ((List.range 5000).foldl (capacity_kibam_t.parameter_step expf s)
              (10000, s.k, s.c)).2.2 } := by
  unfold capacity_kibam_t.parameter_compute
  dsimp only
  exact ⟨rfl, rfl, rfl⟩

/-- When no candidate has a defined discrepancy, `parameter_compute` leaves
`_k` and `_c` as they were. -/
theorem parameter_compute_unassigned (expf : ℚ → ℚ) (s : capacity_kibam_t)
    (h : ∀ i : ℕ, capacity_kibam_t.candidate expf s i = none) :
    (capacity_kibam_t.parameter_compute expf s).k = s.k
      ∧ (capacity_kibam_t.parameter_compute expf s).c = s.c := by
  obtain ⟨fk, fc, _⟩ := parameter_compute_fields expf s
  rcases parameter_search expf s (10000, s.k, s.c) 5000 with ⟨hf, _⟩ | ⟨i, p, _, hp, _⟩
  · rw [fk, fc, hf]
    exact ⟨rfl, rfl⟩
  · rw [h i] at hp
    cases hp

/-- C29 (as stated) fails: for the reference points `q20 = 100`, `t1 = 0`,
`q1 = 60`, `q10 = 93` no candidate has a defined discrepancy, the search
assigns nothing, and `k` and `c` keep the values they had before the fit
(here -1), which belong to none of the scanned candidates. -/
theorem parameter_compute_without_candidate :
    (∀ i : ℕ, capacity_kibam_t.candidate exp_approx
        (capacity_kibam_t.unfitted (-1) (-1) 100 0 60 93 100) i = none)
      ∧ (capacity_kibam_t.mk0 exp_approx (-1) (-1) 100 0 60 93 100).k = -1
      ∧ (capacity_kibam_t.mk0 exp_approx (-1) (-1) 100 0 60 93 100).c = -1
      ∧ ∀ i : ℕ, (capacity_kibam_t.mk0 exp_approx (-1) (-1) 100 0 60 93 100).k
        ≠ (i : ℚ) * (1 / 1000) := by
  have hnone := candidate_none_of_t1_zero exp_approx (by decide!)
    (capacity_kibam_t.unfitted (-1) (-1) 100 0 60 93 100) rfl
  obtain ⟨ek, ec⟩ := kibam_mk0_fitted exp_approx (-1) (-1) 100 0 60 93 100
  obtain ⟨uk, uc⟩ := parameter_compute_unassigned exp_approx
    (capacity_kibam_t.unfitted (-1) (-1) 100 0 60 93 100) hnone
  have hk : (capacity_kibam_t.mk0 exp_approx (-1) (-1) 100 0 60 93 100).k = -1 := by
    rw [ek, uk]
    rfl
  have hc : (capacity_kibam_t.mk0 exp_approx (-1) (-1) 100 0 60 93 100).c = -1 := by
    rw [ec, uc]
    rfl
  refine ⟨hnone, hk, hc, ?_⟩
  intro i
  have hpos : (0 : ℚ) ≤ (i : ℚ) * (1 / 1000) := mul_nonneg (Nat.cast_nonneg i) (by norm_num)
  intro hi
  rw [hk] at hi
  linarith

/-- C29 (amended): whenever at least one of the 5000 scanned candidates has a
defined discrepancy below 10000, `parameter_compute` ends with `k` and `c`
assigned from one of the scanned candidates, one whose discrepancy is the
smallest among all candidates with a defined discrepancy, however large that
smallest discrepancy is. -/
theorem parameter_compute_takes_best (expf : ℚ → ℚ) (s : capacity_kibam_t)
    (h : ∃ (i : ℕ) (p : ℚ × ℚ), i < 5000 ∧ capacity_kibam_t.candidate expf s i = some p
      ∧ |p.1 - p.2| < 10000) :
    ∃ (i : ℕ) (p : ℚ × ℚ), i < 5000 ∧ capacity_kibam_t.candidate expf s i = some p
      ∧ (capacity_kibam_t.parameter_compute expf s).k = (i : ℚ) * (1 / 1000)
      ∧ (capacity_kibam_t.parameter_compute expf s).c = (1 / 2) * (p.1 + p.2)
      ∧ ∀ j, j < 5000 → ∀ q, capacity_kibam_t.candidate expf s j = some q →
        |p.1 - p.2| ≤ |q.1 - q.2| := by
  obtain ⟨fk, fc, _⟩ := parameter_compute_fields expf s
  rcases parameter_search expf s (10000, s.k, s.c) 5000 with
    ⟨_, hnone⟩ | ⟨i, p, hi, hp, _, hacc, hmin, _⟩
  · obtain ⟨i, p, hi, hp, hlt⟩ := h
    exact absurd hlt (hnone i hi p hp)
  · refine ⟨i, p, hi, hp, ?_, ?_, hmin⟩
    · rw [fk, hacc]
    · rw [fc, hacc]

theorem parameter_compute_takes_best_witness :
    ∃ (i : ℕ) (p : ℚ × ℚ), i < 5000 ∧ capacity_kibam_t.candidate exp_approx kibam_example i = some p
      ∧ (capacity_kibam_t.parameter_compute exp_approx kibam_example).k = (i : ℚ) * (1 / 1000)
      ∧ (capacity_kibam_t.parameter_compute exp_approx kibam_example).c = (1 / 2) * (p.1 + p.2)
      ∧ ∀ j, j < 5000 → ∀ q, capacity_kibam_t.candidate exp_approx kibam_example j = some q →
        |p.1 - p.2| ≤ |q.1 - q.2| :=
  parameter_compute_takes_best exp_approx kibam_example
    ⟨1, (-9964611125 / 247595976, -439002803100 / 5863841111), by decide, by decide!,
      by decide!⟩

/-- C30: with `c1(i) = c_compute(F1, t1, 20, 0.001 * i)` and
`c2(i) = c_compute(F2, t1, 10, 0.001 * i)` for `i = 0..4999` (the member `_t2`
is 10), whenever some candidate has a defined discrepancy
`|c1(i) - c2(i)| < 10000`, `parameter_compute` sets `k = 0.001 * i` for the
smallest index `i` that attains the minimum discrepancy, sets
`c = (c1(i) + c2(i)) / 2`, and then sets `qmax` to the value of
`qmax_compute()` for those `k` and `c`. -/
theorem parameter_compute_first_minimum (expf : ℚ → ℚ) (s : capacity_kibam_t)
    (ht : s.t2 = 10)
    (h : ∃ (i : ℕ) (c1 c2 : ℚ), i < 5000
      ∧ capacity_kibam_t.c_compute expf s.F1 s.t1 20 ((i : ℚ) * (1 / 1000)) = some c1
      ∧ capacity_kibam_t.c_compute expf s.F2 s.t1 10 ((i : ℚ) * (1 / 1000)) = some c2
      ∧ |c1 - c2| < 10000) :
    ∃ (i : ℕ) (c1 c2 : ℚ), i < 5000
      ∧ capacity_kibam_t.c_compute expf s.F1 s.t1 20 ((i : ℚ) * (1 / 1000)) = some c1
      ∧ capacity_kibam_t.c_compute expf s.F2 s.t1 10 ((i : ℚ) * (1 / 1000)) = some c2
      ∧ |c1 - c2| < 10000
      ∧ (∀ (j : ℕ) (d1 d2 : ℚ), j < 5000 →
        capacity_kibam_t.c_compute expf s.F1 s.t1 20 ((j : ℚ) * (1 / 1000)) = some d1 →
        capacity_kibam_t.c_compute expf s.F2 s.t1 10 ((j : ℚ) * (1 / 1000)) = some d2 →
        |c1 - c2| ≤ |d1 - d2|)
      ∧ (∀ (j : ℕ) (d1 d2 : ℚ), j < i →
        capacity_kibam_t.c_compute expf s.F1 s.t1 20 ((j : ℚ) * (1 / 1000)) = some d1 →
        capacity_kibam_t.c_compute expf s.F2 s.t1 10 ((j : ℚ) * (1 / 1000)) = some d2 →
        |c1 - c2| < |d1 - d2|)
      ∧ (capacity_kibam_t.parameter_compute expf s).k = (i : ℚ) * (1 / 1000)
      ∧ (capacity_kibam_t.parameter_compute expf s).c = (1 / 2) * (c1 + c2)
      ∧ (capacity_kibam_t.parameter_compute expf s).qmax
        = capacity_kibam_t.qmax_compute expf
          { s with k := (i : ℚ) * (1 / 1000), c := (1 / 2) * (c1 + c2) } := by
  have hcand : ∀ (j : ℕ) (d1 d2 : ℚ),
      (capacity_kibam_t.c_compute expf s.F1 s.t1 20 ((j : ℚ) * (1 / 1000)) = some d1
        ∧ capacity_kibam_t.c_compute expf s.F2 s.t1 10 ((j : ℚ) * (1 / 1000)) = some d2)
      ↔ capacity_kibam_t.candidate expf s j = some (d1, d2) := by
    intro j d1 d2
    unfold capacity_kibam_t.candidate
    rw [ht]
    generalize capacity_kibam_t.c_compute expf s.F1 s.t1 20 ((j : ℚ) * (1 / 1000)) = x
    generalize capacity_kibam_t.c_compute expf s.F2 s.t1 10 ((j : ℚ) * (1 / 1000)) = y
    cases x <;> cases y <;> simp
  obtain ⟨fk, fc, fq⟩ := parameter_compute_fields expf s
  rcases parameter_search expf s (10000, s.k, s.c) 5000 with
    ⟨_, hnone⟩ | ⟨i, p, hi, hp, hlt, hacc, hmin, hfirst⟩
  · obtain ⟨i, c1, c2, hi, h1, h2, hlt⟩ := h
    exact absurd hlt (hnone i hi (c1, c2) ((hcand i c1 c2).mp ⟨h1, h2⟩))
  · obtain ⟨c1, c2⟩ := p
    obtain ⟨h1, h2⟩ := (hcand i c1 c2).mpr hp
    refine ⟨i, c1, c2, hi, h1, h2, hlt, ?_, ?_, ?_, ?_, ?_⟩
    · intro j d1 d2 hj e1 e2
      exact hmin j hj (d1, d2) ((hcand j d1 d2).mp ⟨e1, e2⟩)
    · intro j d1 d2 hj e1 e2
      exact hfirst j hj (d1, d2) ((hcand j d1 d2).mp ⟨e1, e2⟩)
    · rw [fk, hacc]
    · rw [fc, hacc]
    · rw [fq, hacc]

theorem parameter_compute_first_minimum_witness :
    ∃ (i : ℕ) (c1 c2 : ℚ), i < 5000
      ∧ capacity_kibam_t.c_compute exp_approx kibam_example.F1 kibam_example.t1 20
        ((i : ℚ) * (1 / 1000)) = some c1
      ∧ capacity_kibam_t.c_compute exp_approx kibam_example.F2 kibam_example.t1 10
        ((i : ℚ) * (1 / 1000)) = some c2
      ∧ |c1 - c2| < 10000
      ∧ (capacity_kibam_t.parameter_compute exp_approx kibam_example).k = (i : ℚ) * (1 / 1000)
      ∧ (capacity_kibam_t.parameter_compute exp_approx kibam_example).c = (1 / 2) * (c1 + c2) :=
  have h := parameter_compute_first_minimum exp_approx kibam_example (by decide!)
    ⟨1, -9964611125 / 247595976, -439002803100 / 5863841111, by decide, by decide!,
      by decide!, by decide!⟩
  match h with
  | ⟨i, c1, c2, hi, h1, h2, hlt, _, _, hk, hc, _⟩ => ⟨i, c1, c2, hi, h1, h2, hlt, hk, hc⟩

/-! ### Lifetime and losses passes of the battery -/

/-- The failing input for C21: a first call of `run` that charges (-1 A) is a
direction change, since the capacity model starts in the discharging
direction; it feeds `prev_DOD() = 0` to the lifetime model and leaves
`_firstStep` set.  The second call charges again, without a direction change,
and feeds the current `DOD() = 5` to the lifetime model, which then holds the
two peaks 0 and 5. -/
theorem run_feeds_lifetime_on_second_call :
    battery_start.firstStep = true
      ∧ (battery_t.run exp_approx example_bilinear full_retention battery_start
          (-1)).1.capacity.base.chargeChange = true
      ∧ (battery_t.run exp_approx example_bilinear full_retention battery_start (-1)).2 = some 0
      ∧ (battery_t.run exp_approx example_bilinear full_retention battery_start
          (-1)).1.firstStep = true
      ∧ (battery_t.run exp_approx example_bilinear full_retention
          (battery_t.run exp_approx example_bilinear full_retention battery_start (-1)).1
          (-1)).1.capacity.base.chargeChange = false
      ∧ (battery_t.run exp_approx example_bilinear full_retention
          (battery_t.run exp_approx example_bilinear full_retention battery_start (-1)).1
          (-1)).2 = some 5
      ∧ (battery_t.run exp_approx example_bilinear full_retention
          (battery_t.run exp_approx example_bilinear full_retention battery_start (-1)).1
          (-1)).1.lifetime.Peaks = [0, 5] := by
  decide!

/-- The failing input for C22: the fifth sample fed to the lifetime model
raises `cycles_elapsed()` from 0 to 2 in one `rainflow` call.  The first
`run_losses` call after it calls the lifetime hook and raises `_nCycle` to 1;
the second call, with the lifetime model unchanged, calls the hook again; the
third does not. -/
theorem run_losses_repeats_lifetime_hook :
    (lifetime_t.rainflow_all example_bilinear
        (lifetime_t.mk0 example_bilinear example_table 0 0) [0, 100, 20, 60]).cycles_elapsed = 0
      ∧ cycled_lifetime.cycles_elapsed = 2
      ∧ (losses_t.run_losses full_retention losses_t.mk0 cycled_lifetime thermal_example
          (capacity_object.lithium_ion lithium_discharged) 1).2.2 = true
      ∧ (losses_t.run_losses full_retention losses_t.mk0 cycled_lifetime thermal_example
          (capacity_object.lithium_ion lithium_discharged) 1).1.nCycle = 1
      ∧ (losses_t.run_losses full_retention
          (losses_t.run_losses full_retention losses_t.mk0 cycled_lifetime thermal_example
            (capacity_object.lithium_ion lithium_discharged) 1).1
          cycled_lifetime thermal_example
          (losses_t.run_losses full_retention losses_t.mk0 cycled_lifetime thermal_example
            (capacity_object.lithium_ion lithium_discharged) 1).2.1 1).2.2 = true
      ∧ (losses_t.run_losses full_retention { nCycle := 2 } cycled_lifetime thermal_example
          (capacity_object.lithium_ion lithium_discharged) 1).2.2 = false := by
  decide!

/-! ### Closed forms of the KiBaM step -/

/-- The current stored by `capacity_kibam_t::updateCapacity` is the limited
request, and the tanks it computes before the comparison with `_qmax` are the
closed forms for that current. -/
theorem kibam_updateCapacity_current (expf : ℚ → ℚ) (s : capacity_kibam_t) (I dt : ℚ) :
    (capacity_kibam_t.updateCapacity expf s I dt).I
        = capacity_kibam_t.limited_current expf s I dt
      ∧ capacity_kibam_t.advanced_tanks expf s I dt
        = (capacity_kibam_t.q1_compute expf s s.q1_0 s.q0 dt
            (capacity_kibam_t.limited_current expf s I dt),
          capacity_kibam_t.q2_compute expf s s.q2_0 s.q0 dt
            (capacity_kibam_t.limited_current expf s I dt)) := by
  unfold capacity_kibam_t.updateCapacity capacity_kibam_t.advanced_tanks
    capacity_kibam_t.limited_current
  dsimp only
  rw [(check_charge_change_fields _).2.2.2.2.2.2, (update_SOC_fields _).2.2.2.2]
  constructor
  · split_ifs <;> rfl
  · split_ifs <;> rfl

/-- C31: for the KiBaM model with `k > 0`, `0 < c ≤ 1` and `dt > 0` (and the
value of `exp` at `-k * dt` between `1 - k * dt` and 1, as for the exponential
function), the discharge limit drives the available-charge tank to 0 and the
charge limit drives it to `c * qmax` over one step; `updateCapacity` uses
`min(I, Idmax)` for a discharge request and `-min(|I|, |Icmax|)` for a charge
request. -/
theorem kibam_limit_currents (expf : ℚ → ℚ) (s : capacity_kibam_t) (q1_0 q0 I dt : ℚ)
    (hk : 0 < s.k) (hc0 : 0 < s.c) (_hc1 : s.c ≤ 1) (_hdt : 0 < dt)
    (he1 : expf (-s.k * dt) < 1) (he2 : 1 - s.k * dt < expf (-s.k * dt)) :
    capacity_kibam_t.q1_compute expf s q1_0 q0 dt
        (capacity_kibam_t.Idmax_compute expf s q1_0 q0 dt) = 0
      ∧ capacity_kibam_t.q1_compute expf s q1_0 q0 dt
        (capacity_kibam_t.Icmax_compute expf s q1_0 q0 dt) = s.c * s.qmax
      ∧ (0 < I → (capacity_kibam_t.updateCapacity expf s I dt).I
        = min I (capacity_kibam_t.Idmax_compute expf s s.q1_0 s.q0 dt))
      ∧ (I < 0 → (capacity_kibam_t.updateCapacity expf s I dt).I
        = -(min |I| |capacity_kibam_t.Icmax_compute expf s s.q1_0 s.q0 dt|)) := by
  have hD : 1 - expf (-s.k * dt) + s.c * (s.k * dt - 1 + expf (-s.k * dt)) ≠ 0 := by
    have h1 : 0 < 1 - expf (-s.k * dt) := by linarith
    have h2 : 0 < s.c * (s.k * dt - 1 + expf (-s.k * dt)) := mul_pos hc0 (by linarith)
    linarith
  have hk0 : s.k ≠ 0 := ne_of_gt hk
  refine ⟨?_, ?_, ?_, ?_⟩
  · unfold capacity_kibam_t.q1_compute capacity_kibam_t.Idmax_compute
    dsimp only
    generalize expf (-s.k * dt) = e at hD
    field_simp
    ring
  · unfold capacity_kibam_t.q1_compute capacity_kibam_t.Icmax_compute
    dsimp only
    generalize expf (-s.k * dt) = e at hD
    field_simp
    ring
  · intro hI
    rw [(kibam_updateCapacity_current expf s I dt).1]
    unfold capacity_kibam_t.limited_current
    rw [if_pos hI]
  · intro hI
    rw [(kibam_updateCapacity_current expf s I dt).1]
    unfold capacity_kibam_t.limited_current
    rw [if_neg (not_lt.mpr (le_of_lt hI)), if_pos hI]

theorem kibam_limit_currents_witness :
    capacity_kibam_t.q1_compute exp_approx kibam_example 50 100 1
        (capacity_kibam_t.Idmax_compute exp_approx kibam_example 50 100 1) = 0
      ∧ capacity_kibam_t.q1_compute exp_approx kibam_example 50 100 1
        (capacity_kibam_t.Icmax_compute exp_approx kibam_example 50 100 1)
        = kibam_example.c * kibam_example.qmax :=
  have h := kibam_limit_currents exp_approx kibam_example 50 100 5 1 (by decide!) (by decide!)
    (by decide!) (by decide!) (by decide!) (by decide!)
  ⟨h.1, h.2.1⟩

/-- C34: for `k ≠ 0` and tanks that sum to the total charge, the closed forms
conserve the charge, `q1_compute + q2_compute = q0 - I * dt` for every current
`I`; hence after `updateCapacity` without the rescale to `qmax` the new total
is `q0 - I_used * dt` for the current `I_used` that `I()` reports. -/
theorem kibam_charge_conservation (expf : ℚ → ℚ) (s : capacity_kibam_t) (q1_0 q2_0 q0 I dt : ℚ)
    (hk : s.k ≠ 0) (hq : q1_0 + q2_0 = q0) :
    capacity_kibam_t.q1_compute expf s q1_0 q0 dt I
        + capacity_kibam_t.q2_compute expf s q2_0 q0 dt I = q0 - I * dt
      ∧ (s.q1_0 + s.q2_0 = s.q0 →
        ¬ (capacity_kibam_t.advanced_tanks expf s I dt).1
          + (capacity_kibam_t.advanced_tanks expf s I dt).2 > s.qmax →
        (capacity_kibam_t.updateCapacity expf s I dt).q0
          = s.q0 - (capacity_kibam_t.updateCapacity expf s I dt).I * dt) := by
  have key : ∀ a b q J : ℚ, a + b = q →
      capacity_kibam_t.q1_compute expf s a q dt J + capacity_kibam_t.q2_compute expf s b q dt J
        = q - J * dt := by
    intro a b q J hab
    unfold capacity_kibam_t.q1_compute capacity_kibam_t.q2_compute
    dsimp only
    rw [← hab]
    generalize expf (-s.k * dt) = e
    field_simp
    ring
  refine ⟨key q1_0 q2_0 q0 I hq, ?_⟩
  intro hs hno
  obtain ⟨e1, e2, _⟩ := kibam_updateCapacity_tanks expf s I dt
  obtain ⟨c1, c2⟩ := kibam_updateCapacity_current expf s I dt
  rw [(kibam_updateCapacity_charge expf s I dt).1, e1, e2, if_neg hno, if_neg hno, c1, c2]
  exact key s.q1_0 s.q2_0 s.q0 _ hs

theorem kibam_charge_conservation_witness :
    capacity_kibam_t.q1_compute exp_approx kibam_example 50 100 1 5
        + capacity_kibam_t.q2_compute exp_approx kibam_example 50 100 1 5 = 100 - 5 * 1
      ∧ (capacity_kibam_t.updateCapacity exp_approx kibam_example 5 1).q0
        = kibam_example.q0 - (capacity_kibam_t.updateCapacity exp_approx kibam_example 5 1).I * 1 :=
  have h := kibam_charge_conservation exp_approx kibam_example 50 50 100 5 1 (by decide!)
    (by decide!)
  ⟨h.1, h.2 (by decide!) (by decide!)⟩

/-! ### The thermal step -/

/-- The value of `thermal_t::trapezoidal` times its divisor. -/
theorem trapezoidal_mul (s : thermal_t) (I dt : ℚ)
    (h : 1 + 1 / 2 * dt * (1 / (s.mass * s.Cp)) * (s.h * s.A) ≠ 0) :
    s.trapezoidal I dt * (1 + 1 / 2 * dt * (1 / (s.mass * s.Cp)) * (s.h * s.A))
      = s.T_battery + 1 / 2 * dt
        * (s.f s.T_battery I + 1 / (s.mass * s.Cp) * (s.h * s.A * s.T_room + I ^ 2 * s.R)) := by
  unfold thermal_t.trapezoidal
  dsimp only
  exact div_mul_cancel₀ _ h

/-- C32: when `1 + 0.5 * s * h * A / (mass * Cp)` is not zero for the step
length `s = dt * 3600` seconds, the temperature `T'` after
`updateTemperature(I, R, dt)` satisfies the trapezoidal-rule equation
`T' = T + (s / 2) * (f(T, I) + f(T', I))` of the heat balance, `f` taken with
the resistance `R` of the step. -/
theorem trapezoidal_rule (s : thermal_t) (I R dt : ℚ)
    (h : 1 + (1 / 2) * (dt * 3600) * s.h * s.A / (s.mass * s.Cp) ≠ 0) :
    (s.updateTemperature I R dt).T_battery
        = s.T_battery + (dt * 3600 / 2)
          * ((s.updateTemperature I R dt).f s.T_battery I
            + (s.updateTemperature I R dt).f (s.updateTemperature I R dt).T_battery I)
      ∧ ∀ T : ℚ, (s.updateTemperature I R dt).f T I
        = (s.h * s.A * (s.T_room - T) + I ^ 2 * R) / (s.mass * s.Cp) := by
  have hDn : 1 + 1 / 2 * (dt * 3600) * (1 / (s.mass * s.Cp)) * (s.h * s.A) ≠ 0 := by
    intro h3
    apply h
    rw [← h3]
    ring
  have hT := trapezoidal_mul { s with R := R } I (dt * 3600) hDn
  unfold thermal_t.updateTemperature thermal_t.HR2SEC
  dsimp only at hT ⊢
  generalize thermal_t.trapezoidal { s with R := R } I (dt * 3600) = T1 at hT ⊢
  unfold thermal_t.f at hT ⊢
  dsimp only at hT ⊢
  constructor
  · linear_combination hT
  · intro T
    ring

theorem trapezoidal_rule_witness :
    (thermal_example.updateTemperature 10 (1 / 100) 1).T_battery
      = thermal_example.T_battery + ((1 : ℚ) * 3600 / 2)
        * ((thermal_example.updateTemperature 10 (1 / 100) 1).f thermal_example.T_battery 10
          + (thermal_example.updateTemperature 10 (1 / 100) 1).f
            (thermal_example.updateTemperature 10 (1 / 100) 1).T_battery 10) :=
  (trapezoidal_rule thermal_example 10 (1 / 100) 1 (by decide!)).1

/-! ### Battery flows of a dispatch step -/

/-- C39: after `compute_grid_net` entered with `pv_to_batt ≥ 0`, the PV share
of the battery energy is at most `|e_tofrom_batt|` and the PV and grid shares
sum to `|e_tofrom_batt|`, whatever the direction of the battery; on a
discharging step (`e_tofrom_batt > 0`, `pv_to_batt = 0`) `grid_to_batt` is the
discharged energy and not 0. -/
theorem grid_net_battery_shares (s : dispatch_t) (e_gen e_load : ℚ) (h : 0 ≤ s.pv_to_batt) :
    0 ≤ (s.compute_grid_net e_gen e_load).pv_to_batt
      ∧ (s.compute_grid_net e_gen e_load).pv_to_batt
        ≤ |(s.compute_grid_net e_gen e_load).e_tofrom_batt|
      ∧ (s.compute_grid_net e_gen e_load).pv_to_batt
          + (s.compute_grid_net e_gen e_load).grid_to_batt
        = |(s.compute_grid_net e_gen e_load).e_tofrom_batt|
      ∧ (s.compute_grid_net e_gen e_load).e_tofrom_batt = s.e_tofrom_batt
      ∧ (s.e_tofrom_batt > 0 → s.pv_to_batt = 0 →
        (s.compute_grid_net e_gen e_load).grid_to_batt = s.e_tofrom_batt
          ∧ (s.compute_grid_net e_gen e_load).grid_to_batt ≠ 0) := by
  unfold dispatch_t.compute_grid_net
  dsimp only
  refine ⟨?_, ?_, ?_, rfl, ?_⟩
  · split_ifs
    · exact abs_nonneg _
    · exact h
    · exact h
  · split_ifs with h1 h2
    · exact le_refl _
    · exact not_lt.mp h2
    · have : s.pv_to_batt = 0 := le_antisymm (not_lt.mp h1) h
      rw [this]
      exact abs_nonneg _
  · ring
  · intro he hp
    rw [hp, if_neg (lt_irrefl 0), abs_of_pos he]
    exact ⟨by ring, by linarith⟩

theorem grid_net_battery_shares_witness :
    0 ≤ dispatch_example.pv_to_batt
      ∧ (dispatch_example.compute_grid_net 3 1).pv_to_batt
          + (dispatch_example.compute_grid_net 3 1).grid_to_batt
        = |(dispatch_example.compute_grid_net 3 1).e_tofrom_batt| :=
  ⟨by decide!, (grid_net_battery_shares dispatch_example 3 1 (by decide!)).2.2.1⟩

/-- The battery energy that `total_loss` leaves. -/
theorem total_loss_energy (s : dispatch_t) (I V Vn : ℚ) :
    (s.total_loss I V Vn).e_tofrom_batt
        = s.e_tofrom_batt
          - (s.I_loss + |I - I * (s.conversion_efficiency * (1 / 100))|)
            * ((1 / 2) * (V + Vn) * s.dt_hour * watt_to_kilowatt)
      ∧ (s.total_loss I V Vn).charging = s.charging
      ∧ (s.total_loss I V Vn).dc_dc = s.dc_dc
      ∧ (s.total_loss I V Vn).ac_dc = s.ac_dc
      ∧ (s.total_loss I V Vn).dc_ac = s.dc_ac := by
  unfold dispatch_t.total_loss dispatch_t.conversion_loss_in dispatch_t.conversion_loss_out
    dispatch_t.conversion_efficiency
  dsimp only
  split_ifs <;> exact ⟨rfl, rfl, rfl, rfl, rfl⟩

/-- `compute_grid_net` changes neither the battery energy of the step nor the
members that select the conversion efficiency. -/
theorem compute_grid_net_energy (s : dispatch_t) (e_gen e_load : ℚ) :
    (s.compute_grid_net e_gen e_load).e_tofrom_batt = s.e_tofrom_batt
      ∧ (s.compute_grid_net e_gen e_load).conversion_efficiency = s.conversion_efficiency
      ∧ (s.compute_grid_net e_gen e_load).dt_hour = s.dt_hour :=
  ⟨rfl, rfl, rfl⟩

/-- The request of `dispatch` leaves the conversion loss at the 0 of the
reset. -/
theorem dispatch_request_I_loss (him : Int → Int) (tolerance : ℚ) (s : dispatch_manual_t)
    (B : battery_view) (hoy step : Int) (e_pv e_load : ℚ) :
    (dispatch_manual_t.dispatch_request him tolerance s B hoy step e_pv e_load).I_loss = 0 := by
  unfold dispatch_manual_t.dispatch_request dispatch_manual_t.dispatch_choose
  dsimp only
  split_ifs <;> rfl

/-- The request of `dispatch` does not change the timestep. -/
theorem dispatch_request_dt_hour (him : Int → Int) (tolerance : ℚ) (s : dispatch_manual_t)
    (B : battery_view) (hoy step : Int) (e_pv e_load : ℚ) :
    (dispatch_manual_t.dispatch_request him tolerance s B hoy step e_pv e_load).dt_hour
      = s.dt_hour := by
  have hp : (dispatch_manual_t.dispatch_profile him s hoy step).dt_hour = s.dt_hour := by
    unfold dispatch_manual_t.dispatch_profile
    dsimp only
    split_ifs <;> rfl
  unfold dispatch_manual_t.dispatch_request dispatch_manual_t.dispatch_choose
  dsimp only
  rw [← hp]
  split_ifs <;> rfl

/-- `SOC_controller` changes neither the conversion loss nor the timestep. -/
theorem SOC_controller_I_loss (d : dispatch_t) (V q qmax : ℚ) :
    (d.SOC_controller V q qmax).I_loss = d.I_loss
      ∧ (d.SOC_controller V q qmax).dt_hour = d.dt_hour := by
  unfold dispatch_t.SOC_controller
  dsimp only
  split_ifs <;> exact ⟨rfl, rfl⟩

/-- `switch_controller` changes neither the conversion loss nor the
timestep. -/
theorem switch_controller_I_loss (d : dispatch_t) :
    d.switch_controller.I_loss = d.I_loss ∧ d.switch_controller.dt_hour = d.dt_hour := by
  unfold dispatch_t.switch_controller
  dsimp only
  split_ifs <;> exact ⟨rfl, rfl⟩

/-- The request and the controllers of `dispatch` leave the conversion loss at
the 0 of the reset and do not change the timestep. -/
theorem dispatch_controlled_I_loss (him : Int → Int) (tolerance : ℚ) (s : dispatch_manual_t)
    (B : battery_view) (hoy step : Int) (e_pv e_load : ℚ) :
    (dispatch_manual_t.dispatch_controlled him tolerance s B hoy step e_pv e_load).I_loss = 0
      ∧ (dispatch_manual_t.dispatch_controlled him tolerance s B hoy step e_pv e_load).dt_hour
        = s.dt_hour := by
  unfold dispatch_manual_t.dispatch_controlled
  dsimp only
  rw [(switch_controller_I_loss _).1, (switch_controller_I_loss _).2,
    (SOC_controller_I_loss _ _ _ _).1, (SOC_controller_I_loss _ _ _ _).2]
  exact ⟨dispatch_request_I_loss him tolerance s B hoy step e_pv e_load,
    dispatch_request_dt_hour him tolerance s B hoy step e_pv e_load⟩

/-- The battery energy after the last part of `dispatch`, in terms of the state
that enters it. -/
theorem dispatch_account_energy (d : dispatch_t) (V I Vn e_pv e_load : ℚ) :
    (dispatch_manual_t.dispatch_account d V I Vn e_pv e_load).e_tofrom_batt
      = I * (1 / 2) * (V + Vn) * d.dt_hour * watt_to_kilowatt
        - (d.I_loss + |I - I * (d.conversion_efficiency * (1 / 100))|)
          * ((1 / 2) * (V + Vn) * d.dt_hour * watt_to_kilowatt) := by
  unfold dispatch_manual_t.dispatch_account
  dsimp only
  have t := (total_loss_energy ({ d with e_tofrom_batt := I * (1 / 2) * (V + Vn) * d.dt_hour
    * watt_to_kilowatt } : dispatch_t) I V Vn).1
  have e : ({ d with e_tofrom_batt := I * (1 / 2) * (V + Vn) * d.dt_hour
      * watt_to_kilowatt } : dispatch_t).conversion_efficiency = d.conversion_efficiency := rfl
  rw [e] at t
  dsimp only at t
  generalize ({ d with e_tofrom_batt := I * (1 / 2) * (V + Vn) * d.dt_hour
    * watt_to_kilowatt } : dispatch_t).total_loss I V Vn = d2 at t ⊢
  have c := (compute_efficiency_fields d2).2.2.2.2.1
  have g := (generation_fractions_shares d2.compute_efficiency e_pv).2.2.2.1
  split_ifs
  · rw [(compute_grid_net_energy _ _ _).1, g, c, t]
  · rw [g, c, t]

/-- C40: for a manual dispatch step with the realized battery current `I`, the
mean voltage `Vm = 0.5 * (V_before + V_after) ≥ 0` and the applicable
conversion efficiency `eta` in `[0, 100]` % (`dc_dc` when DC-coupled, otherwise
`ac_dc` when the charging flag is set and `dc_ac` when it is not), the battery
energy reported after the step is `I * Vm * dt / 1000 * (eta / 100)` when
`I > 0` and `I * Vm * dt / 1000 * (2 - eta / 100)` when `I < 0`: one efficiency
multiplier, applied to the energy and not to the current that went to the
battery. -/
theorem dispatch_energy_after_loss (him : Int → Int) (tolerance : ℚ) (s : dispatch_manual_t)
    (B : battery_view) (hoy step : Int) (e_pv e_load : ℚ)
    (_hVm : 0 ≤ (1 / 2) * (B.battery_voltage
      + (dispatch_manual_t.dispatch_realized him tolerance s B hoy step e_pv e_load).2))
    (_h0 : 0 ≤ (dispatch_manual_t.dispatch_controlled him tolerance s B hoy step e_pv
      e_load).conversion_efficiency)
    (h100 : (dispatch_manual_t.dispatch_controlled him tolerance s B hoy step e_pv
      e_load).conversion_efficiency ≤ 100) :
    (0 < (dispatch_manual_t.dispatch_realized him tolerance s B hoy step e_pv e_load).1 →
        (dispatch_manual_t.dispatch him tolerance s B hoy step e_pv e_load).e_tofrom_batt
          = (dispatch_manual_t.dispatch_realized him tolerance s B hoy step e_pv e_load).1
            * ((1 / 2) * (B.battery_voltage
              + (dispatch_manual_t.dispatch_realized him tolerance s B hoy step e_pv e_load).2))
            * s.dt_hour / 1000
            * ((dispatch_manual_t.dispatch_controlled him tolerance s B hoy step e_pv
              e_load).conversion_efficiency / 100))
      ∧ ((dispatch_manual_t.dispatch_realized him tolerance s B hoy step e_pv e_load).1 < 0 →
        (dispatch_manual_t.dispatch him tolerance s B hoy step e_pv e_load).e_tofrom_batt
          = (dispatch_manual_t.dispatch_realized him tolerance s B hoy step e_pv e_load).1
            * ((1 / 2) * (B.battery_voltage
              + (dispatch_manual_t.dispatch_realized him tolerance s B hoy step e_pv e_load).2))
            * s.dt_hour / 1000
            * (2 - (dispatch_manual_t.dispatch_controlled him tolerance s B hoy step e_pv
              e_load).conversion_efficiency / 100)) := by
  obtain ⟨hI, hdt⟩ := dispatch_controlled_I_loss him tolerance s B hoy step e_pv e_load
  have hd : (dispatch_manual_t.dispatch him tolerance s B hoy step e_pv e_load).e_tofrom_batt
      = (dispatch_manual_t.dispatch_account
          (dispatch_manual_t.dispatch_controlled him tolerance s B hoy step e_pv
            e_load).todispatch_t B.battery_voltage
          (dispatch_manual_t.dispatch_realized him tolerance s B hoy step e_pv e_load).1
          (dispatch_manual_t.dispatch_realized him tolerance s B hoy step e_pv e_load).2
          e_pv e_load).e_tofrom_batt := rfl
  rw [hd, dispatch_account_energy]
  have hI' : (dispatch_manual_t.dispatch_controlled him tolerance s B hoy step e_pv
      e_load).todispatch_t.I_loss = 0 := hI
  have hdt' : (dispatch_manual_t.dispatch_controlled him tolerance s B hoy step e_pv
      e_load).todispatch_t.dt_hour = s.dt_hour := hdt
  rw [hI', hdt']
  generalize (dispatch_manual_t.dispatch_controlled him tolerance s B hoy step e_pv
    e_load).todispatch_t.conversion_efficiency = eta at h100 ⊢
  generalize (dispatch_manual_t.dispatch_realized him tolerance s B hoy step e_pv e_load).1 = I
  generalize (dispatch_manual_t.dispatch_realized him tolerance s B hoy step e_pv e_load).2 = Vn
  unfold watt_to_kilowatt
  have hfac : 0 ≤ 1 - eta * (1 / 100) := by linarith
  constructor
  · intro hpos
    have e : I - I * (eta * (1 / 100)) = I * (1 - eta * (1 / 100)) := by ring
    rw [e, abs_of_nonneg (mul_nonneg (le_of_lt hpos) hfac)]
    ring
  · intro hneg
    have e : I - I * (eta * (1 / 100)) = I * (1 - eta * (1 / 100)) := by ring
    rw [e, abs_of_nonpos (mul_nonpos_of_nonpos_of_nonneg (le_of_lt hneg) hfac)]
    ring

theorem dispatch_energy_after_loss_witness :
    (dispatch_manual_t.dispatch hours_in_month_table (1 / 1000) manual_example battery_example
        0 0 0 1).e_tofrom_batt
      = (dispatch_manual_t.dispatch_realized hours_in_month_table (1 / 1000) manual_example
          battery_example 0 0 0 1).1
        * ((1 / 2) * (battery_example.battery_voltage
          + (dispatch_manual_t.dispatch_realized hours_in_month_table (1 / 1000) manual_example
            battery_example 0 0 0 1).2))
        * manual_example.dt_hour / 1000
        * ((dispatch_manual_t.dispatch_controlled hours_in_month_table (1 / 1000) manual_example
          battery_example 0 0 0 1).conversion_efficiency / 100) :=
  (dispatch_energy_after_loss hours_in_month_table (1 / 1000) manual_example battery_example
    0 0 0 1 (by decide!) (by decide!) (by decide!)).1 (by decide!)

/-! ### Direction changes of the capacity model -/

/-- What `check_charge_change` reports and remembers, for a remembered
direction that is a direction. -/
theorem check_charge_change_direction (s : capacity_t)
    (hp : s.prev_charge ≠ ChargeMode.NO_CHARGE) :
    (s.check_charge_change.chargeChange = true
        ↔ s.I ≠ 0 ∧ current_direction s.I ≠ s.prev_charge)
      ∧ s.check_charge_change.prev_charge
        = (if s.I = 0 then s.prev_charge else current_direction s.I)
      ∧ s.check_charge_change.prev_charge ≠ ChargeMode.NO_CHARGE := by
  unfold capacity_t.check_charge_change current_direction
  dsimp only
  rcases lt_trichotomy s.I 0 with h | h | h
  · have hne : s.I ≠ 0 := ne_of_lt h
    simp only [h, if_true, hne, if_false]
    by_cases hc : ChargeMode.CHARGE = s.prev_charge
    · simp [hc.symm]
    · simp [hc, hp, hne]
  · simp [h, hp]
  · have hne : s.I ≠ 0 := ne_of_gt h
    have hn : ¬ s.I < 0 := not_lt.mpr (le_of_lt h)
    simp only [hn, h, if_true, hne, if_false]
    by_cases hc : ChargeMode.DISCHARGE = s.prev_charge
    · simp [hc.symm]
    · simp [hc, hp, hne]

/-- A call of `updateCapacity` ends with the direction check on a state that
still carries the remembered direction of the model. -/
theorem updateCapacity_ends_with_check (expf : ℚ → ℚ) (c : capacity_object) (I dt : ℚ) :
    ∃ X : capacity_t, (c.updateCapacity expf I dt).base = X.check_charge_change
      ∧ X.prev_charge = c.base.prev_charge := by
  cases c with
  | lithium_ion s =>
    unfold capacity_object.updateCapacity capacity_object.base
      capacity_lithium_ion_t.updateCapacity
    dsimp only
    refine ⟨_, rfl, ?_⟩
    unfold capacity_t.update_SOC
    dsimp only
    split_ifs <;> rfl
  | kibam s =>
    unfold capacity_object.updateCapacity capacity_object.base capacity_kibam_t.updateCapacity
    dsimp only
    refine ⟨_, rfl, ?_⟩
    unfold capacity_t.update_SOC
    dsimp only
    split_ifs <;> rfl

/-- One `updateCapacity` call: the change flag and the remembered direction
after it, in terms of the realized current. -/
theorem updateCapacity_direction (expf : ℚ → ℚ) (c : capacity_object) (I dt : ℚ)
    (hp : c.base.prev_charge ≠ ChargeMode.NO_CHARGE) :
    ((c.updateCapacity expf I dt).base.chargeChange = true
        ↔ (c.updateCapacity expf I dt).base.I ≠ 0
          ∧ current_direction (c.updateCapacity expf I dt).base.I ≠ c.base.prev_charge)
      ∧ (c.updateCapacity expf I dt).base.prev_charge
        = (if (c.updateCapacity expf I dt).base.I = 0 then c.base.prev_charge
          else current_direction (c.updateCapacity expf I dt).base.I)
      ∧ (c.updateCapacity expf I dt).base.prev_charge ≠ ChargeMode.NO_CHARGE := by
  obtain ⟨X, hX, hprev⟩ := updateCapacity_ends_with_check expf c I dt
  have hI : X.check_charge_change.I = X.I := (check_charge_change_fields X).2.2.2.2.2.2
  rw [hX, hI, ← hprev]
  exact check_charge_change_direction X (by rw [hprev]; exact hp)

/-- The direction that the model remembers after a sequence of `updateCapacity`
calls is the direction of the most recent realized current that is not
zero. -/
theorem run_steps_direction (expf : ℚ → ℚ) (steps : List (ℚ × ℚ)) :
    ∀ c : capacity_object, c.base.prev_charge ≠ ChargeMode.NO_CHARGE →
      (c.run_steps expf steps).base.prev_charge
          = remembered_direction c.base.prev_charge (c.realized_currents expf steps)
        ∧ (c.run_steps expf steps).base.prev_charge ≠ ChargeMode.NO_CHARGE := by
  induction steps with
  | nil =>
    intro c hp
    exact ⟨rfl, hp⟩
  | cons x rest ih =>
    intro c hp
    obtain ⟨-, h2, h3⟩ := updateCapacity_direction expf c x.1 x.2 hp
    obtain ⟨i1, i2⟩ := ih (c.updateCapacity expf x.1 x.2) h3
    have e : c.run_steps expf (x :: rest)
        = (c.updateCapacity expf x.1 x.2).run_steps expf rest := rfl
    rw [e]
    refine ⟨?_, i2⟩
    rw [i1, h2]
    rfl

/-- C37: for a capacity model of either variant as constructed (remembered
direction: discharge) and every sequence of `updateCapacity` calls,
`chargeChanged()` is true after a further call exactly when the realized
current of that call is not zero and its direction differs from the direction
of the most recent earlier call with a realized current that is not zero,
discharge when there is none; a call with zero realized current reports no
change and leaves the remembered direction as it was. -/
theorem chargeChanged_iff (expf : ℚ → ℚ) (c : capacity_object) (steps : List (ℚ × ℚ))
    (I dt : ℚ) (hc : c.base.prev_charge = ChargeMode.DISCHARGE) :
    (((c.run_steps expf steps).updateCapacity expf I dt).base.chargeChange = true
        ↔ ((c.run_steps expf steps).updateCapacity expf I dt).base.I ≠ 0
          ∧ current_direction ((c.run_steps expf steps).updateCapacity expf I dt).base.I
            ≠ remembered_direction ChargeMode.DISCHARGE (c.realized_currents expf steps))
      ∧ (((c.run_steps expf steps).updateCapacity expf I dt).base.I = 0 →
        ((c.run_steps expf steps).updateCapacity expf I dt).base.chargeChange = false
          ∧ ((c.run_steps expf steps).updateCapacity expf I dt).base.prev_charge
            = (c.run_steps expf steps).base.prev_charge)
      ∧ (c.run_steps expf steps).base.prev_charge
        = remembered_direction ChargeMode.DISCHARGE (c.realized_currents expf steps) := by
  have hp : c.base.prev_charge ≠ ChargeMode.NO_CHARGE := by
    rw [hc]
    decide
  obtain ⟨r1, r2⟩ := run_steps_direction expf steps c hp
  rw [hc] at r1
  obtain ⟨u1, u2, -⟩ := updateCapacity_direction expf (c.run_steps expf steps) I dt r2
  rw [r1] at u1
  refine ⟨u1, ?_, r1⟩
  intro h0
  constructor
  · cases hcc : ((c.run_steps expf steps).updateCapacity expf I dt).base.chargeChange with
    | false => rfl
    | true => exact absurd h0 (u1.mp hcc).1
  · rw [u2, if_pos h0]

theorem chargeChanged_iff_witness :
    (capacity_object.lithium_ion lithium_example).base.prev_charge = ChargeMode.DISCHARGE
      ∧ ((((capacity_object.lithium_ion lithium_example).run_steps exp_approx
            [(5, 1), (0, 1)]).updateCapacity exp_approx (-5) 1).base.chargeChange = true
        ↔ (((capacity_object.lithium_ion lithium_example).run_steps exp_approx
              [(5, 1), (0, 1)]).updateCapacity exp_approx (-5) 1).base.I ≠ 0
          ∧ current_direction (((capacity_object.lithium_ion lithium_example).run_steps exp_approx
              [(5, 1), (0, 1)]).updateCapacity exp_approx (-5) 1).base.I
            ≠ remembered_direction ChargeMode.DISCHARGE
              ((capacity_object.lithium_ion lithium_example).realized_currents exp_approx
                [(5, 1), (0, 1)])) :=
  ⟨by decide!, (chargeChanged_iff exp_approx (capacity_object.lithium_ion lithium_example)
    [(5, 1), (0, 1)] (-5) 1 (by decide!)).1⟩

/-! ### The peak buffer of the rainflow count -/

/-- A list of at most two samples has no interior index. -/
theorem ranges_strictly_decreasing_short (xs : List ℚ) (h : xs.length ≤ 2) :
    ranges_strictly_decreasing xs := by
  intro i hi
  omega

/-- Reading a list below its last position is reading the list without its
last element. -/
theorem getD_dropLast (xs : List ℚ) (j : ℕ) (hj : j < xs.dropLast.length) :
    xs.getD j 0 = xs.dropLast.getD j 0 := by
  have hne : xs ≠ [] := by
    intro h
    rw [h] at hj
    simp at hj
  conv_lhs => rw [← List.dropLast_append_getLast hne]
  exact List.getD_append _ _ _ _ hj

/-- Dropping the last sample keeps strictly decreasing ranges. -/
theorem ranges_strictly_decreasing_dropLast (xs : List ℚ) (h : ranges_strictly_decreasing xs) :
    ranges_strictly_decreasing xs.dropLast := by
  by_cases hne : xs = []
  · rw [hne]
    exact ranges_strictly_decreasing_short _ (by simp)
  · exact ranges_strictly_decreasing_init xs.dropLast (xs.getLast hne)
      (by rw [List.dropLast_append_getLast hne]; exact h)

/-- Strictly decreasing ranges up to the last sample, and a last range below
the one before it, are strictly decreasing ranges throughout. -/
theorem ranges_strictly_decreasing_last (xs : List ℚ) (h3 : 3 ≤ xs.length)
    (hd : ranges_strictly_decreasing xs.dropLast)
    (hl : |xs.getD (xs.length - 3 + 2) 0 - xs.getD (xs.length - 3 + 1) 0|
      < |xs.getD (xs.length - 3 + 1) 0 - xs.getD (xs.length - 3) 0|) :
    ranges_strictly_decreasing xs := by
  intro i hi
  by_cases hlast : i = xs.length - 3
  · rw [hlast]
    exact hl
  · have hlen : xs.dropLast.length = xs.length - 1 := List.length_dropLast xs
    have h1 := hd i (by omega)
    rw [← getD_dropLast xs (i + 2) (by omega), ← getD_dropLast xs (i + 1) (by omega),
      ← getD_dropLast xs i (by omega)] at h1
    exact h1

/-- The loop of `rainflow`, entered with `_jlt` at the last position of the
buffer and strictly decreasing ranges before the last sample, leaves `_jlt` at
the last position of the buffer and strictly decreasing ranges throughout. -/
theorem rainflow_loop_buffer (bilinear : ℚ → Int → ℚ) (n : ℕ) :
    ∀ s : lifetime_t, s.jlt + 1 = s.Peaks.length →
      ranges_strictly_decreasing s.Peaks.dropLast → s.jlt.toNat ≤ n →
      (lifetime_t.rainflow_loop bilinear n s).1.jlt + 1
          = (lifetime_t.rainflow_loop bilinear n s).1.Peaks.length
        ∧ ranges_strictly_decreasing (lifetime_t.rainflow_loop bilinear n s).1.Peaks := by
  induction n with
  | zero =>
    intro s hj hd hn
    unfold lifetime_t.rainflow_loop
    exact ⟨hj, ranges_strictly_decreasing_short s.Peaks (by omega)⟩
  | succ n ih =>
    intro s hj hd hn
    unfold lifetime_t.rainflow_loop
    dsimp only
    by_cases h1 : s.jlt ≥ 2
    · rw [if_pos h1]
      obtain ⟨-, f2, f3, -, -, f6, f7⟩ := rainflow_ranges_fields s
      by_cases hlt : s.rainflow_ranges.Xlt < s.rainflow_ranges.Ylt
      · rw [rainflow_compareRanges_lt bilinear _ hlt]
        dsimp only
        rw [if_pos rfl]
        dsimp only
        rw [f2, f3]
        refine ⟨hj, ranges_strictly_decreasing_last _ (by omega) hd ?_⟩
        rw [f6, f7] at hlt
        unfold lifetime_t.peak at hlt
        have e0 : s.jlt.toNat = s.Peaks.length - 3 + 2 := by omega
        have e1 : (s.jlt - 1).toNat = s.Peaks.length - 3 + 1 := by omega
        have e2 : (s.jlt - 2).toNat = s.Peaks.length - 3 := by omega
        rw [e0, e1, e2] at hlt
        exact hlt
      · obtain ⟨c1, c2, -, -, c5⟩ := rainflow_compareRanges_count bilinear _ hlt
        rw [if_neg (by rw [c1]; decide)]
        apply ih
        · rw [c2, c5, f2, f3]
          simp only [List.length_append, List.length_dropLast, List.length_singleton]
          omega
        · rw [c5, List.dropLast_concat, f3]
          exact ranges_strictly_decreasing_dropLast _
            (ranges_strictly_decreasing_dropLast _ hd)
        · rw [c2, f2]
          omega
    · rw [if_neg h1]
      exact ⟨hj, ranges_strictly_decreasing_short s.Peaks (by omega)⟩

/-- A `rainflow` call keeps the buffer invariant. -/
theorem rainflow_buffer (bilinear : ℚ → Int → ℚ) (s : lifetime_t) (DOD : ℚ)
    (hj : s.jlt = s.Peaks.length) (hd : ranges_strictly_decreasing s.Peaks) :
    (lifetime_t.rainflow bilinear s DOD).jlt = (lifetime_t.rainflow bilinear s DOD).Peaks.length
      ∧ ranges_strictly_decreasing (lifetime_t.rainflow bilinear s DOD).Peaks := by
  rw [rainflow_eq]
  obtain ⟨h1, h2⟩ := rainflow_loop_buffer bilinear s.jlt.toNat { s with Peaks := s.Peaks ++ [DOD] }
    (by simp only [List.length_append, List.length_singleton]; push_cast; omega)
    (by simp only [List.dropLast_concat]; exact hd) (le_refl _)
  exact ⟨h1, h2⟩

/-- A `check_replaced` call keeps the buffer invariant. -/
theorem check_replaced_buffer (bilinear : ℚ → Int → ℚ) (s : lifetime_t)
    (hj : s.jlt = s.Peaks.length) (hd : ranges_strictly_decreasing s.Peaks) :
    (lifetime_t.check_replaced bilinear s).1.jlt
        = (lifetime_t.check_replaced bilinear s).1.Peaks.length
      ∧ ranges_strictly_decreasing (lifetime_t.check_replaced bilinear s).1.Peaks := by
  unfold lifetime_t.check_replaced
  split_ifs
  · exact ⟨rfl, ranges_strictly_decreasing_short _ (by simp)⟩
  · exact ⟨hj, hd⟩

/-- C35: in every state of a lifetime model, after construction, after every
`rainflow(DOD)` call and after every `check_replaced()` call (and the two
replacement requests, which do not touch the buffer), the peak index `_jlt`
equals the length of the peak buffer and the buffered peaks have strictly
decreasing consecutive ranges; so the next `rainflow` call reads the buffer in
range, and its loop, which lowers `_jlt` by 2 in every pass that stays, leaves
with `LT_GET_DATA`. -/
theorem rainflow_buffer_invariant (bilinear : ℚ → Int → ℚ) (table : List (ℚ × ℚ × ℚ))
    (o : Int) (t : ℚ) (s : lifetime_t) (h : lifetime_reachable bilinear table o t s) :
    s.jlt = s.Peaks.length ∧ ranges_strictly_decreasing s.Peaks
      ∧ ∀ DOD : ℚ, (lifetime_t.rainflow_loop bilinear s.jlt.toNat
          { s with Peaks := s.Peaks ++ [DOD] }).2 = RetCode.LT_GET_DATA := by
  have key : s.jlt = s.Peaks.length ∧ ranges_strictly_decreasing s.Peaks := by
    induction h with
    | constructed => exact ⟨rfl, ranges_strictly_decreasing_short _ (by simp [lifetime_t.mk0])⟩
    | rainflow s DOD _ ih => exact rainflow_buffer bilinear s DOD ih.1 ih.2
    | check_replaced s _ ih => exact check_replaced_buffer bilinear s ih.1 ih.2
    | force_replacement s _ ih => exact ih
    | reset_replacements s _ ih => exact ih
  exact ⟨key.1, key.2, fun DOD => rainflow_loop_code bilinear _ _⟩

theorem rainflow_buffer_invariant_witness :
    cycled_lifetime.jlt = cycled_lifetime.Peaks.length
      ∧ ranges_strictly_decreasing cycled_lifetime.Peaks :=
  have h := rainflow_buffer_invariant example_bilinear example_table 0 0 cycled_lifetime
    (lifetime_reachable.rainflow _ 0 (lifetime_reachable.rainflow _ 60
      (lifetime_reachable.rainflow _ 20 (lifetime_reachable.rainflow _ 100
        (lifetime_reachable.rainflow _ 0 lifetime_reachable.constructed)))))
  ⟨h.1, h.2.1⟩

/-! ### Profiles written by `update_dispatch` -/

/-- Every schedule entry after the loop of `set_discharge` is an entry from
before the loop or one of the profile numbers the loop assigned, which lie
above the entry value of `profile` and reach up to the returned one. -/
theorem set_discharge_loop_sched_range (him : Int → Int) (a : automate_dispatch_t) (hoy : Int)
    (P E_max : ℚ) (L : List grid_point) :
    ∀ (d : dispatch_manual_t) (p : Int),
      p ≤ (a.set_discharge_loop him hoy P E_max L d p).2
        ∧ ∀ r c : Int,
          (a.set_discharge_loop him hoy P E_max L d p).1.sched r c = d.sched r c
            ∨ (p < (a.set_discharge_loop him hoy P E_max L d p).1.sched r c
              ∧ (a.set_discharge_loop him hoy P E_max L d p).1.sched r c
                ≤ (a.set_discharge_loop him hoy P E_max L d p).2) := by
  induction L with
  | nil =>
    intro d p
    exact ⟨le_refl _, fun r c => Or.inl rfl⟩
  | cons g rest ih =>
    intro d p
    unfold automate_dispatch_t.set_discharge_loop
    dsimp only
    by_cases h : (g.Grid - P) * a.dt_hour > 0
    · rw [if_pos h]
      obtain ⟨i1, i2⟩ := ih
        { d with
          sched := sched_set_value d.sched (p + 1)
            (automate_dispatch_t.cell him a hoy g).1 (automate_dispatch_t.cell him a hoy g).2
          charge_array := d.charge_array ++ [true]
          discharge_array := d.discharge_array ++ [true]
          gridcharge_array := d.gridcharge_array ++ [false]
          percent_discharge_array := map_set d.percent_discharge_array (p + 1)
            (100 * ((g.Grid - P) * a.dt_hour / E_max))
          percent_charge_array := map_set d.percent_charge_array (p + 1) 100 } (p + 1)
      refine ⟨by omega, ?_⟩
      intro r c
      rcases i2 r c with e | ⟨e1, e2⟩
      · rw [e]
        dsimp only
        unfold sched_set_value
        by_cases hc : r = (automate_dispatch_t.cell him a hoy g).1
          ∧ c = (automate_dispatch_t.cell him a hoy g).2
        · rw [if_pos hc]
          right
          exact ⟨by omega, i1⟩
        · rw [if_neg hc]
          left
          trivial
      · right
        exact ⟨by omega, e2⟩
    · rw [if_neg h]
      exact ⟨le_refl _, fun r c => Or.inl rfl⟩

/-- What the second loop of `set_gridcharge` leaves: for some number `n` of
profiles, the returned profile number is `n` above the entry value, the three
flag arrays have grown by `n` triples (charge, no discharge, grid charge), and
every schedule entry is an entry from before the loop or one of the `n`
profile numbers from the entry value on. -/
theorem set_gridcharge_loop_shape (him : Int → Int) (a : automate_dispatch_t) (hoy : Int)
    (P E_max : ℚ) (L : List grid_point) :
    ∀ (d : dispatch_manual_t) (p : Int) (E : ℚ), ∃ n : ℕ,
      (a.set_gridcharge_loop him hoy P E_max L d p E).2.1 = p + n
        ∧ (a.set_gridcharge_loop him hoy P E_max L d p E).1.charge_array
          = d.charge_array ++ List.replicate n true
        ∧ (a.set_gridcharge_loop him hoy P E_max L d p E).1.discharge_array
          = d.discharge_array ++ List.replicate n false
        ∧ (a.set_gridcharge_loop him hoy P E_max L d p E).1.gridcharge_array
          = d.gridcharge_array ++ List.replicate n true
        ∧ ∀ r c : Int,
          (a.set_gridcharge_loop him hoy P E_max L d p E).1.sched r c = d.sched r c
            ∨ (p ≤ (a.set_gridcharge_loop him hoy P E_max L d p E).1.sched r c
              ∧ (a.set_gridcharge_loop him hoy P E_max L d p E).1.sched r c < p + n) := by
  induction L with
  | nil =>
    intro d p E
    exact ⟨0, by simp [automate_dispatch_t.set_gridcharge_loop]⟩
  | cons g rest ih =>
    intro d p E
    unfold automate_dispatch_t.set_gridcharge_loop
    dsimp only
    by_cases h : g.Grid > P
    · rw [if_pos h]
      exact ⟨0, by simp⟩
    · rw [if_neg h]
      by_cases h2 : 100 * ((P - g.Grid) * a.dt_hour) / E_max < 0
      · rw [if_pos h2]
        exact ⟨0, by simp⟩
      · rw [if_neg h2]
        obtain ⟨n, i1, i2, i3, i4, i5⟩ := ih
          { d with
            sched := sched_set_value d.sched p
              (automate_dispatch_t.cell him a hoy g).1 (automate_dispatch_t.cell him a hoy g).2
            charge_array := d.charge_array ++ [true]
            discharge_array := d.discharge_array ++ [false]
            gridcharge_array := d.gridcharge_array ++ [true]
            percent_charge_array := map_set d.percent_charge_array p
              (100 * ((P - g.Grid) * a.dt_hour) / E_max) } (p + 1)
          (E + (P - g.Grid) * a.dt_hour)
        refine ⟨n + 1, ?_, ?_, ?_, ?_, ?_⟩
        · rw [i1]
          push_cast
          ring
        · rw [i2]
          simp [List.replicate_succ]
        · rw [i3]
          simp [List.replicate_succ]
        · rw [i4]
          simp [List.replicate_succ]
        · intro r c
          rcases i5 r c with e | ⟨e1, e2⟩
          · rw [e]
            dsimp only
            unfold sched_set_value
            by_cases hc : r = (automate_dispatch_t.cell him a hoy g).1
              ∧ c = (automate_dispatch_t.cell him a hoy g).2
            · rw [if_pos hc]
              right
              push_cast
              constructor <;> omega
            · rw [if_neg hc]
              left
              trivial
          · right
            push_cast
            constructor <;> omega

/-- What `set_gridcharge` leaves, as for its second loop, started one above the
profile number it is given. -/
theorem set_gridcharge_shape (him : Int → Int) (a : automate_dispatch_t)
    (d : dispatch_manual_t) (hoy p : Int) (P E_max : ℚ) : ∃ n : ℕ,
    (a.set_gridcharge him d hoy p P E_max).charge_array
        = d.charge_array ++ List.replicate n true
      ∧ (a.set_gridcharge him d hoy p P E_max).discharge_array
        = d.discharge_array ++ List.replicate n false
      ∧ (a.set_gridcharge him d hoy p P E_max).gridcharge_array
        = d.gridcharge_array ++ List.replicate n true
      ∧ ∀ r c : Int,
        (a.set_gridcharge him d hoy p P E_max).sched r c = d.sched r c
          ∨ (p + 1 ≤ (a.set_gridcharge him d hoy p P E_max).sched r c
            ∧ (a.set_gridcharge him d hoy p P E_max).sched r c < p + 1 + n) := by
  unfold automate_dispatch_t.set_gridcharge automate_dispatch_t.set_gridcharge_run
  dsimp only
  by_cases h : automate_dispatch_t.surplus_energy a.dt_hour a.loads 0 < E_max
  · rw [if_pos h]
    obtain ⟨n, -, i2, i3, i4, i5⟩ := set_gridcharge_loop_shape him a hoy P E_max a.points.reverse d
      (p + 1) (automate_dispatch_t.surplus_energy a.dt_hour a.loads 0)
    exact ⟨n, i2, i3, i4, i5⟩
  · rw [if_neg h]
    exact ⟨0, by simp⟩

/-- C38: after an `update_dispatch` call that triggers (`hour_of_year % 24 = 0`
and an hour other than the last updated one), for the numbers `k` of discharge
profiles and `m` of grid-charge profiles the three flag arrays of the
dispatcher have the same length `L = 1 + k + m`; the flags are (charge, no
discharge, no grid charge) at index 0, (charge, discharge, no grid charge) at
the `k` indices after it and (charge, no discharge, grid charge) at the last
`m` indices; and every entry of the schedule is a profile number in `1..L`, so
that the index `iprofile - 1` read by `dispatch` is in range. -/
theorem update_dispatch_profiles (him : Int → Int)
    (sort_by_grid : List grid_point → List grid_point) (a : automate_dispatch_t)
    (d : dispatch_manual_t) (B : battery_view) (hoy idx : Int)
    (htrig : hoy % 24 = 0 ∧ hoy ≠ a.hour_last_updated) :
    ∃ k m : ℕ,
      (a.update_dispatch him sort_by_grid d B hoy idx).2.charge_array
          = List.replicate (1 + k + m) true
        ∧ (a.update_dispatch him sort_by_grid d B hoy idx).2.discharge_array
          = false :: (List.replicate k true ++ List.replicate m false)
        ∧ (a.update_dispatch him sort_by_grid d B hoy idx).2.gridcharge_array
          = false :: (List.replicate k false ++ List.replicate m true)
        ∧ (a.update_dispatch him sort_by_grid d B hoy idx).2.charge_array.length = 1 + k + m
        ∧ (a.update_dispatch him sort_by_grid d B hoy idx).2.discharge_array.length = 1 + k + m
        ∧ (a.update_dispatch him sort_by_grid d B hoy idx).2.gridcharge_array.length = 1 + k + m
        ∧ (∀ r c : Int, 1 ≤ (a.update_dispatch him sort_by_grid d B hoy idx).2.sched r c
          ∧ (a.update_dispatch him sort_by_grid d B hoy idx).2.sched r c ≤ 1 + (k : Int) + m)
        ∧ ∀ r c : Int, ((a.update_dispatch him sort_by_grid d B hoy idx).2.sched r c - 1).toNat
          < (a.update_dispatch him sort_by_grid d B hoy idx).2.charge_array.length := by
  unfold automate_dispatch_t.update_dispatch
  rw [if_pos htrig]
  dsimp only
  generalize automate_dispatch_t.sort_grid sort_by_grid (a.init_day d hoy).1 idx = a1
  generalize hd1 : automate_dispatch_t.set_charge (a.init_day d hoy).2 1 = d1
  have c1 : d1.charge_array = [true] ∧ d1.discharge_array = [false]
      ∧ d1.gridcharge_array = [false] ∧ ∀ r c : Int, d1.sched r c = 1 := by
    rw [← hd1]
    exact ⟨rfl, rfl, rfl, fun _ _ => rfl⟩
  generalize (automate_dispatch_t.compute_energy d1 B).1 = E_useful
  generalize (automate_dispatch_t.compute_energy d1 B).2 = E_max
  generalize a1.target_power E_useful = P
  obtain ⟨s1, s2, s3, s4⟩ := set_discharge_loop_arrays him a1 hoy P E_max a1.points d1 1
  obtain ⟨-, s5⟩ := set_discharge_loop_sched_range him a1 hoy P E_max a1.points d1 1
  generalize (a1.points.takeWhile (fun g => decide ((g.Grid - P) * a1.dt_hour > 0))).length = k
    at s1 s2 s3 s4
  have e : a1.set_discharge him d1 hoy P E_max
      = a1.set_discharge_loop him hoy P E_max a1.points d1 1 := rfl
  rw [e]
  generalize a1.set_discharge_loop him hoy P E_max a1.points d1 1 = r2 at s1 s2 s3 s4 s5 ⊢
  obtain ⟨m, g2, g3, g4, g5⟩ := set_gridcharge_shape him a1 r2.1 hoy r2.2 P E_max
  generalize a1.set_gridcharge him r2.1 hoy r2.2 P E_max = d3 at g2 g3 g4 g5 ⊢
  have hc : d3.charge_array = List.replicate (1 + k + m) true := by
    rw [g2, s2, c1.1, List.replicate_add, List.replicate_add]
    rfl
  have hdis : d3.discharge_array = false :: (List.replicate k true ++ List.replicate m false) := by
    rw [g3, s3, c1.2.1]
    simp
  have hg : d3.gridcharge_array = false :: (List.replicate k false ++ List.replicate m true) := by
    rw [g4, s4, c1.2.2.1]
    simp
  have hsched : ∀ r c : Int, 1 ≤ d3.sched r c ∧ d3.sched r c ≤ 1 + (k : Int) + m := by
    intro r c
    rcases g5 r c with e1 | ⟨e1, e2⟩
    · rw [e1]
      rcases s5 r c with e3 | ⟨e3, e4⟩
      · rw [e3, c1.2.2.2 r c]
        constructor <;> omega
      · constructor <;> omega
    · constructor <;> omega
  refine ⟨k, m, hc, hdis, hg, ?_, ?_, ?_, hsched, ?_⟩
  · rw [hc]
    simp
  · rw [hdis]
    simp
    omega
  · rw [hg]
    simp
    omega
  · intro r c
    rw [hc]
    have := hsched r c
    simp only [List.length_replicate]
    omega

theorem update_dispatch_profiles_witness :
    ∃ k m : ℕ,
      (forecast_example.update_dispatch hours_in_month_table id manual_example battery_example
          0 0).2.charge_array = List.replicate (1 + k + m) true
        ∧ ∀ r c : Int, 1 ≤ (forecast_example.update_dispatch hours_in_month_table id
            manual_example battery_example 0 0).2.sched r c
          ∧ (forecast_example.update_dispatch hours_in_month_table id manual_example
            battery_example 0 0).2.sched r c ≤ 1 + (k : Int) + m :=
  match update_dispatch_profiles hours_in_month_table id forecast_example manual_example
    battery_example 0 0 (by decide) with
  | ⟨k, m, h1, _, _, _, _, _, h7, _⟩ => ⟨k, m, h1, h7⟩

/-! ### The target of the forward scan -/

/-- The instrumented scan returns the target of `target_scan`. -/
theorem target_scan_exit_fst (g : List ℚ) (dt E : ℚ) (r : ℕ) :
    ∀ (ii : ℕ) (P sum : ℚ),
      (automate_dispatch_t.target_scan_exit g dt E r ii P sum).1
        = automate_dispatch_t.target_scan g dt E r ii P sum := by
  induction r with
  | zero =>
    intro ii P sum
    rfl
  | succ r ih =>
    intro ii P sum
    unfold automate_dispatch_t.target_scan_exit automate_dispatch_t.target_scan
    dsimp only
    split_ifs
    · rfl
    · exact ih _ _ _
    · exact ih _ _ _
    · rfl

/-- The sum of the first `n + 1` net loads; a net load read beyond the list
is 0. -/
theorem take_sum_succ (g : List ℚ) (n : ℕ) :
    (g.take (n + 1)).sum = (g.take n).sum + g.getD n 0 := by
  induction g generalizing n with
  | nil => simp
  | cons x rest ih =>
    cases n with
    | zero => simp
    | succ n =>
      simp only [List.take_succ_cons, List.sum_cons, List.getD_cons_succ]
      rw [ih n]
      ring

/-- The energy shaved from the first `n` net loads down to the power `P`. -/
theorem shaved_sum (g : List ℚ) (dt P : ℚ) (n : ℕ) :
    Finset.sum (Finset.range n) (fun j => (g.getD j 0 - P) * dt)
      = ((g.take n).sum - (n : ℚ) * P) * dt := by
  induction n with
  | zero => simp
  | succ n ih =>
    rw [Finset.sum_range_succ, ih, take_sum_succ]
    push_cast
    ring

/-- The scan, entered in pass `ii` with `sum` the energy shaved from the first
`ii` net loads down to `g[ii]` and below `E`, when it is left in pass `k`
through the branch for limited energy: the target lies between `g[k + 1]` and
`g[k]` and shaves exactly `E` from the first `k + 1` net loads. -/
theorem target_scan_exit_energy (g : List ℚ) (dt E : ℚ) (hdt : 0 < dt) (r : ℕ) :
    ∀ (ii : ℕ) (P sum P1 : ℚ) (k : ℕ),
      sum = ((g.take ii).sum - (ii : ℚ) * g.getD ii 0) * dt → sum < E →
      automate_dispatch_t.target_scan_exit g dt E r ii P sum = (P1, some k) →
      g.getD (k + 1) 0 ≤ P1 ∧ P1 < g.getD k 0
        ∧ ((g.take (k + 1)).sum - ((k : ℚ) + 1) * P1) * dt = E := by
  induction r with
  | zero =>
    intro ii P sum P1 k _ _ h
    unfold automate_dispatch_t.target_scan_exit at h
    cases h
  | succ r ih =>
    intro ii P sum P1 k hsum hlt h
    unfold automate_dispatch_t.target_scan_exit at h
    dsimp only at h
    by_cases h1 : g.getD (ii + 1) 0 < 0
    · rw [if_pos h1] at h
      cases h
    · rw [if_neg h1] at h
      by_cases h2 : g.getD ii 0 - g.getD (ii + 1) 0 = 0
      · rw [if_pos h2] at h
        refine ih (ii + 1) _ sum P1 k ?_ hlt h
        rw [hsum, take_sum_succ]
        push_cast
        have : g.getD ii 0 = g.getD (ii + 1) 0 := by linarith
        rw [← this]
        ring
      · rw [if_neg h2] at h
        have hs1 : sum + (g.getD ii 0 - g.getD (ii + 1) 0) * ((ii : ℚ) + 1) * dt
            = ((g.take (ii + 1)).sum - ((ii : ℚ) + 1) * g.getD (ii + 1) 0) * dt := by
          rw [hsum, take_sum_succ]
          ring
        by_cases h3 : sum + (g.getD ii 0 - g.getD (ii + 1) 0) * ((ii : ℚ) + 1) * dt < E
        · rw [if_pos h3] at h
          refine ih (ii + 1) _ _ P1 k ?_ h3 h
          rw [hs1]
          push_cast
          ring
        · rw [if_neg h3] at h
          simp only [Prod.mk.injEq, Option.some.injEq] at h
          obtain ⟨hP, hk⟩ := h
          subst hk
          have hpos : 0 < ((ii : ℚ) + 1) * dt := mul_pos (by positivity) hdt
          have hge : 0 ≤ (sum + (g.getD ii 0 - g.getD (ii + 1) 0) * ((ii : ℚ) + 1) * dt - E)
              / (((ii : ℚ) + 1) * dt) := div_nonneg (by linarith) (le_of_lt hpos)
          have hmul : (sum + (g.getD ii 0 - g.getD (ii + 1) 0) * ((ii : ℚ) + 1) * dt - E)
              / (((ii : ℚ) + 1) * dt) * (((ii : ℚ) + 1) * dt)
              = sum + (g.getD ii 0 - g.getD (ii + 1) 0) * ((ii : ℚ) + 1) * dt - E :=
            div_mul_cancel₀ _ (ne_of_gt hpos)
          generalize (sum + (g.getD ii 0 - g.getD (ii + 1) 0) * ((ii : ℚ) + 1) * dt - E)
            / (((ii : ℚ) + 1) * dt) = q at hP hge hmul
          rw [← hP]
          refine ⟨by linarith, ?_, ?_⟩
          · have : (g.getD (ii + 1) 0 + q - g.getD ii 0) * (((ii : ℚ) + 1) * dt) < 0 := by
              have e : (g.getD (ii + 1) 0 + q - g.getD ii 0) * (((ii : ℚ) + 1) * dt)
                  = sum - E := by
                linear_combination hmul
              rw [e]
              linarith
            by_contra hc
            have hnn : 0 ≤ (g.getD (ii + 1) 0 + q - g.getD ii 0) * (((ii : ℚ) + 1) * dt) :=
              mul_nonneg (by linarith) (le_of_lt hpos)
            linarith
          · linear_combination -hs1 - hmul

/-- C33: in `target_power` on its path without the fallback (timestep
positive, `E_useful > 0`), when the forward scan is left in the pass with index
`ii` because the accumulated shaved energy has reached `E_useful`, the target
`P` before the margin of 1 % satisfies `g[ii + 1] ≤ P ≤ g[ii]` and shaves
exactly the usable energy from the `ii + 1` highest sub-steps, the sum of
`(g[j] - P) * dt` over `j = 0..ii` being `E_useful`; the returned target is
`max (1.01 * P) P_target_min`. -/
theorem target_power_shaves_usable_energy (a : automate_dispatch_t) (E_useful P : ℚ) (ii : ℕ)
    (hdt : 0 < a.dt_hour) (hE : 0 < E_useful)
    (hnf : ¬ (a.target_min E_useful).1 < (7 / 10) * E_useful)
    (hexit : automate_dispatch_t.target_scan_exit a.loads a.dt_hour E_useful
      (a.num_steps.toNat - 1) 0 (a.loads.getD 0 0) 0 = (P, some ii)) :
    automate_dispatch_t.target_scan a.loads a.dt_hour E_useful (a.num_steps.toNat - 1) 0
        (a.loads.getD 0 0) 0 = P
      ∧ a.loads.getD (ii + 1) 0 ≤ P ∧ P ≤ a.loads.getD ii 0
      ∧ Finset.sum (Finset.range (ii + 1)) (fun j => (a.loads.getD j 0 - P) * a.dt_hour)
        = E_useful
      ∧ a.target_power E_useful = max ((1 + 1 / 100) * P) (a.target_min E_useful).2 := by
  have hP : automate_dispatch_t.target_scan a.loads a.dt_hour E_useful (a.num_steps.toNat - 1) 0
      (a.loads.getD 0 0) 0 = P := by
    rw [← target_scan_exit_fst, hexit]
  obtain ⟨h1, h2, h3⟩ := target_scan_exit_energy a.loads a.dt_hour E_useful hdt
    (a.num_steps.toNat - 1) 0 (a.loads.getD 0 0) 0 P ii (by simp) hE hexit
  refine ⟨hP, h1, le_of_lt h2, ?_, ?_⟩
  · rw [shaved_sum]
    push_cast
    exact h3
  · unfold automate_dispatch_t.target_power
    dsimp only
    rw [if_neg hnf, hP]
    by_cases hc : P + 1 / 100 * P < (a.target_min E_useful).2
    · rw [if_pos hc, max_eq_right]
      linarith
    · rw [if_neg hc, max_eq_left]
      · ring
      · linarith [not_lt.mp hc]

theorem target_power_shaves_usable_energy_witness :
    sharp_peak_day.loads.getD (0 + 1) 0 ≤ 5 ∧ (5 : ℚ) ≤ sharp_peak_day.loads.getD 0 0
      ∧ Finset.sum (Finset.range (0 + 1))
          (fun j => (sharp_peak_day.loads.getD j 0 - 5) * sharp_peak_day.dt_hour) = 5
      ∧ sharp_peak_day.target_power 5
        = max ((1 + 1 / 100) * 5) (sharp_peak_day.target_min 5).2 :=
  (target_power_shaves_usable_energy sharp_peak_day 5 5 0 (by decide!) (by norm_num)
    (by decide!) (by decide!)).2

/-! ### The energy scheduled for discharge -/

/-- In a list sorted highest first, a later entry is at most an earlier one. -/
theorem pairwise_getD_antitone (g : List ℚ) (hs : g.Pairwise (fun x y => x ≥ y)) :
    ∀ (i j : ℕ), i ≤ j → j < g.length → g.getD j 0 ≤ g.getD i 0 := by
  induction g with
  | nil =>
    intro i j _ hj
    simp at hj
  | cons x rest ih =>
    rw [List.pairwise_cons] at hs
    intro i j hij hj
    cases j with
    | zero =>
      have : i = 0 := by omega
      subst this
      exact le_refl _
    | succ j =>
      simp only [List.length_cons, Nat.succ_lt_succ_iff] at hj
      cases i with
      | zero =>
        rw [List.getD_cons_zero, List.getD_cons_succ, List.getD_eq_getElem rest 0 hj]
        exact hs.1 _ (List.getElem_mem hj)
      | succ i =>
        rw [List.getD_cons_succ, List.getD_cons_succ]
        exact ih hs.2 i j (by omega) hj

/-- The first `n` net loads, each at least `P`, sum to at least `n * P`. -/
theorem take_sum_ge (g : List ℚ) (P : ℚ) (n : ℕ) (h : ∀ j, j < n → P ≤ g.getD j 0) :
    (n : ℚ) * P ≤ (g.take n).sum := by
  induction n with
  | zero => simp
  | succ n ih =>
    rw [take_sum_succ]
    push_cast
    have h1 := ih (fun j hj => h j (by omega))
    have h2 := h n (by omega)
    linarith

/-- The local `discharge_energy` of `set_discharge` with a start value. -/
theorem discharge_energy_acc (dt P : ℚ) (L : List ℚ) :
    ∀ (acc : ℚ), automate_dispatch_t.discharge_energy dt P L acc
      = acc + automate_dispatch_t.discharge_energy dt P L 0 := by
  induction L with
  | nil =>
    intro acc
    simp [automate_dispatch_t.discharge_energy]
  | cons x rest ih =>
    intro acc
    unfold automate_dispatch_t.discharge_energy
    by_cases h : (x - P) * dt > 0
    · rw [if_pos h, if_pos h, ih (acc + (x - P) * dt), ih (0 + (x - P) * dt)]
      ring
    · rw [if_neg h, if_neg h]
      ring

/-- With the first `n` net loads at least `P0`, the others at most `P0`, and a
target `P1` of at least `P0`, the energy scheduled for discharge at the target
`P1` is at most the energy that shaves the first `n` net loads down to `P0`. -/
theorem discharge_energy_le (dt P0 P1 : ℚ) (hdt : 0 < dt) (hP : P0 ≤ P1) (L : List ℚ) :
    ∀ (n : ℕ) (acc : ℚ), (∀ j, j < n → P0 ≤ L.getD j 0) →
      (∀ j, n ≤ j → j < L.length → L.getD j 0 ≤ P0) →
      automate_dispatch_t.discharge_energy dt P1 L acc
        ≤ acc + ((L.take n).sum - (n : ℚ) * P0) * dt := by
  induction L with
  | nil =>
    intro n acc hA _
    unfold automate_dispatch_t.discharge_energy
    have := take_sum_ge [] P0 n hA
    have h2 : 0 ≤ ((([] : List ℚ).take n).sum - (n : ℚ) * P0) * dt :=
      mul_nonneg (by linarith) (le_of_lt hdt)
    linarith
  | cons x rest ih =>
    intro n acc hA hB
    unfold automate_dispatch_t.discharge_energy
    by_cases h : (x - P1) * dt > 0
    · rw [if_pos h]
      cases n with
      | zero =>
        have hx : x ≤ P0 := hB 0 (le_refl _) (by simp)
        have : (x - P1) * dt ≤ 0 :=
          mul_nonpos_of_nonpos_of_nonneg (by linarith) (le_of_lt hdt)
        linarith
      | succ n =>
        have i1 := ih n (acc + (x - P1) * dt)
          (fun j hj => by simpa using hA (j + 1) (by omega))
          (fun j hj hl => by simpa using hB (j + 1) (by omega) (by simpa using hl))
        have hx : (x - P1) * dt ≤ (x - P0) * dt :=
          mul_le_mul_of_nonneg_right (by linarith) (le_of_lt hdt)
        simp only [List.take_succ_cons, List.sum_cons]
        push_cast
        nlinarith [i1, hx]
    · rw [if_neg h]
      have := take_sum_ge (x :: rest) P0 n hA
      have h2 : 0 ≤ (((x :: rest).take n).sum - (n : ℚ) * P0) * dt :=
        mul_nonneg (by linarith) (le_of_lt hdt)
      linarith

/-- The forward scan of `target_power` on net loads sorted highest first,
entered in pass `ii` with `P` the net load `g[ii]`, not negative, and `sum` the
energy shaved from the first `ii` net loads down to `P`, below `E`: the target
it leaves is not negative and splits the list at some position `n`, the first
`n` net loads at least the target, the others at most, and shaving the first
`n` down to the target takes at most `E`. -/
theorem target_scan_split (g : List ℚ) (dt E : ℚ) (hdt : 0 < dt)
    (hs : ∀ (i j : ℕ), i ≤ j → j < g.length → g.getD j 0 ≤ g.getD i 0) (r : ℕ) :
    ∀ (ii : ℕ) (P sum : ℚ), ii + r < g.length → P = g.getD ii 0 → 0 ≤ P →
      sum = ((g.take ii).sum - (ii : ℚ) * P) * dt → sum < E →
      ∃ n : ℕ, 0 ≤ automate_dispatch_t.target_scan g dt E r ii P sum
        ∧ (∀ j, j < n → automate_dispatch_t.target_scan g dt E r ii P sum ≤ g.getD j 0)
        ∧ (∀ j, n ≤ j → j < g.length →
            g.getD j 0 ≤ automate_dispatch_t.target_scan g dt E r ii P sum)
        ∧ ((g.take n).sum - (n : ℚ) * automate_dispatch_t.target_scan g dt E r ii P sum) * dt
          ≤ E := by
  have stay : ∀ (ii : ℕ) (P sum : ℚ), ii < g.length → P = g.getD ii 0 → 0 ≤ P →
      sum = ((g.take ii).sum - (ii : ℚ) * P) * dt → sum < E →
      ∃ n : ℕ, 0 ≤ P ∧ (∀ j, j < n → P ≤ g.getD j 0)
        ∧ (∀ j, n ≤ j → j < g.length → g.getD j 0 ≤ P)
        ∧ ((g.take n).sum - (n : ℚ) * P) * dt ≤ E := by
    intro ii P sum hii hP h0 hsum hlt
    refine ⟨ii + 1, h0, ?_, ?_, ?_⟩
    · intro j hj
      rw [hP]
      exact hs j ii (by omega) hii
    · intro j hj hl
      rw [hP]
      exact hs ii j (by omega) hl
    · rw [take_sum_succ, ← hP]
      push_cast
      have : ((g.take ii).sum + P - ((ii : ℚ) + 1) * P) * dt = sum := by
        rw [hsum]
        ring
      rw [this]
      exact le_of_lt hlt
  induction r with
  | zero =>
    intro ii P sum hii hP h0 hsum hlt
    unfold automate_dispatch_t.target_scan
    exact stay ii P sum (by omega) hP h0 hsum hlt
  | succ r ih =>
    intro ii P sum hii hP h0 hsum hlt
    unfold automate_dispatch_t.target_scan
    dsimp only
    by_cases h1 : g.getD (ii + 1) 0 < 0
    · rw [if_pos h1]
      exact stay ii P sum (by omega) hP h0 hsum hlt
    · rw [if_neg h1]
      have h1' : 0 ≤ g.getD (ii + 1) 0 := not_lt.mp h1
      by_cases h2 : g.getD ii 0 - g.getD (ii + 1) 0 = 0
      · rw [if_pos h2]
        refine ih (ii + 1) _ sum (by omega) rfl h1' ?_ hlt
        rw [hsum, take_sum_succ, hP]
        push_cast
        have : g.getD ii 0 = g.getD (ii + 1) 0 := by linarith
        rw [← this]
        ring
      · rw [if_neg h2]
        have hs1 : sum + (g.getD ii 0 - g.getD (ii + 1) 0) * ((ii : ℚ) + 1) * dt
            = ((g.take (ii + 1)).sum - ((ii : ℚ) + 1) * g.getD (ii + 1) 0) * dt := by
          rw [hsum, take_sum_succ, hP]
          ring
        by_cases h3 : sum + (g.getD ii 0 - g.getD (ii + 1) 0) * ((ii : ℚ) + 1) * dt < E
        · rw [if_pos h3]
          refine ih (ii + 1) _ _ (by omega) rfl h1' ?_ h3
          rw [hs1]
          push_cast
          ring
        · rw [if_neg h3]
          have hpos : 0 < ((ii : ℚ) + 1) * dt := mul_pos (by positivity) hdt
          have hge : 0 ≤ (sum + (g.getD ii 0 - g.getD (ii + 1) 0) * ((ii : ℚ) + 1) * dt - E)
              / (((ii : ℚ) + 1) * dt) := div_nonneg (by linarith) (le_of_lt hpos)
          have hmul : (sum + (g.getD ii 0 - g.getD (ii + 1) 0) * ((ii : ℚ) + 1) * dt - E)
              / (((ii : ℚ) + 1) * dt) * (((ii : ℚ) + 1) * dt)
              = sum + (g.getD ii 0 - g.getD (ii + 1) 0) * ((ii : ℚ) + 1) * dt - E :=
            div_mul_cancel₀ _ (ne_of_gt hpos)
          generalize (sum + (g.getD ii 0 - g.getD (ii + 1) 0) * ((ii : ℚ) + 1) * dt - E)
            / (((ii : ℚ) + 1) * dt) = q at hge hmul
          have hlt2 : g.getD (ii + 1) 0 + q ≤ g.getD ii 0 := by
            have e : (g.getD (ii + 1) 0 + q - g.getD ii 0) * (((ii : ℚ) + 1) * dt)
                = sum - E := by
              linear_combination hmul
            by_contra hc
            have hnn : 0 ≤ (g.getD (ii + 1) 0 + q - g.getD ii 0) * (((ii : ℚ) + 1) * dt) :=
              mul_nonneg (by linarith) (le_of_lt hpos)
            linarith
          refine ⟨ii + 1, by linarith, ?_, ?_, ?_⟩
          · intro j hj
            have := hs j ii (by omega) (by omega)
            linarith
          · intro j hj hl
            have := hs (ii + 1) j hj hl
            linarith
          · push_cast
            have : ((g.take (ii + 1)).sum - ((ii : ℚ) + 1) * (g.getD (ii + 1) 0 + q)) * dt
                = E := by
              linear_combination -hs1 - hmul
            rw [this]

/-- The local `discharge_energy` of `set_discharge` over the points `L`: the
sum of `(net load - P_target) * dt` over the leading run of points that are
given a discharge profile. -/
theorem discharge_energy_eq_sum (dt P : ℚ) (L : List grid_point) :
    automate_dispatch_t.discharge_energy dt P (L.map (fun g => g.Grid)) 0
      = Finset.sum
          (Finset.range (L.takeWhile (fun g => decide ((g.Grid - P) * dt > 0))).length)
          (fun j => ((L.map (fun g => g.Grid)).getD j 0 - P) * dt) := by
  induction L with
  | nil => simp [automate_dispatch_t.discharge_energy]
  | cons g rest ih =>
    rw [List.map_cons]
    unfold automate_dispatch_t.discharge_energy
    by_cases h : (g.Grid - P) * dt > 0
    · rw [if_pos h, List.takeWhile_cons_of_pos (by simpa using h), List.length_cons,
        Finset.sum_range_succ', discharge_energy_acc, ih]
      simp only [List.getD_cons_succ, List.getD_cons_zero]
      ring
    · rw [if_neg h, List.takeWhile_cons_of_neg (by simpa using h)]
      simp

/-- The discharge percents that the loop of `set_discharge` stores sum to the
scheduled discharge energy as a percentage of `E_max`. -/
theorem set_discharge_loop_percent_sum (him : Int → Int) (a : automate_dispatch_t) (hoy : Int)
    (P E_max : ℚ) (L : List grid_point) (d : dispatch_manual_t) (p : Int) :
    Finset.sum
        (Finset.range (L.takeWhile (fun g => decide ((g.Grid - P) * a.dt_hour > 0))).length)
        (fun j => (a.set_discharge_loop him hoy P E_max L d p).1.percent_discharge_array
          (p + 1 + (j : Int)))
      = 100 * (automate_dispatch_t.discharge_energy a.dt_hour P (L.map (fun g => g.Grid)) 0
          / E_max) := by
  rw [discharge_energy_eq_sum, Finset.sum_div, Finset.mul_sum]
  apply Finset.sum_congr rfl
  intro j hj
  rw [Finset.mem_range] at hj
  have hl : j < L.length := lt_of_lt_of_le hj (List.Sublist.length_le (List.takeWhile_sublist _))
  have hg : L[j]? = some (L.get ⟨j, hl⟩) := by
    simp [List.getElem?_eq_getElem hl]
  rw [(set_discharge_loop_percent him a hoy P E_max L d p j _ hj hg).1]
  have e : (L.map (fun g => g.Grid)).getD j 0 = (L.get ⟨j, hl⟩).Grid := by
    rw [List.getD_eq_getElem _ 0 (by simpa using hl)]
    simp
  rw [e]

/-- C36: for a forecast day with its points sorted by net load, highest first,
the highest net load not negative, a positive timestep and usable energy
`E_useful > 0` from `compute_energy`, whenever `target_power` does not take its
fallback of 30 % of the peak, the energy that `set_discharge` schedules at the
target, the sum of `(net load - P_target) * dt` over the sub-steps given a
discharge profile, is at most `E_useful`, and the discharge percents of these
profiles sum to at most 100.  The list `grid` holds the `_num_steps` points
that the loops run over. -/
theorem scheduled_discharge_within_usable_energy (him : Int → Int) (a : automate_dispatch_t)
    (d : dispatch_manual_t) (B : battery_view) (hoy : Int)
    (hdt : 0 < a.dt_hour) (hlen : a.num_steps.toNat ≤ a.grid.length)
    (hs : a.points.Pairwise (fun x y => x.Grid ≥ y.Grid))
    (h0 : 0 ≤ a.loads.getD 0 0)
    (hE : 0 < (automate_dispatch_t.compute_energy d B).1)
    (hnf : ¬ (a.target_min (automate_dispatch_t.compute_energy d B).1).1
      < (7 / 10) * (automate_dispatch_t.compute_energy d B).1) :
    automate_dispatch_t.discharge_energy a.dt_hour
        (a.target_power (automate_dispatch_t.compute_energy d B).1) a.loads 0
      = Finset.sum
          (Finset.range ((a.set_discharge him d hoy
            (a.target_power (automate_dispatch_t.compute_energy d B).1)
            (automate_dispatch_t.compute_energy d B).2).2 - 1).toNat)
          (fun j => (a.loads.getD j 0
            - a.target_power (automate_dispatch_t.compute_energy d B).1) * a.dt_hour)
      ∧ automate_dispatch_t.discharge_energy a.dt_hour
          (a.target_power (automate_dispatch_t.compute_energy d B).1) a.loads 0
        ≤ (automate_dispatch_t.compute_energy d B).1
      ∧ Finset.sum
          (Finset.range ((a.set_discharge him d hoy
            (a.target_power (automate_dispatch_t.compute_energy d B).1)
            (automate_dispatch_t.compute_energy d B).2).2 - 1).toNat)
          (fun j => (a.set_discharge him d hoy
            (a.target_power (automate_dispatch_t.compute_energy d B).1)
            (automate_dispatch_t.compute_energy d B).2).1.percent_discharge_array
              (1 + 1 + (j : Int)))
        ≤ 100 := by
  have hmax : (automate_dispatch_t.compute_energy d B).2
      = (automate_dispatch_t.compute_energy d B).1 := rfl
  rw [hmax]
  generalize (automate_dispatch_t.compute_energy d B).1 = E at hE hnf ⊢
  -- the bound on the scheduled energy
  have hsl : a.loads.Pairwise (fun x y => x ≥ y) := by
    unfold automate_dispatch_t.loads
    rw [List.pairwise_map]
    exact hs
  have hanti := pairwise_getD_antitone a.loads hsl
  have hll : a.loads.length = a.num_steps.toNat := by
    unfold automate_dispatch_t.loads automate_dispatch_t.points
    rw [List.length_map, List.length_take]
    omega
  have hbound : automate_dispatch_t.discharge_energy a.dt_hour (a.target_power E) a.loads 0
      ≤ E := by
    by_cases hz : a.num_steps.toNat = 0
    · have : a.loads = [] := List.eq_nil_of_length_eq_zero (by omega)
      rw [this]
      unfold automate_dispatch_t.discharge_energy
      exact le_of_lt hE
    · obtain ⟨n, q0, qA, qB, qE⟩ := target_scan_split a.loads a.dt_hour E hdt hanti
        (a.num_steps.toNat - 1) 0 (a.loads.getD 0 0) 0 (by omega) rfl h0 (by simp) hE
      have htp : automate_dispatch_t.target_scan a.loads a.dt_hour E (a.num_steps.toNat - 1) 0
          (a.loads.getD 0 0) 0 ≤ a.target_power E := by
        unfold automate_dispatch_t.target_power
        dsimp only
        rw [if_neg hnf]
        split_ifs with hc
        · linarith
        · linarith
      have := discharge_energy_le a.dt_hour _ _ hdt htp a.loads n 0 qA qB
      linarith
  obtain ⟨a1, -, -, -⟩ := set_discharge_loop_arrays him a hoy (a.target_power E) E a.points d 1
  have hk : ((a.set_discharge him d hoy (a.target_power E) E).2 - 1).toNat
      = (a.points.takeWhile
          (fun g => decide ((g.Grid - a.target_power E) * a.dt_hour > 0))).length := by
    unfold automate_dispatch_t.set_discharge
    rw [a1]
    simp
  rw [hk]
  refine ⟨?_, hbound, ?_⟩
  · unfold automate_dispatch_t.loads
    exact discharge_energy_eq_sum a.dt_hour (a.target_power E) a.points
  · unfold automate_dispatch_t.set_discharge
    rw [set_discharge_loop_percent_sum]
    have h1 : automate_dispatch_t.discharge_energy a.dt_hour (a.target_power E)
        (a.points.map (fun g => g.Grid)) 0 / E ≤ 1 := by
      rw [div_le_one hE]
      exact hbound
    linarith

theorem scheduled_discharge_within_usable_energy_witness :
    0 < (automate_dispatch_t.compute_energy manual_example battery_example).1
      ∧ automate_dispatch_t.discharge_energy sharp_peak_day.dt_hour
          (sharp_peak_day.target_power
            (automate_dispatch_t.compute_energy manual_example battery_example).1)
          sharp_peak_day.loads 0
        ≤ (automate_dispatch_t.compute_energy manual_example battery_example).1
      ∧ Finset.sum
          (Finset.range ((sharp_peak_day.set_discharge hours_in_month_table manual_example 0
            (sharp_peak_day.target_power
              (automate_dispatch_t.compute_energy manual_example battery_example).1)
            (automate_dispatch_t.compute_energy manual_example battery_example).2).2 - 1).toNat)
          (fun j => (sharp_peak_day.set_discharge hours_in_month_table manual_example 0
            (sharp_peak_day.target_power
              (automate_dispatch_t.compute_energy manual_example battery_example).1)
            (automate_dispatch_t.compute_energy manual_example battery_example).2).1.percent_discharge_array
              (1 + 1 + (j : Int)))
        ≤ 100 :=
  ⟨by decide!,
    (scheduled_discharge_within_usable_energy hours_in_month_table sharp_peak_day manual_example
      battery_example 0 (by decide!) (by decide!) (by decide!) (by decide!) (by decide!)
      (by decide!)).2⟩
